import Mathlib

/-!
# Live block migration (`block-migration.c`): shallow embedding

The C translation unit `src/block-migration.c` is embedded as pure Lean
functions with explicit state passing.  Machine integers are natural numbers or
integers with explicit wrap-around where a conversion or an overflow can be
observed (`int` is 32 bit, `int64_t`, `uint64_t` and `unsigned long` are
64 bit).  Sector numbers and sector counts are natural numbers: every device
the engine registers has `sectors > 0`, and every cursor only grows from 0.
A `long double` is the rational it denotes, and a `long double` quotient is
rounded to the 64-bit significand of the x87 extended format.

The pipelined sender (`block_save_iter` and the synchronous sweeps) works on
`block_mig_state` and a `Pipe`; the asynchronous path (`mig_save_device_bulk`,
`mig_save_device_dirty`, `blk_mig_read_cb`, the flushes) and `block_save_live`
work on an `Engine`, which adds the stream and the reads in flight.  Loops
whose trip count is not known in advance take fuel and return `none` when it
runs out; a failed `assert` is the outcome `Run.aborts`.
-/

namespace BlockMigration

/-! ## Constants -/

/-- Modelled from the spec: `SECTOR_BITS = 9` (the macro lives in `block.h`). -/
def BDRV_SECTOR_BITS : Nat := 9

/-- Modelled from the spec: sector size `1 << SECTOR_BITS` bytes (512). -/
def BDRV_SECTOR_SIZE : Nat := 1 <<< BDRV_SECTOR_BITS

/-- Modelled from the spec: a dirty chunk is 2048 sectors (the macro lives in
`block.h`). -/
def BDRV_SECTORS_PER_DIRTY_CHUNK : Nat := 2048

/-- `#define BLOCK_SIZE (BDRV_SECTORS_PER_DIRTY_CHUNK << BDRV_SECTOR_BITS)` -/
def BLOCK_SIZE : Nat := BDRV_SECTORS_PER_DIRTY_CHUNK <<< BDRV_SECTOR_BITS

def BLK_MIG_FLAG_DEVICE_BLOCK : Nat := 0x01
def BLK_MIG_FLAG_EOS : Nat := 0x02
def BLK_MIG_FLAG_PROGRESS : Nat := 0x04
def MAX_IS_ALLOCATED_SEARCH : Nat := 65536
def DISK_VNUM_OFFSET : Nat := 3
def DISK_VNUM_MASK : Nat := 0x3f <<< DISK_VNUM_OFFSET
def DISK_NEGOTIATE : Nat := 0x3f

/-- Value of the `errno` constant `EINVAL`. -/
def EINVAL : Int := 22

/-- Value of the `errno` constant `EIO`. -/
def EIO : Int := 5

/-! ## Machine integers -/

/-- Conversion of a 32-bit pattern to `int` (two's complement). -/
def toInt32 (w : Nat) : Int :=
  if w % 2 ^ 32 < 2 ^ 31 then ((w % 2 ^ 32 : Nat) : Int) else ((w % 2 ^ 32 : Nat) : Int) - 2 ^ 32

/-- Conversion of a 64-bit pattern to `int64_t` (two's complement). -/
def toInt64 (w : Nat) : Int :=
  if w % 2 ^ 64 < 2 ^ 63 then ((w % 2 ^ 64 : Nat) : Int) else ((w % 2 ^ 64 : Nat) : Int) - 2 ^ 64

/-- Conversion of an integer to its 64-bit pattern (`uint64_t`, `unsigned long`). -/
def toUInt64 (i : Int) : Nat := (i % 2 ^ 64).toNat

/-- Bit pattern, widened to 64 bits with sign extension, of the 32-bit `int`
whose bit pattern is `w % 2^32`. -/
def sext32 (w : Nat) : Nat :=
  if w % 2 ^ 32 < 2 ^ 31 then w % 2 ^ 32 else w % 2 ^ 32 + (2 ^ 64 - 2 ^ 32)

/-! ## The stream (`QEMUFile`) -/

/-- Modelled from the spec: the Stream interface.  A stream is a sequence of
bytes plus an error flag; the writer appends at the end, the reader consumes
from the front, and a read past the end yields 0 and raises the error flag. -/
structure QEMUFile where
  buf : List Nat
  has_error : Bool

/-- Modelled from the spec: write one byte (the low 8 bits of `v`). -/
def qemu_put_byte (f : QEMUFile) (v : Nat) : QEMUFile :=
  { f with buf := f.buf ++ [v % 256] }

/-- Modelled from the spec: write exactly `size` bytes taken from `buf`; bytes
beyond the end of the model buffer stand for unwritten memory and go out as 0. -/
def qemu_put_buffer (f : QEMUFile) (buf : List Nat) (size : Nat) : QEMUFile :=
  { f with buf := f.buf ++ (buf.take size ++ List.replicate (size - buf.length) 0) }

/-- Modelled from the spec: write an 8-byte big-endian word. -/
def qemu_put_be64 (f : QEMUFile) (v : Nat) : QEMUFile :=
  qemu_put_byte (qemu_put_byte (qemu_put_byte (qemu_put_byte (qemu_put_byte
    (qemu_put_byte (qemu_put_byte (qemu_put_byte f (v / 2 ^ 56)) (v / 2 ^ 48)) (v / 2 ^ 40))
    (v / 2 ^ 32)) (v / 2 ^ 24)) (v / 2 ^ 16)) (v / 2 ^ 8)) v

/-- Modelled from the spec: read one byte. -/
def qemu_get_byte (f : QEMUFile) : Nat × QEMUFile :=
  match f.buf with
  | [] => (0, { f with has_error := true })
  | b :: rest => (b, { f with buf := rest })

/-- Modelled from the spec: read `size` bytes; a short read raises the error
flag. -/
def qemu_get_buffer (f : QEMUFile) (size : Nat) : List Nat × QEMUFile :=
  (f.buf.take size,
   { buf := f.buf.drop size, has_error := f.has_error || decide (f.buf.length < size) })

/-- Modelled from the spec: read an 8-byte big-endian word. -/
def qemu_get_be64 (f : QEMUFile) : Nat × QEMUFile :=
  let (b0, f) := qemu_get_byte f
  let (b1, f) := qemu_get_byte f
  let (b2, f) := qemu_get_byte f
  let (b3, f) := qemu_get_byte f
  let (b4, f) := qemu_get_byte f
  let (b5, f) := qemu_get_byte f
  let (b6, f) := qemu_get_byte f
  let (b7, f) := qemu_get_byte f
  (b0 * 2 ^ 56 + b1 * 2 ^ 48 + b2 * 2 ^ 40 + b3 * 2 ^ 32 +
     b4 * 2 ^ 24 + b5 * 2 ^ 16 + b6 * 2 ^ 8 + b7, f)

/-- Modelled from the spec: `qemu_file_set_error`. -/
def qemu_file_set_error (f : QEMUFile) : QEMUFile := { f with has_error := true }

/-- Modelled from the spec: `qemu_file_has_error`. -/
def qemu_file_has_error (f : QEMUFile) : Bool := f.has_error

/-- The C string held in a character array: the bytes before the first NUL. -/
def cstr (s : List Nat) : List Nat := s.takeWhile (fun c => c != 0)

/-- The libc function `strlen`. -/
def strlen (s : List Nat) : Nat := (cstr s).length

/-! ## Data model -/

/-- Modelled from the spec: the BlockDevice adapter's view of one disk
(`block_int.h` is outside this file).  `length` is `bdrv_getlength` in bytes,
`dirty k` is the driver's dirty bit of chunk `k`. -/
structure BlockDriverState where
  device_name : List Nat
  length : Int
  read_only : Bool
  dirty : Nat → Bool

/-- Modelled from the spec: `length_sectors`, in bytes. -/
def bdrv_getlength (bs : BlockDriverState) : Int := bs.length

/-- Modelled from the spec: `dirty_get(sector)`, at chunk granularity. -/
def bdrv_get_dirty (bs : BlockDriverState) (sector : Nat) : Bool :=
  bs.dirty (sector / BDRV_SECTORS_PER_DIRTY_CHUNK)

/-- Modelled from the spec: `dirty_reset(sector, nr_sectors)` clears the dirty
bit of every chunk that the sector range touches. -/
def bdrv_reset_dirty (bs : BlockDriverState) (sector nr_sectors : Nat) : BlockDriverState :=
  { bs with dirty := fun k =>
      if sector / BDRV_SECTORS_PER_DIRTY_CHUNK ≤ k ∧
          k ≤ (sector + nr_sectors - 1) / BDRV_SECTORS_PER_DIRTY_CHUNK
      then false else bs.dirty k }

/-- Number of chunks of a device of `sectors` sectors. -/
def nb_chunks (sectors : Nat) : Nat :=
  (sectors + BDRV_SECTORS_PER_DIRTY_CHUNK - 1) / BDRV_SECTORS_PER_DIRTY_CHUNK

/-- Modelled from the spec: `dirty_count()`, the number of dirty chunks of the
device. -/
def bdrv_get_dirty_count (bs : BlockDriverState) : Int :=
  (((List.range (nb_chunks (bs.length / 512).toNat)).filter bs.dirty).length : Int)

/-- `struct BlkMigDevState`.  The queue link is the position in `bmds_list`;
`aio_bitmap` is the array of the `unsigned long` words that lie inside the
allocation it points to. -/
structure BlkMigDevState where
  bs : BlockDriverState
  bulk_completed : Int
  shared_base : Int
  cur_sector : Nat
  cur_dirty : Nat
  completed_sectors : Nat
  total_sectors : Nat
  dirty : Int
  aio_bitmap : List Nat

/-- `struct BlkMigBlock`.  `bmds` is the pointer to the owning device, held as
its position in `bmds_list`; `buf` is the sector data. -/
structure BlkMigBlock where
  buf : List Nat
  bmds : Nat
  sector : Nat
  nr_sectors : Nat
  ret : Int
  time : Int
  done : Int
  deriving DecidableEq

/-- `struct BlkMigState`, the singleton `block_mig_state`.  `total_time` is a
`long double` that only ever accumulates `int64_t` values: it holds an
integer, and the sums are exact while they stay below `2^64` in size. -/
structure BlkMigState where
  blk_enable : Int
  shared_base : Int
  bmds_list : List BlkMigDevState
  blk_list : List BlkMigBlock
  submitted : Int
  read_done : Int
  transferred : Int
  total_sector_sum : Int
  prev_progress : Int
  bulk_completed : Int
  total_time : Int
  reads : Int

/-- Tag of a task body (`migr-vqueue.h`). -/
inductive task_type where
  | TASK_TYPE_DISK
  deriving DecidableEq, Repr

/-- Modelled from the spec: TaskBody, a batch of chunk references tagged with
the iteration number (`struct task_body` lives in `migr-vqueue.h`). -/
structure task_body where
  type : task_type
  len : Nat
  iter_num : Nat
  blocks : List BlkMigBlock

/-- Modelled from the spec: the TaskQueue.  `tasks` lists the pushed task body
pointers, oldest first; `task_pending` is maintained by the consumer threads. -/
structure migration_task_queue where
  iter_num : Nat
  task_pending : Int
  section_id : Int
  tasks : List Nat

/-- Heap of task bodies: a pointer is a position in `bodies`.  `freed` lists the
pointers passed to `free`; `use_after_free` records that a store went through a
freed pointer. -/
structure TaskHeap where
  bodies : List task_body
  freed : List Nat
  use_after_free : Bool

/-- One call into the block layer, as recorded in the call log. -/
inductive BdrvCall where
  | read (dev sector nr_sectors : Nat)
  | reset_dirty (dev sector nr_sectors : Nat)
  deriving DecidableEq, Repr

/-- Everything outside `block_mig_state` that the pipelined sender touches: the
task queue, the task body heap and the log of block layer calls. -/
structure Pipe where
  task_q : migration_task_queue
  heap : TaskHeap
  log : List BdrvCall

/-- Modelled from the spec: the part of the block layer whose result depends on
the disk contents or on outstanding I/O.  `bdrv_read bs sector nr` is `none`
when the synchronous read fails and the data otherwise; `qemu_aio_flush` is the
effect on a device's in-flight bitmap of draining its outstanding asynchronous
reads. -/
structure BlockLayer where
  bdrv_read : BlockDriverState → Nat → Nat → Option (List Nat)
  qemu_aio_flush : List Nat → List Nat

/-- Modelled from the spec: `queue_push_task` appends the pointer to the queue. -/
def queue_push_task (q : migration_task_queue) (body : Nat) : migration_task_queue :=
  { q with tasks := q.tasks ++ [body] }

/-- The allocation sequence `body = malloc(...); body->type = TASK_TYPE_DISK;
body->len = 0; body->iter_num = task_q->iter_num;` returning the new pointer. -/
def new_task_body (p : Pipe) : Nat × Pipe :=
  (p.heap.bodies.length,
   { p with heap := { p.heap with bodies := p.heap.bodies ++
      [{ type := task_type.TASK_TYPE_DISK, len := 0, iter_num := p.task_q.iter_num,
         blocks := [] }] } })

/-- The field `body->len`. -/
def body_len (h : TaskHeap) (body : Nat) : Nat :=
  match h.bodies.get? body with
  | some b => b.len
  | none => 0

/-- The store `body->blocks[body->len++].ptr = blk`. -/
def body_add_block (h : TaskHeap) (body : Nat) (blk : BlkMigBlock) : TaskHeap :=
  match h.bodies.get? body with
  | some b =>
    { bodies := h.bodies.set body
        { b with blocks := b.blocks.take b.len ++ [blk], len := b.len + 1 },
      freed := h.freed,
      use_after_free := h.use_after_free || decide (body ∈ h.freed) }
  | none => h

/-- The call `free(body)`. -/
def free_body (h : TaskHeap) (body : Nat) : TaskHeap :=
  { h with freed := h.freed ++ [body] }

/-- Outcome of a call that may fail an `assert`. -/
inductive Run (α : Type) where
  | returns (a : α)
  | aborts

/-! ## In-flight bitmap test -/

/-- The function `bmds_aio_inflight` (`sizeof(unsigned long) * 8` is 64).  A
word outside the array reads as 0 here; `bmds_aio_inflight_checked` makes the
bound of the array explicit. -/
def bmds_aio_inflight (bmds : BlkMigDevState) (sector : Nat) : Bool :=
  let chunk := sector / BDRV_SECTORS_PER_DIRTY_CHUNK
  if toInt64 (sector <<< BDRV_SECTOR_BITS) < bdrv_getlength bmds.bs then
    decide ((bmds.aio_bitmap.getD (chunk / 64) 0) &&& (1 <<< (chunk % 64)) ≠ 0)
  else false

/-! ## Sender side of the wire format -/

/-- The header word that `disk_save_block_slave` passes to `qemu_put_be64`:
`(blk->sector << BDRV_SECTOR_BITS) | BLK_MIG_FLAG_DEVICE_BLOCK |
(iter_num << DISK_VNUM_OFFSET)`.  `iter_num` is a non-negative `int`;
`iter_num << DISK_VNUM_OFFSET` is computed in `int` and widened to 64 bits by
the `|` with the `int64_t` sector word. -/
def data_header (sector iter_num : Nat) : Nat :=
  ((sector <<< BDRV_SECTOR_BITS) % 2 ^ 64) ||| BLK_MIG_FLAG_DEVICE_BLOCK
    ||| sext32 (iter_num <<< DISK_VNUM_OFFSET)

/-- The function `disk_save_block_slave`: writes one data record for the chunk
`blk` and returns `BLOCK_SIZE`.  The result is `none` when `blk->bmds` does not
point to a device of `bmds_list`. -/
def disk_save_block_slave (bmds_list : List BlkMigDevState) (blk : BlkMigBlock)
    (iter_num : Nat) (f : QEMUFile) : Option (Nat × QEMUFile) :=
  match bmds_list.get? blk.bmds with
  | none => none
  | some bmds =>
    let f := qemu_put_be64 f (data_header blk.sector iter_num)
    let len := strlen bmds.bs.device_name
    let f := qemu_put_byte f len
    let f := qemu_put_buffer f bmds.bs.device_name len
    let f := qemu_put_buffer f blk.buf BLOCK_SIZE
    some (BLOCK_SIZE, f)

/-- Byte size computed by `alloc_aio_bitmap` for the in-flight bitmap. -/
def alloc_aio_bitmap_size (bs : BlockDriverState) : Int :=
  ((bdrv_getlength bs / 2 ^ BDRV_SECTOR_BITS) + BDRV_SECTORS_PER_DIRTY_CHUNK * 8 - 1) /
    (BDRV_SECTORS_PER_DIRTY_CHUNK * 8)

/-- The function `alloc_aio_bitmap`: the zero-filled allocation of
`bitmap_size` bytes, seen as the array of the `unsigned long` words that lie
inside it (word `idx` is the bytes `8 * idx` to `8 * idx + 7`).  A word that
does not lie entirely inside the allocation is no element of the array. -/
def alloc_aio_bitmap (bs : BlockDriverState) : List Nat :=
  List.replicate ((alloc_aio_bitmap_size bs).toNat / 8) 0

/-- The header word of a negotiation record, as written by
`init_blk_migration_it`: `DISK_NEGOTIATE << DISK_VNUM_OFFSET`. -/
def negotiate_header : Nat := DISK_NEGOTIATE <<< DISK_VNUM_OFFSET

/-- The function `init_blk_migration_it`: registers a writable device of
positive length and writes its negotiation record. -/
def init_blk_migration_it (st : BlkMigState) (f : QEMUFile) (bs : BlockDriverState) :
    BlkMigState × QEMUFile :=
  if !bs.read_only then
    let sectors := bdrv_getlength bs / 2 ^ BDRV_SECTOR_BITS
    if sectors ≤ 0 then (st, f)
    else
      let bmds : BlkMigDevState :=
        { bs := bs, bulk_completed := 0, shared_base := st.shared_base, cur_sector := 0,
          cur_dirty := 0, completed_sectors := 0, total_sectors := sectors.toNat, dirty := 0,
          aio_bitmap := alloc_aio_bitmap bs }
      let st := { st with total_sector_sum := st.total_sector_sum + sectors }
      let f := qemu_put_be64 f negotiate_header
      let len := strlen bs.device_name
      let f := qemu_put_byte f len
      let f := qemu_put_buffer f bs.device_name len
      let f := qemu_put_be64 f (toUInt64 sectors)
      ({ st with bmds_list := st.bmds_list ++ [bmds] }, f)
  else (st, f)

/-- The function `init_blk_migration`; `drives` is what `bdrv_iterate` visits. -/
def init_blk_migration (st : BlkMigState) (f : QEMUFile) (drives : List BlockDriverState) :
    BlkMigState × QEMUFile :=
  let st := { st with submitted := 0, read_done := 0, transferred := 0, total_sector_sum := 0,
                      prev_progress := -1, bulk_completed := 0, total_time := 0, reads := 0 }
  drives.foldl (fun acc bs => init_blk_migration_it acc.1 acc.2 bs) (st, f)

/-! ## Receiver side: `block_load` -/

/-- Modelled from the spec: the write task `{device, sector, buffer,
nr_sectors}` handed to the reduce queue (`struct disk_task`). -/
structure disk_task where
  bs : BlockDriverState
  addr : Int
  buf : List Nat
  nr_sectors : Int

/-- What `block_load` changes outside the stream: the reduce queue, the
version vectors allocated by negotiation records (device name and length), the
progress values printed, and the static `banner_printed`. -/
structure LoadState where
  reduce_q : List disk_task
  version_queue : List (List Nat × Int)
  progress : List Int
  banner_printed : Bool

/-- Locals `flags`, `addr` and `iter_num` of `block_load`, decoded from the
header word `w` returned by `qemu_get_be64`. -/
structure LoadHeader where
  flags : Nat
  addr : Int
  iter_num : Nat

/-- Header decoding of `block_load`: `flags = addr & ~BDRV_SECTOR_MASK;
addr >>= BDRV_SECTOR_BITS; iter_num = (flags & DISK_VNUM_MASK) >> DISK_VNUM_OFFSET`. -/
def block_load_header (w : Nat) : LoadHeader :=
  let flags := w &&& (BDRV_SECTOR_SIZE - 1)
  { flags := flags,
    addr := toInt64 w / 2 ^ BDRV_SECTOR_BITS,
    iter_num := (flags &&& DISK_VNUM_MASK) >>> DISK_VNUM_OFFSET }

/-- The three statements `len = qemu_get_byte(f); qemu_get_buffer(f,
device_name, len); device_name[len] = 0` of `block_load`; the result is the C
string then held in `device_name`. -/
def block_load_device_name (f : QEMUFile) : List Nat × QEMUFile :=
  let (len, f) := qemu_get_byte f
  let (device_name, f) := qemu_get_buffer f len
  (cstr device_name, f)

/-- The computation of `nr_sectors` in `block_load`: `total_sectors - addr` when
that is below the chunk size (an `int64_t` stored into an `int`), the chunk
size otherwise. -/
def block_load_nr_sectors (total_sectors addr : Int) : Int :=
  if total_sectors - addr < BDRV_SECTORS_PER_DIRTY_CHUNK
  then toInt32 (toUInt64 (total_sectors - addr))
  else BDRV_SECTORS_PER_DIRTY_CHUNK

/-- Outcome of the branch taken by one pass of the `do` loop of `block_load`. -/
inductive LoadStep where
  | ret (code : Int) (f : QEMUFile) (s : LoadState)
  | next (flags : Nat) (f : QEMUFile) (s : LoadState)

/-- One pass of the `do` loop of `block_load`, up to the test of
`qemu_file_has_error`.  `bdrv_find` resolves a device name at the destination. -/
def block_load_body (bdrv_find : List Nat → Option BlockDriverState) (f : QEMUFile)
    (s : LoadState) : LoadStep :=
  let (w, f) := qemu_get_be64 f
  let h := block_load_header w
  if h.flags &&& BLK_MIG_FLAG_DEVICE_BLOCK ≠ 0 then
    let (device_name, f) := block_load_device_name f
    match bdrv_find device_name with
    | none => LoadStep.ret (-EINVAL) f s
    | some bs =>
      let total_sectors := bdrv_getlength bs / 2 ^ BDRV_SECTOR_BITS
      if total_sectors ≤ 0 then LoadStep.ret (-EINVAL) f s
      else
        let nr_sectors := block_load_nr_sectors total_sectors h.addr
        let (buf, f) := qemu_get_buffer f BLOCK_SIZE
        let task : disk_task := { bs := bs, addr := h.addr, buf := buf, nr_sectors := nr_sectors }
        LoadStep.next h.flags f { s with reduce_q := s.reduce_q ++ [task] }
  else if h.flags &&& BLK_MIG_FLAG_PROGRESS ≠ 0 then
    LoadStep.next h.flags f { s with progress := s.progress ++ [toInt32 (toUInt64 h.addr)],
                                     banner_printed := true }
  else if h.iter_num = DISK_NEGOTIATE then
    let (device_name, f) := block_load_device_name f
    match bdrv_find device_name with
    | none => LoadStep.ret (-EINVAL) f s
    | some _ =>
      let (total_sectors, f) := qemu_get_be64 f
      LoadStep.next h.flags f
        { s with version_queue := s.version_queue ++ [(device_name, toInt64 total_sectors)] }
  else if h.flags &&& BLK_MIG_FLAG_EOS = 0 then
    LoadStep.ret (-EINVAL) f s
  else LoadStep.next h.flags f s

/-- The `do ... while (!(flags & BLK_MIG_FLAG_EOS))` loop of `block_load`; one
unit of fuel per pass, `none` when the fuel runs out. -/
def block_load_loop (bdrv_find : List Nat → Option BlockDriverState) :
    Nat → QEMUFile → LoadState → Option (Int × QEMUFile × LoadState)
  | 0, _, _ => none
  | fuel + 1, f, s =>
    match block_load_body bdrv_find f s with
    | LoadStep.ret code f s => some (code, f, s)
    | LoadStep.next flags f s =>
      if qemu_file_has_error f then some (- EIO, f, s)
      else if flags &&& BLK_MIG_FLAG_EOS = 0 then block_load_loop bdrv_find fuel f s
      else some (0, f, s)

/-- The function `block_load`.  Every pass that does not return consumes at
least the 8 header bytes, so one unit of fuel per remaining byte is enough. -/
def block_load (bdrv_find : List Nat → Option BlockDriverState) (f : QEMUFile)
    (s : LoadState) : Option (Int × QEMUFile × LoadState) :=
  block_load_loop bdrv_find (f.buf.length + 1) f s

/-! ## Synchronous sweeps of the pipelined sender -/

/-- Locals and state threaded through the chunk loop of a synchronous sweep:
the device, the current `body` pointer, `data_sent`, the queue, heap and call
log, and whether the loop was left by `return -1` after a failed read.
A sweep starts with `failed = false`. -/
structure Sweep where
  bmds : BlkMigDevState
  body : Nat
  data_sent : Nat
  pipe : Pipe
  failed : Bool

/-- The computation of `nr_sectors` in the sweeps: the tail of the device when
fewer than a chunk of sectors is left, the chunk size otherwise. -/
def sweep_nr_sectors (total_sectors sector : Nat) : Nat :=
  if total_sectors - sector < BDRV_SECTORS_PER_DIRTY_CHUNK
  then total_sectors - sector else BDRV_SECTORS_PER_DIRTY_CHUNK

/-- The statements shared by both synchronous sweeps once `bdrv_read` has
succeeded with `data`: link the chunk into `body`, reset the dirty bits of the
range, and push `body` and allocate a new one when it holds `BATCH_LEN` chunks.
The back-pressure wait on `task_pending` only delays the push and is not
modelled (the consumer threads are outside this file). -/
def sweep_emit (BATCH_LEN dev sector nr_sectors : Nat) (data : List Nat) (s : Sweep) : Sweep :=
  let blk : BlkMigBlock :=
    { buf := data, bmds := dev, sector := sector, nr_sectors := nr_sectors,
      ret := 0, time := 0, done := 0 }
  let p := { s.pipe with heap := body_add_block s.pipe.heap s.body blk }
  let bmds := { s.bmds with bs := bdrv_reset_dirty s.bmds.bs sector nr_sectors }
  let p := { p with log := p.log ++ [BdrvCall.reset_dirty dev sector nr_sectors] }
  let bp := if body_len p.heap s.body = BATCH_LEN
    then new_task_body { p with task_q := queue_push_task p.task_q s.body }
    else (s.body, p)
  { s with bmds := bmds, body := bp.1, pipe := bp.2 }

/-- One pass of the `for` loop of `blk_mig_save_bulked_block_sync` at `sector`
for the device at position `dev`; `failed` is set when the pass executes
`return -1`. -/
def blk_mig_save_bulked_block_sync_chunk (bl : BlockLayer) (BATCH_LEN dev sector : Nat)
    (s : Sweep) : Sweep :=
  let nr_sectors := sweep_nr_sectors s.bmds.total_sectors sector
  let s := { s with pipe :=
    { s.pipe with log := s.pipe.log ++ [BdrvCall.read dev sector nr_sectors] } }
  match bl.bdrv_read s.bmds.bs sector nr_sectors with
  | none => { s with failed := true }
  | some data =>
    let s := sweep_emit BATCH_LEN dev sector nr_sectors data s
    { s with bmds := { s.bmds with cur_dirty := sector + BDRV_SECTORS_PER_DIRTY_CHUNK } }

/-- The loop header `for (sector = start; sector < bmds->total_sectors;)` that
both synchronous sweeps use, around the loop body `pass`; the body ends with
`sector += BDRV_SECTORS_PER_DIRTY_CHUNK`, and the loop is left when a pass
executes `return -1`.  One unit of fuel per test of the loop condition, `none`
when the fuel runs out. -/
def for_each_chunk (pass : Nat → Sweep → Sweep) : Nat → Nat → Sweep → Option Sweep
  | 0, _, _ => none
  | fuel + 1, sector, s =>
    if sector < s.bmds.total_sectors then
      let s := pass sector s
      if s.failed then some s
      else for_each_chunk pass fuel (sector + BDRV_SECTORS_PER_DIRTY_CHUNK) s
    else some s

/-- The `for (sector = bmds->cur_sector; sector < bmds->total_sectors;)` loop of
`blk_mig_save_bulked_block_sync` for the device at position `dev`. -/
def blk_mig_save_bulked_block_sync_chunks (bl : BlockLayer) (BATCH_LEN dev : Nat) :
    Nat → Nat → Sweep → Option Sweep :=
  for_each_chunk (blk_mig_save_bulked_block_sync_chunk bl BATCH_LEN dev)

/-- The statement `if (body->len != 0) queue_push_task(task_q, body); else
free(body);` that ends a sweep of one device. -/
def flush_last_body (p : Pipe) (body : Nat) : Pipe :=
  if body_len p.heap body ≠ 0 then { p with task_q := queue_push_task p.task_q body }
  else { p with heap := free_body p.heap body }

/-- The `QSIMPLEQ_FOREACH` loop of `blk_mig_save_bulked_block_sync` over the
devices from position `dev` on.  The first component of the result is the value
of a `return` executed inside the loop, if any; the second is the list of the
visited devices as the loop leaves them. -/
def blk_mig_save_bulked_block_sync_devs (bl : BlockLayer) (BATCH_LEN : Nat) :
    Nat → List BlkMigDevState → Nat → Pipe → Option (Option Nat × List BlkMigDevState × Pipe)
  | _, [], _, p => some (none, [], p)
  | dev, bmds :: rest, body, p =>
    if bmds.bulk_completed = 0 then
      if bmds.shared_base ≠ 0 then some (some 0, bmds :: rest, p)
      else
        match blk_mig_save_bulked_block_sync_chunks bl BATCH_LEN dev
            (bmds.total_sectors - bmds.cur_sector + 1) bmds.cur_sector
            { bmds := bmds, body := body, data_sent := 0, pipe := p, failed := false } with
        | none => none
        | some s =>
          if s.failed then some (some (2 ^ 64 - 1), s.bmds :: rest, s.pipe)
          else
            match blk_mig_save_bulked_block_sync_devs bl BATCH_LEN (dev + 1) rest s.body
                (flush_last_body s.pipe s.body) with
            | none => none
            | some (r, rest, p) => some (r, { s.bmds with bulk_completed := 1 } :: rest, p)
    else
      match blk_mig_save_bulked_block_sync_devs bl BATCH_LEN (dev + 1) rest body p with
      | none => none
      | some (r, rest, p) => some (r, { bmds with bulk_completed := 1 } :: rest, p)

/-- Result of a sender entry point: the returned `unsigned long`, the new
`block_mig_state` and the new queue, heap and call log. -/
structure SyncOut where
  ret : Nat
  st : BlkMigState
  pipe : Pipe

/-- The function `blk_mig_save_bulked_block_sync`.  Its local `data_sent` is
never incremented, so a run that reaches the end returns 0; `return -1` is
`2^64 - 1` as `unsigned long`. -/
def blk_mig_save_bulked_block_sync (bl : BlockLayer) (BATCH_LEN : Nat) (st : BlkMigState)
    (p : Pipe) : Option SyncOut :=
  let bp := new_task_body p
  match blk_mig_save_bulked_block_sync_devs bl BATCH_LEN 0 st.bmds_list bp.1 bp.2 with
  | none => none
  | some (some r, l, p) => some { ret := r, st := { st with bmds_list := l }, pipe := p }
  | some (none, l, p) =>
    some { ret := 0, st := { st with bmds_list := l, bulk_completed := 1 }, pipe := p }

/-- One pass of the `for` loop of `mig_save_device_dirty_sync` at `sector` for
the device at position `dev`; `failed` is set when the pass executes
`return -1`.  `data_sent` is an `unsigned long`. -/
def mig_save_device_dirty_sync_chunk (bl : BlockLayer) (BATCH_LEN dev sector : Nat)
    (s : Sweep) : Sweep :=
  let s := if bmds_aio_inflight s.bmds sector
    then { s with bmds := { s.bmds with aio_bitmap := bl.qemu_aio_flush s.bmds.aio_bitmap } }
    else s
  if bdrv_get_dirty s.bmds.bs sector then
    let nr_sectors := sweep_nr_sectors s.bmds.total_sectors sector
    let s := { s with pipe :=
      { s.pipe with log := s.pipe.log ++ [BdrvCall.read dev sector nr_sectors] } }
    match bl.bdrv_read s.bmds.bs sector nr_sectors with
    | none => { s with failed := true }
    | some data =>
      let s := sweep_emit BATCH_LEN dev sector nr_sectors data s
      { s with bmds := { s.bmds with cur_dirty := sector + BDRV_SECTORS_PER_DIRTY_CHUNK },
               data_sent := (s.data_sent + BLOCK_SIZE) % 2 ^ 64 }
  else
    { s with bmds := { s.bmds with cur_dirty := sector + BDRV_SECTORS_PER_DIRTY_CHUNK } }

/-- The `for (sector = bmds->cur_dirty; sector < bmds->total_sectors;)` loop of
`mig_save_device_dirty_sync` for the device at position `dev`. -/
def mig_save_device_dirty_sync_chunks (bl : BlockLayer) (BATCH_LEN dev : Nat) :
    Nat → Nat → Sweep → Option Sweep :=
  for_each_chunk (mig_save_device_dirty_sync_chunk bl BATCH_LEN dev)

/-- The function `mig_save_device_dirty_sync` for the device at position `dev`.
It is declared `static int` and returns the `unsigned long data_sent`, so the
value goes through a conversion to `int`. -/
def mig_save_device_dirty_sync (bl : BlockLayer) (BATCH_LEN dev : Nat) (bmds : BlkMigDevState)
    (p : Pipe) : Option (Int × BlkMigDevState × Pipe) :=
  let bp := new_task_body p
  match mig_save_device_dirty_sync_chunks bl BATCH_LEN dev
      (bmds.total_sectors - bmds.cur_dirty + 1) bmds.cur_dirty
      { bmds := bmds, body := bp.1, data_sent := 0, pipe := bp.2, failed := false } with
  | none => none
  | some s =>
    if s.failed then some (-1, s.bmds, s.pipe)
    else some (toInt32 s.data_sent, s.bmds, flush_last_body s.pipe s.body)

/-- The function `blk_mig_reset_dirty_cursor`. -/
def blk_mig_reset_dirty_cursor (st : BlkMigState) : BlkMigState :=
  { st with bmds_list := st.bmds_list.map (fun bmds => { bmds with cur_dirty := 0 }) }

/-- The `while (block_mig_state.bulk_completed == 0)` loop of `disk_save_master`;
one unit of fuel per test of the loop condition, `none` when the fuel runs out. -/
def disk_save_master_bulk (bl : BlockLayer) (BATCH_LEN : Nat) :
    Nat → Nat → BlkMigState → Pipe → Option SyncOut
  | 0, _, _, _ => none
  | fuel + 1, data_sent, st, p =>
    if st.bulk_completed = 0 then
      match blk_mig_save_bulked_block_sync bl BATCH_LEN st p with
      | none => none
      | some o => disk_save_master_bulk bl BATCH_LEN fuel ((data_sent + o.ret) % 2 ^ 64) o.st o.pipe
    else some { ret := data_sent, st := st, pipe := p }

/-- The loop `QSIMPLEQ_FOREACH(bmds, ...) data_sent += mig_save_device_dirty_sync(...)`
shared by `disk_save_master` and `disk_save_last_master`, from position `dev`
on; the `int` result is converted to `unsigned long` by the `+=`. -/
def dirty_sync_devs (bl : BlockLayer) (BATCH_LEN : Nat) :
    Nat → List BlkMigDevState → Nat → Pipe → Option (Nat × List BlkMigDevState × Pipe)
  | _, [], data_sent, p => some (data_sent, [], p)
  | dev, bmds :: rest, data_sent, p =>
    match mig_save_device_dirty_sync bl BATCH_LEN dev bmds p with
    | none => none
    | some (r, bmds, p) =>
      match dirty_sync_devs bl BATCH_LEN (dev + 1) rest ((data_sent + toUInt64 r) % 2 ^ 64) p with
      | none => none
      | some (d, rest, p) => some (d, bmds :: rest, p)

/-- The function `disk_save_master`; `fuel` bounds the passes of its `while`
loop. -/
def disk_save_master (bl : BlockLayer) (BATCH_LEN fuel : Nat) (st : BlkMigState) (p : Pipe) :
    Option SyncOut :=
  if st.bulk_completed = 0 then disk_save_master_bulk bl BATCH_LEN fuel 0 st p
  else
    match dirty_sync_devs bl BATCH_LEN 0 st.bmds_list 0 p with
    | none => none
    | some (d, l, p) => some { ret := d, st := { st with bmds_list := l }, pipe := p }

/-- The function `disk_save_last_master`. -/
def disk_save_last_master (bl : BlockLayer) (BATCH_LEN : Nat) (st : BlkMigState) (p : Pipe)
    (f : QEMUFile) : Option (Run SyncOut) :=
  if st.submitted = 0 then
    match dirty_sync_devs bl BATCH_LEN 0 st.bmds_list 0 p with
    | none => none
    | some (d, l, p) =>
      some (Run.returns { ret := if qemu_file_has_error f then 0 else d,
                          st := { st with bmds_list := l }, pipe := p })
  else some Run.aborts

/-- The function `block_save_iter`; `fuel` bounds the passes of the `while` loop
of `disk_save_master`, and `none` means that the call does not return within
that bound. -/
def block_save_iter (bl : BlockLayer) (BATCH_LEN fuel : Nat) (stage : Int) (st : BlkMigState)
    (p : Pipe) (f : QEMUFile) : Option (Run SyncOut) :=
  if stage = 2 then
    match disk_save_master bl BATCH_LEN fuel st p with
    | none => none
    | some o => some (Run.returns o)
  else if stage = 3 then disk_save_last_master bl BATCH_LEN st p f
  else some (Run.returns { ret := 0, st := st, pipe := p })

/-! ## Convergence check -/

/-- The function `get_remaining_dirty`, in `int64_t` arithmetic. -/
def get_remaining_dirty (st : BlkMigState) : Int :=
  toInt64 (toUInt64 ((st.bmds_list.map (fun bmds => bdrv_get_dirty_count bmds.bs)).sum
    * (BLOCK_SIZE : Int)))

/-- Number of binary digits of `n` less one (0 when `n < 2`); `fuel` bounds the
halvings. -/
def log2_floor : Nat → Nat → Nat
  | 0, _ => 0
  | fuel + 1, n => if n < 2 then 0 else log2_floor fuel (n / 2) + 1

/-- The integer nearest to `n / d`, the even one of two that are equally
near. -/
def round_half_even (n d : Nat) : Nat :=
  let fl := n / d
  let r := n % d
  if 2 * r < d then fl else if d < 2 * r then fl + 1 else if fl % 2 = 0 then fl else fl + 1

/-- The `long double` nearest to the rational `q`: the x87 extended format
with a significand of 64 bits, in the default rounding mode (to nearest, ties
to even).  A non-zero `q` is scaled by the power of two `2^e` that takes `|q|`
into `[2^63, 2^64)` and rounded to an integer `m` there; the result is
`± m * 2^e`.  The exponent range of the format (15 bits) is not modelled. -/
def long_double_round (q : ℚ) : ℚ :=
  if q = 0 then 0
  else
    let n := q.num.natAbs
    let d := q.den
    let k : Int := (log2_floor n n : Int) - (log2_floor d d : Int)
    let e : Int := (if d * 2 ^ k.toNat ≤ n * 2 ^ (-k).toNat then k else k - 1) - 63
    let m := round_half_even (n * 2 ^ (-e).toNat) (d * 2 ^ e.toNat)
    (if q < 0 then -1 else 1) * (((m * 2 ^ e.toNat : Nat) : ℚ) / ((2 ^ (-e).toNat : Nat) : ℚ))

/-- The quotient `a / b` of two `long double` values, `b` not zero. -/
def long_double_div (a b : ℚ) : ℚ := long_double_round (a / b)

/-- The function `compute_read_bwidth`.  The product `reads * BLOCK_SIZE` is an
`int` product; it is converted to `long double` (every `int` is a
`long double`) and divided by `total_time` in `long double`. -/
def compute_read_bwidth (st : BlkMigState) : Run ℚ :=
  if st.total_time ≠ 0 then
    Run.returns (long_double_div ((toInt32 (toUInt64 (st.reads * (BLOCK_SIZE : Int))) : Int) : ℚ)
      ((st.total_time : Int) : ℚ))
  else Run.aborts

/-- The function `is_stage2_completed`; `max_downtime` is the value of
`migrate_max_downtime()`.  The `int64_t` `remaining_dirty` and the `uint64_t`
`max_downtime` are converted to `long double` (every such integer is a
`long double`), and the quotient `remaining_dirty / bwidth` is taken in
`long double`.  When `bwidth` is zero the quotient of the non-zero
`remaining_dirty` is an infinity, which is below `max_downtime` exactly when it
is negative, the zero having the sign of `total_time`. -/
def is_stage2_completed (st : BlkMigState) (max_downtime : Nat) : Run Int :=
  if st.bulk_completed = 1 then
    let remaining_dirty := get_remaining_dirty st
    if remaining_dirty = 0 then Run.returns 1
    else
      match compute_read_bwidth st with
      | Run.aborts => Run.aborts
      | Run.returns bwidth =>
        let below : Bool :=
          if bwidth = 0 then decide ((remaining_dirty < 0) ≠ (st.total_time < 0))
          else decide (long_double_div ((remaining_dirty : Int) : ℚ) bwidth
            ≤ ((max_downtime : Nat) : ℚ))
        if below then Run.returns 1 else Run.returns 0
  else Run.returns 0

/-- The convergence predicate in the words of the specification: bulk is
completed, and the remaining dirty bytes (sum over the devices of
`dirty_count * BLOCK_SIZE`) are zero or
`remaining_dirty_bytes / observed_read_bandwidth ≤ max_downtime`, where
`observed_read_bandwidth = (reads * BLOCK_SIZE) / total_time` with
`total_time ≠ 0`, over exact rationals. -/
def should_finish_spec (st : BlkMigState) (max_downtime : Nat) : Prop :=
  st.bulk_completed = 1 ∧
    ((st.bmds_list.map (fun bmds => bdrv_get_dirty_count bmds.bs)).sum * (BLOCK_SIZE : Int) = 0 ∨
     (st.total_time ≠ 0 ∧
      ((((st.bmds_list.map (fun bmds => bdrv_get_dirty_count bmds.bs)).sum
          * (BLOCK_SIZE : Int) : Int) : ℚ) /
        (((st.reads * (BLOCK_SIZE : Int) : Int) : ℚ) / ((st.total_time : Int) : ℚ))
        ≤ ((max_downtime : Nat) : ℚ))))

/-- The eight bytes of the big-endian encoding of a 64-bit word. -/
def be64_bytes (v : Nat) : List Nat :=
  [v / 2 ^ 56 % 256, v / 2 ^ 48 % 256, v / 2 ^ 40 % 256, v / 2 ^ 32 % 256,
   v / 2 ^ 24 % 256, v / 2 ^ 16 % 256, v / 2 ^ 8 % 256, v % 256]


/-! ## What the specification expects of the sweeps -/

/-- The two block layer calls for chunk `k` of the device at position `dev`:
the read of the chunk at sector `k * BDRV_SECTORS_PER_DIRTY_CHUNK` with
`nr_sectors` the chunk size or the short tail, and the dirty reset of the same
range. -/
def chunk_calls (dev total_sectors k : Nat) : List BdrvCall :=
  [BdrvCall.read dev (k * BDRV_SECTORS_PER_DIRTY_CHUNK)
     (sweep_nr_sectors total_sectors (k * BDRV_SECTORS_PER_DIRTY_CHUNK)),
   BdrvCall.reset_dirty dev (k * BDRV_SECTORS_PER_DIRTY_CHUNK)
     (sweep_nr_sectors total_sectors (k * BDRV_SECTORS_PER_DIRTY_CHUNK))]

/-- The calls of a full bulk sweep over the devices from position `dev` on: for
each device in list order, chunks `0, 1, ..., nb_chunks - 1` in increasing
order. -/
def bulk_sweep_calls : Nat → List BlkMigDevState → List BdrvCall
  | _, [] => []
  | dev, bmds :: rest =>
    (List.range (nb_chunks bmds.total_sectors)).flatMap (chunk_calls dev bmds.total_sectors)
      ++ bulk_sweep_calls (dev + 1) rest

/-- The dirty chunks of a device, in increasing order. -/
def dirty_chunks (bmds : BlkMigDevState) : List Nat :=
  (List.range (nb_chunks bmds.total_sectors)).filter bmds.bs.dirty

/-- The chunk `blk` is a chunk of one of the `devices` as the sweeps cut it:
it starts inside its device and `nr_sectors` is the chunk size or the tail. -/
def chunk_of (devices : List BlkMigDevState) (blk : BlkMigBlock) : Prop :=
  ∃ bmds, devices.get? blk.bmds = some bmds ∧ blk.sector < bmds.total_sectors ∧
    blk.nr_sectors = sweep_nr_sectors bmds.total_sectors blk.sector

/-- Every chunk linked into a task body of the heap is a chunk of `devices`. -/
def heap_chunks_of (devices : List BlkMigDevState) (h : TaskHeap) : Prop :=
  ∀ b ∈ h.bodies, ∀ blk ∈ b.blocks, chunk_of devices blk

/-- The `BLOCK_SIZE` bytes that `qemu_put_buffer(f, blk->buf, BLOCK_SIZE)` sends
for a buffer. -/
def wire_payload (buf : List Nat) : List Nat :=
  buf.take BLOCK_SIZE ++ List.replicate (BLOCK_SIZE - buf.length) 0

/-- What the bulk sweep leaves of a device `bmds`: the same `total_sectors`,
`bulk_completed` set, and no dirty chunk. -/
def bulk_swept (bmds bmds' : BlkMigDevState) : Prop :=
  bmds'.total_sectors = bmds.total_sectors ∧ bmds'.bulk_completed = 1 ∧
    ∀ k, k < nb_chunks bmds.total_sectors → bmds'.bs.dirty k = false

/-- Invariant of the chunk loop of the bulk sweep of the device at position
`dev`, of `T` sectors, before chunk `j`: chunks `0 .. j - 1` have been read and
reset, in this order, and every chunk linked into a task body is a chunk of
`devices` provided that held when the sweep started (`H0`). -/
def bulk_inv (devices : List BlkMigDevState) (H0 : Prop) (dev T : Nat) (log0 : List BdrvCall)
    (j : Nat) (s : Sweep) : Prop :=
  s.bmds.total_sectors = T ∧ s.failed = false ∧
    s.pipe.log = log0 ++ (List.range j).flatMap (chunk_calls dev T) ∧
    (∀ k, k < j → s.bmds.bs.dirty k = false) ∧
    (H0 → heap_chunks_of devices s.pipe.heap)

/-- Invariant of the chunk loop of the dirty sweep of the device at position
`dev`, of `T` sectors and initial dirty bits `dirty0`, before chunk `j`: the
dirty chunks below `j` have been read and reset, in increasing order, and
counted in `data_sent`; the dirty bits below `j` are clear and the others are
untouched. -/
def dirty_inv (dev T : Nat) (dirty0 : Nat → Bool) (bitmap0 : List Nat) (length0 : Int)
    (log0 : List BdrvCall) (j : Nat) (s : Sweep) : Prop :=
  s.bmds.total_sectors = T ∧ s.failed = false ∧
    s.pipe.log = log0 ++ ((List.range j).filter dirty0).flatMap (chunk_calls dev T) ∧
    (∀ k, s.bmds.bs.dirty k = if k < j then false else dirty0 k) ∧
    s.data_sent = (((List.range j).filter dirty0).length * BLOCK_SIZE) % 2 ^ 64 ∧
    s.bmds.aio_bitmap = bitmap0 ∧ s.bmds.bs.length = length0 ∧
    (0 < j → s.bmds.cur_dirty = j * BDRV_SECTORS_PER_DIRTY_CHUNK)

/-- Invariant of the batching of a sweep that started with an empty heap and
the queue `q0`, before chunk `j = i * BATCH_LEN + r` with `r < BATCH_LEN`: the
task bodies `0 .. i - 1` are full, hold the chunks `t * BATCH_LEN ..
(t + 1) * BATCH_LEN - 1` and have been pushed once each, in order; the current
body `i` holds the `r` chunks from `i * BATCH_LEN` on and has not been pushed;
nothing has been freed. -/
def batch_inv (BATCH_LEN : Nat) (q0 : List Nat) (j : Nat) (s : Sweep) : Prop :=
  ∃ (i r : Nat) (full : List task_body) (cur : task_body),
    j = i * BATCH_LEN + r ∧ r < BATCH_LEN ∧
    s.body = i ∧ full.length = i ∧
    s.pipe.heap.bodies = full ++ [cur] ∧
    s.pipe.heap.freed = [] ∧ s.pipe.heap.use_after_free = false ∧
    s.pipe.task_q.tasks = q0 ++ List.range i ∧
    (∀ t b, full.get? t = some b → b.len = BATCH_LEN ∧
      b.blocks.map (fun k => k.sector)
        = (List.range' (t * BATCH_LEN) BATCH_LEN).map
            (fun k => k * BDRV_SECTORS_PER_DIRTY_CHUNK)) ∧
    cur.len = r ∧ cur.blocks.length = r ∧
    cur.blocks.map (fun k => k.sector)
      = (List.range' (i * BATCH_LEN) r).map (fun k => k * BDRV_SECTORS_PER_DIRTY_CHUNK)

/-! ## Concrete inputs used by the examples -/

/-- A writable device of `sectors` sectors whose name is the given C string
and whose dirty chunks are given by `dirty`. -/
def disk (name : List Nat) (sectors : Nat) (dirty : Nat → Bool) : BlockDriverState :=
  { device_name := name ++ [0], length := (sectors : Int) * 512, read_only := false,
    dirty := dirty }

/-- A writable device named `"sda"`. -/
def sda (sectors : Nat) (dirty : Nat → Bool) : BlockDriverState :=
  disk [115, 100, 97] sectors dirty

/-- The freshly registered `BlkMigDevState` of a device, as built by
`init_blk_migration_it`, with the given `shared_base`. -/
def registered (bs : BlockDriverState) (shared_base : Int) : BlkMigDevState :=
  { bs := bs, bulk_completed := 0, shared_base := shared_base, cur_sector := 0, cur_dirty := 0,
    completed_sectors := 0, total_sectors := (bdrv_getlength bs / 2 ^ BDRV_SECTOR_BITS).toNat,
    dirty := 0, aio_bitmap := alloc_aio_bitmap bs }

/-- A chunk of device 0 at `sector` whose buffer is `BLOCK_SIZE` zero bytes. -/
def zero_chunk (sector nr_sectors : Nat) : BlkMigBlock :=
  { buf := List.replicate BLOCK_SIZE 0, bmds := 0, sector := sector, nr_sectors := nr_sectors,
    ret := 0, time := 0, done := 0 }

/-- The `block_mig_state` left by `init_blk_migration` with the given device
list, block migration enabled. -/
def fresh_state (shared_base : Int) (l : List BlkMigDevState) : BlkMigState :=
  { blk_enable := 1, shared_base := shared_base, bmds_list := l, blk_list := [], submitted := 0,
    read_done := 0, transferred := 0, total_sector_sum := 0, prev_progress := -1,
    bulk_completed := 0, total_time := 0, reads := 0 }

/-- State of the convergence examples: one device `"sda"` of `sectors` sectors
all of whose chunks are dirty, bulk completed, and the given read statistics. -/
def converging_state (sectors : Nat) (reads total_time : Int) : BlkMigState :=
  { fresh_state 0 [registered (sda sectors (fun _ => true)) 0] with
    bulk_completed := 1, reads := reads, total_time := total_time }

/-- The freshly registered devices `"a"` (2048 sectors) and `"b"` (1024 sectors,
one short chunk), no chunk dirty. -/
def two_disks : List BlkMigDevState :=
  [registered (disk [97] 2048 (fun _ => false)) 0, registered (disk [98] 1024 (fun _ => false)) 0]

/-- An empty task queue at iteration `iter_num`, an empty heap, an empty log. -/
def empty_pipe (iter_num : Nat) : Pipe :=
  { task_q := { iter_num := iter_num, task_pending := 0, section_id := 0, tasks := [] },
    heap := { bodies := [], freed := [], use_after_free := false }, log := [] }

/-- A block layer whose reads all succeed (returning no data) and whose AIO
drain leaves the in-flight bitmap alone. -/
def reads_ok : BlockLayer :=
  { bdrv_read := fun _ _ _ => some [], qemu_aio_flush := fun b => b }

/-- The chunk that a synchronous sweep builds for device `dev` when the read
returns no model data. -/
def sync_chunk (dev sector nr_sectors : Nat) : BlkMigBlock :=
  { buf := [], bmds := dev, sector := sector, nr_sectors := nr_sectors, ret := 0, time := 0,
    done := 0 }

/-- An empty stream without error. -/
def empty_file : QEMUFile := { buf := [], has_error := false }

/-- The receiver state before the first record. -/
def empty_load : LoadState :=
  { reduce_q := [], version_queue := [], progress := [], banner_printed := false }

/-! ## In-flight bitmap: set, bounds and allocation -/

/-- One pass of the `for` loop of `bmds_set_aio_inflight`, for chunk `start`:
load the word `aio_bitmap[idx]`, set or clear bit `bit` (`val |= 1UL << bit` or
`val &= ~(1UL << bit)`), store the word back.  A store outside the array is
dropped here; `bmds_set_aio_inflight_pass_checked` makes the bound of the array
explicit. -/
def bmds_set_aio_inflight_pass (set : Int) (aio_bitmap : List Nat) (start : Nat) : List Nat :=
  let idx := start / 64
  let bit := start % 64
  let val := aio_bitmap.getD idx 0
  let val := if set ≠ 0 then val ||| (1 <<< bit) else val &&& (2 ^ 64 - 1 - (1 <<< bit))
  aio_bitmap.set idx val

/-- The function `bmds_set_aio_inflight`: the `for` loop runs for the chunks
`start`, `start + 1`, ..., `end`, where `start = sector_num / CHUNK` and
`end = (sector_num + nb_sectors - 1) / CHUNK`. -/
def bmds_set_aio_inflight (bmds : BlkMigDevState) (sector_num nb_sectors : Nat) (set : Int) :
    BlkMigDevState :=
  let start := sector_num / BDRV_SECTORS_PER_DIRTY_CHUNK
  let last := (sector_num + nb_sectors - 1) / BDRV_SECTORS_PER_DIRTY_CHUNK
  let aio_bitmap := (List.range' start (last + 1 - start)).foldl
    (bmds_set_aio_inflight_pass set) bmds.aio_bitmap
  { bmds with aio_bitmap := aio_bitmap }

/-- The function `bmds_aio_inflight` with the bound of the array `aio_bitmap`
made explicit: `none` when the word it loads lies outside the array, and
otherwise the value that `bmds_aio_inflight` returns. -/
def bmds_aio_inflight_checked (bmds : BlkMigDevState) (sector : Nat) : Option Bool :=
  let chunk := sector / BDRV_SECTORS_PER_DIRTY_CHUNK
  if toInt64 (sector <<< BDRV_SECTOR_BITS) < bdrv_getlength bmds.bs then
    match bmds.aio_bitmap.get? (chunk / 64) with
    | some w => some (decide (w &&& (1 <<< (chunk % 64)) ≠ 0))
    | none => none
  else some false

/-- One pass of the `for` loop of `bmds_set_aio_inflight` with the bound of the
array made explicit: `none` when the word it loads and stores lies outside the
array (or when an earlier pass left the array). -/
def bmds_set_aio_inflight_pass_checked (set : Int) (aio_bitmap : Option (List Nat))
    (start : Nat) : Option (List Nat) :=
  match aio_bitmap with
  | none => none
  | some m => if start / 64 < m.length then some (bmds_set_aio_inflight_pass set m start) else none

/-- The function `bmds_set_aio_inflight` with the bound of the array
`aio_bitmap` made explicit: `none` when a word it accesses lies outside the
array, and otherwise the device that `bmds_set_aio_inflight` leaves. -/
def bmds_set_aio_inflight_checked (bmds : BlkMigDevState) (sector_num nb_sectors : Nat)
    (set : Int) : Option BlkMigDevState :=
  let start := sector_num / BDRV_SECTORS_PER_DIRTY_CHUNK
  let last := (sector_num + nb_sectors - 1) / BDRV_SECTORS_PER_DIRTY_CHUNK
  match (List.range' start (last + 1 - start)).foldl
      (bmds_set_aio_inflight_pass_checked set) (some bmds.aio_bitmap) with
  | none => none
  | some aio_bitmap => some { bmds with aio_bitmap := aio_bitmap }

/-- Whether the `unsigned long` word `aio_bitmap[idx]`, the bytes `8 * idx` to
`8 * idx + 7` of the array, lies inside an allocation of `size` bytes. -/
def aio_bitmap_word_inside (size : Int) (idx : Nat) : Bool :=
  decide (8 * (idx : Int) + 8 ≤ size)

/-- Modelled from the spec: the size of the in-flight bitmap of a device of
`sectors` sectors, `ceil(length_chunks / WORD_BITS)` words of 8 bytes, in
bytes. -/
def aio_bitmap_spec_size (sectors : Nat) : Nat :=
  8 * ((nb_chunks sectors + 63) / 64)

/-- The in-flight bit of chunk `chunk` in the array `aio_bitmap`. -/
def aio_bit (aio_bitmap : List Nat) (chunk : Nat) : Bool :=
  (aio_bitmap.getD (chunk / 64) 0).testBit (chunk % 64)

/-! ## Asynchronous reads -/

/-- Value of an `int` expression whose mathematical value is `i` (two's
complement wrap-around). -/
def wrap32 (i : Int) : Int := toInt32 (toUInt64 i)

/-- Modelled from the spec: what one call of the engine sees of the
asynchronous side of the BlockDevice adapter, of the stream's rate limiter and
of the clock.  `bdrv_is_allocated bs sector nb` is the returned flag paired with
the run length stored through `pnum`; `bdrv_aio_readv bs sector nr` tells
whether the read was accepted (a non-null `aiocb`); `aio_result blk` is the data
and the status with which the read `blk` completes when it is drained. -/
structure AioLayer where
  bdrv_is_allocated : BlockDriverState → Nat → Nat → Bool × Nat
  bdrv_aio_readv : BlockDriverState → Nat → Nat → Bool
  aio_result : BlkMigBlock → List Nat × Int
  qemu_file_rate_limit : QEMUFile → Bool
  qemu_get_clock_ns : Int

/-- Everything the asynchronous path and `block_save_live` work on:
`block_mig_state`, the stream, the task queue with its heap, the reads handed
to `bdrv_aio_readv` whose completion callback has not run yet (oldest first),
and the number of calls of `create_host_disk_master`. -/
structure Engine where
  st : BlkMigState
  f : QEMUFile
  pipe : Pipe
  inflight : List BlkMigBlock
  masters : Nat

/-- The store of a whole device record through the device pointer `dev`. -/
def set_bmds (st : BlkMigState) (dev : Nat) (bmds : BlkMigDevState) : BlkMigState :=
  { st with bmds_list := st.bmds_list.set dev bmds }

/-- The function `add_avg_read_time`. -/
def add_avg_read_time (st : BlkMigState) (time : Int) : BlkMigState :=
  { st with reads := wrap32 (st.reads + 1), total_time := st.total_time + time }

/-- The function `blk_mig_read_cb`, the completion callback of the read `blk`
(`opaque`) with status `ret`; `clock` is the value of `qemu_get_clock_ns`.
The result is `aborts` when `assert(block_mig_state.submitted >= 0)` fails. -/
def blk_mig_read_cb (clock : Int) (st : BlkMigState) (blk : BlkMigBlock) (ret : Int) :
    Run BlkMigState :=
  let blk := { blk with ret := ret, time := clock - blk.time }
  let st := add_avg_read_time st blk.time
  let st := { st with blk_list := st.blk_list ++ [blk] }
  let st := match st.bmds_list[blk.bmds]? with
    | some bmds => set_bmds st blk.bmds (bmds_set_aio_inflight bmds blk.sector blk.nr_sectors 0)
    | none => st
  let st := { st with submitted := wrap32 (st.submitted - 1),
                      read_done := wrap32 (st.read_done + 1) }
  if st.submitted < 0 then Run.aborts else Run.returns st

/-- The loop `while (cur_sector < total_sectors && !bdrv_is_allocated(bs,
cur_sector, MAX_IS_ALLOCATED_SEARCH, &nr_sectors)) cur_sector += nr_sectors;`
of `mig_save_device_bulk`; one unit of fuel per test of the loop condition,
`none` when the fuel runs out. -/
def bulk_skip_unallocated (al : AioLayer) (bs : BlockDriverState) (total_sectors : Nat) :
    Nat → Nat → Option Nat
  | 0, _ => none
  | fuel + 1, cur_sector =>
    if cur_sector < total_sectors ∧
        (al.bdrv_is_allocated bs cur_sector MAX_IS_ALLOCATED_SEARCH).1 = false then
      bulk_skip_unallocated al bs total_sectors fuel
        (cur_sector + (al.bdrv_is_allocated bs cur_sector MAX_IS_ALLOCATED_SEARCH).2)
    else some cur_sector

/-- The function `mig_save_device_bulk` for the device at position `dev`;
`fuel` bounds the passes of the shared-base loop, and `none` means that the
call does not return within that bound (or that `dev` is no device). -/
def mig_save_device_bulk (al : AioLayer) (fuel dev : Nat) (e : Engine) : Option (Int × Engine) :=
  match e.st.bmds_list[dev]? with
  | none => none
  | some bmds =>
    let total_sectors := bmds.total_sectors
    let skipped :=
      if bmds.shared_base ≠ 0
      then bulk_skip_unallocated al bmds.bs total_sectors fuel bmds.cur_sector
      else some bmds.cur_sector
    match skipped with
    | none => none
    | some cur_sector =>
      if cur_sector ≥ total_sectors then
        let bmds := { bmds with cur_sector := total_sectors, completed_sectors := total_sectors }
        some (1, { e with st := set_bmds e.st dev bmds })
      else
        let bmds := { bmds with completed_sectors := cur_sector }
        let cur_sector := cur_sector &&& (2 ^ 64 - BDRV_SECTORS_PER_DIRTY_CHUNK)
        let nr_sectors := sweep_nr_sectors total_sectors cur_sector
        let blk : BlkMigBlock :=
          { buf := [], bmds := dev, sector := cur_sector, nr_sectors := nr_sectors, ret := 0,
            time := al.qemu_get_clock_ns, done := 0 }
        if al.bdrv_aio_readv bmds.bs cur_sector nr_sectors then
          let st := { e.st with submitted := wrap32 (e.st.submitted + 1) }
          let bmds := { bmds with bs := bdrv_reset_dirty bmds.bs cur_sector nr_sectors,
                                  cur_sector := cur_sector + nr_sectors }
          some (if cur_sector + nr_sectors ≥ total_sectors then 1 else 0,
                { e with st := set_bmds st dev bmds, inflight := e.inflight ++ [blk] })
        else
          some (0, { e with st := set_bmds e.st dev bmds, f := qemu_file_set_error e.f })

/-- The function `blk_send`: the record of the legacy path, whose header word
is `(blk->sector << BDRV_SECTOR_BITS) | BLK_MIG_FLAG_DEVICE_BLOCK`.  The result is
`none` when `blk->bmds` does not point to a device of `bmds_list`. -/
def blk_send (bmds_list : List BlkMigDevState) (f : QEMUFile) (blk : BlkMigBlock) :
    Option QEMUFile :=
  match bmds_list[blk.bmds]? with
  | none => none
  | some bmds =>
    let f := qemu_put_be64 f
      (((blk.sector <<< BDRV_SECTOR_BITS) % 2 ^ 64) ||| BLK_MIG_FLAG_DEVICE_BLOCK)
    let len := strlen bmds.bs.device_name
    let f := qemu_put_byte f len
    let f := qemu_put_buffer f bmds.bs.device_name len
    some (qemu_put_buffer f blk.buf BLOCK_SIZE)

/-- Completion of the outstanding reads, oldest first: each one gets its data
and status from the block layer and its callback `blk_mig_read_cb` runs. -/
def aio_complete (al : AioLayer) : List BlkMigBlock → BlkMigState → Run BlkMigState
  | [], st => Run.returns st
  | blk :: rest, st =>
    match blk_mig_read_cb al.qemu_get_clock_ns st { blk with buf := (al.aio_result blk).1 }
        (al.aio_result blk).2 with
    | Run.aborts => Run.aborts
    | Run.returns st => aio_complete al rest st

/-- Modelled from the spec: AIO drain.  `qemu_aio_flush` returns when every
outstanding read has completed, that is when its callback has run. -/
def qemu_aio_flush (al : AioLayer) (e : Engine) : Run Engine :=
  match aio_complete al e.inflight e.st with
  | Run.aborts => Run.aborts
  | Run.returns st => Run.returns { e with st := st, inflight := [] }

/-- The statement `return (bmds->cur_dirty >= bmds->total_sectors);` that ends
`mig_save_device_dirty`. -/
def mig_save_device_dirty_return (e : Engine) (dev : Nat) : Option (Run (Int × Engine)) :=
  match e.st.bmds_list[dev]? with
  | none => none
  | some bmds => some (Run.returns (if bmds.cur_dirty ≥ bmds.total_sectors then 1 else 0, e))

/-- The `for (sector = bmds->cur_dirty; sector < bmds->total_sectors;)` loop of
`mig_save_device_dirty` for the device at position `dev`, up to the `return`.
One unit of fuel per test of the loop condition, `none` when the fuel runs out
(or when `dev` is no device); `aborts` when the assertion of a completion
callback run by `qemu_aio_flush` fails. -/
def mig_save_device_dirty_loop (bl : BlockLayer) (al : AioLayer) (is_async : Int) (dev : Nat) :
    Nat → Nat → Engine → Option (Run (Int × Engine))
  | 0, _, _ => none
  | fuel + 1, sector, e =>
    match e.st.bmds_list[dev]? with
    | none => none
    | some bmds =>
      if sector < bmds.total_sectors then
        match (if bmds_aio_inflight bmds sector then qemu_aio_flush al e else Run.returns e) with
        | Run.aborts => some Run.aborts
        | Run.returns e =>
          match e.st.bmds_list[dev]? with
          | none => none
          | some bmds =>
            if bdrv_get_dirty bmds.bs sector then
              let nr_sectors := sweep_nr_sectors bmds.total_sectors sector
              let blk : BlkMigBlock :=
                { buf := [], bmds := dev, sector := sector, nr_sectors := nr_sectors, ret := 0,
                  time := 0, done := 0 }
              if is_async ≠ 0 then
                let blk := { blk with time := al.qemu_get_clock_ns }
                if al.bdrv_aio_readv bmds.bs sector nr_sectors then
                  let st := { e.st with submitted := wrap32 (e.st.submitted + 1) }
                  let bmds := bmds_set_aio_inflight bmds sector nr_sectors 1
                  let bmds := { bmds with bs := bdrv_reset_dirty bmds.bs sector nr_sectors }
                  mig_save_device_dirty_return
                    { e with st := set_bmds st dev bmds, inflight := e.inflight ++ [blk] } dev
                else some (Run.returns (0, { e with f := qemu_file_set_error e.f }))
              else
                match bl.bdrv_read bmds.bs sector nr_sectors with
                | none => some (Run.returns (0, { e with f := qemu_file_set_error e.f }))
                | some data =>
                  match blk_send e.st.bmds_list e.f { blk with buf := data } with
                  | none => none
                  | some f =>
                    let bmds := { bmds with bs := bdrv_reset_dirty bmds.bs sector nr_sectors }
                    mig_save_device_dirty_return { e with st := set_bmds e.st dev bmds, f := f } dev
            else
              let bmds := { bmds with cur_dirty := sector + BDRV_SECTORS_PER_DIRTY_CHUNK }
              mig_save_device_dirty_loop bl al is_async dev fuel
                (sector + BDRV_SECTORS_PER_DIRTY_CHUNK) { e with st := set_bmds e.st dev bmds }
      else mig_save_device_dirty_return e dev

/-- The function `mig_save_device_dirty` for the device at position `dev`. -/
def mig_save_device_dirty (bl : BlockLayer) (al : AioLayer) (is_async : Int) (dev : Nat)
    (e : Engine) : Option (Run (Int × Engine)) :=
  match e.st.bmds_list[dev]? with
  | none => none
  | some bmds =>
    mig_save_device_dirty_loop bl al is_async dev (bmds.total_sectors - bmds.cur_dirty + 1)
      bmds.cur_dirty e

/-- The `QSIMPLEQ_FOREACH` loop of `blk_mig_save_bulked_block` from the device
at position `dev` on, `n` bounding the number of devices left; the result is
`ret`, `completed_sector_sum` and the new state. -/
def blk_mig_save_bulked_block_devs (al : AioLayer) (fuel : Nat) :
    Nat → Nat → Int → Engine → Option (Int × Int × Engine)
  | 0, _, sum, e => some (0, sum, e)
  | n + 1, dev, sum, e =>
    match e.st.bmds_list[dev]? with
    | none => some (0, sum, e)
    | some bmds =>
      if bmds.bulk_completed = 0 then
        match mig_save_device_bulk al fuel dev e with
        | none => none
        | some (r, e) =>
          match e.st.bmds_list[dev]? with
          | none => none
          | some bmds =>
            let bmds := if r = 1 then { bmds with bulk_completed := 1 } else bmds
            some (1, sum + bmds.completed_sectors, { e with st := set_bmds e.st dev bmds })
      else
        blk_mig_save_bulked_block_devs al fuel n (dev + 1) (sum + bmds.completed_sectors) e

/-- The function `blk_mig_save_bulked_block`.  `progress` is an `int`; the
header word of the progress record is `(progress << BDRV_SECTOR_BITS) |
BLK_MIG_FLAG_PROGRESS`, widened to 64 bits with sign extension. -/
def blk_mig_save_bulked_block (al : AioLayer) (fuel : Nat) (e : Engine) : Option (Int × Engine) :=
  match blk_mig_save_bulked_block_devs al fuel e.st.bmds_list.length 0 0 e with
  | none => none
  | some (ret, completed_sector_sum, e) =>
    let progress : Int :=
      if e.st.total_sector_sum ≠ 0
      then wrap32 ((completed_sector_sum * 100).tdiv e.st.total_sector_sum) else 100
    if progress ≠ e.st.prev_progress then
      let f := qemu_put_be64 e.f
        (toUInt64 (wrap32 (progress * 2 ^ BDRV_SECTOR_BITS)) ||| BLK_MIG_FLAG_PROGRESS)
      some (ret, { e with st := { e.st with prev_progress := progress }, f := f })
    else some (ret, e)

/-- The `while` loop of `flush_blks`.  One unit of fuel per test of the loop
condition; `aborts` when `assert(block_mig_state.read_done >= 0)` fails; `none`
when the fuel runs out or a chunk points to no device. -/
def flush_blks_loop (al : AioLayer) : Nat → BlkMigState → QEMUFile →
    Option (Run (BlkMigState × QEMUFile))
  | 0, _, _ => none
  | fuel + 1, st, f =>
    match st.blk_list with
    | [] => some (Run.returns (st, f))
    | blk :: rest =>
      if al.qemu_file_rate_limit f then some (Run.returns (st, f))
      else if blk.ret < 0 then some (Run.returns (st, qemu_file_set_error f))
      else
        match blk_send st.bmds_list f blk with
        | none => none
        | some f =>
          let st := { st with blk_list := rest, read_done := wrap32 (st.read_done - 1),
                              transferred := wrap32 (st.transferred + 1) }
          if st.read_done < 0 then some Run.aborts
          else flush_blks_loop al fuel st f

/-- The function `flush_blks`. -/
def flush_blks (al : AioLayer) (e : Engine) : Option (Run Engine) :=
  match flush_blks_loop al (e.st.blk_list.length + 1) e.st e.f with
  | none => none
  | some Run.aborts => some Run.aborts
  | some (Run.returns (st, f)) => some (Run.returns { e with st := st, f := f })

/-- The `while` loop of `flush_blks_master`, filling the task body at `body`.
One unit of fuel per test of the loop condition; `aborts` when
`assert(block_mig_state.read_done >= 0)` fails. -/
def flush_blks_master_loop (BATCH_LEN body : Nat) : Nat → BlkMigState → QEMUFile → TaskHeap →
    Option (Run (BlkMigState × QEMUFile × TaskHeap))
  | 0, _, _, _ => none
  | fuel + 1, st, f, heap =>
    match st.blk_list with
    | [] => some (Run.returns (st, f, heap))
    | blk :: rest =>
      if blk.ret < 0 then some (Run.returns (st, qemu_file_set_error f, heap))
      else
        let heap := body_add_block heap body blk
        let st := { st with blk_list := rest, read_done := wrap32 (st.read_done - 1),
                            transferred := wrap32 (st.transferred + 1) }
        if st.read_done < 0 then some Run.aborts
        else if body_len heap body = BATCH_LEN then some (Run.returns (st, f, heap))
        else flush_blks_master_loop BATCH_LEN body fuel st f heap

/-- The function `flush_blks_master`; `BATCH_LEN` and `BATCH_MIN_LEN` are the
constants `DEFAULT_DISK_BATCH_LEN` and `DEFAULT_DISK_BATCH_MIN_LEN` of
`migr-vqueue.h`.  The returned `body->len * BLOCK_SIZE` is an `int` product
converted to `unsigned long`. -/
def flush_blks_master (BATCH_LEN BATCH_MIN_LEN : Nat) (last : Int) (e : Engine) :
    Option (Run (Nat × Engine)) :=
  if last = 1 ∧ e.st.read_done = 0 then some (Run.returns (0, e))
  else if last ≠ 1 ∧ e.st.read_done < (BATCH_MIN_LEN : Int) then some (Run.returns (0, e))
  else
    let bp := new_task_body e.pipe
    match flush_blks_master_loop BATCH_LEN bp.1 (e.st.blk_list.length + 1) e.st e.f
        bp.2.heap with
    | none => none
    | some Run.aborts => some Run.aborts
    | some (Run.returns (st, f, heap)) =>
      let p := { bp.2 with heap := heap, task_q := queue_push_task bp.2.task_q bp.1 }
      some (Run.returns (toUInt64 (wrap32 ((body_len heap bp.1 : Int) * (BLOCK_SIZE : Int))),
        { e with st := st, f := f, pipe := p }))

/-- The function `blk_mig_cleanup`: every device is unlinked and released, and
every chunk of the ready list is unlinked and freed.  The calls
`set_dirty_tracking`, `bdrv_set_in_use` and `drive_put_ref` act on the block
layer only. -/
def blk_mig_cleanup (st : BlkMigState) : BlkMigState :=
  { st with bmds_list := [], blk_list := [] }

/-- The function `block_save_live`; `drives` is what `bdrv_iterate` visits and
`section_id` is `s->section_id` of the `FdMigrationState` passed as `opaque`. -/
def block_save_live (al : AioLayer) (drives : List BlockDriverState) (section_id : Int)
    (stage : Int) (e : Engine) : Option (Run (Int × Engine)) :=
  if stage < 0 then some (Run.returns (0, { e with st := blk_mig_cleanup e.st }))
  else if e.st.blk_enable ≠ 1 then
    some (Run.returns (1, { e with f := qemu_put_be64 e.f BLK_MIG_FLAG_EOS }))
  else
    let e :=
      if stage = 1 then
        let r := init_blk_migration e.st e.f drives
        let task_q := { e.pipe.task_q with section_id := section_id }
        { e with st := r.1, f := r.2, pipe := { e.pipe with task_q := task_q } }
      else e
    match flush_blks al e with
    | none => none
    | some Run.aborts => some Run.aborts
    | some (Run.returns e) =>
      if qemu_file_has_error e.f then
        some (Run.returns (0, { e with st := blk_mig_cleanup e.st }))
      else
        some (Run.returns (0, { e with f := qemu_put_be64 e.f BLK_MIG_FLAG_EOS,
                                       masters := e.masters + 1 }))

/-! ## Concrete inputs of the asynchronous path -/

/-- A block layer that reports every sector allocated, accepts every
asynchronous read, completes each with status 0 and no model data, and a
stream that is never rate limited; the clock stands at 0. -/
def aio_ok : AioLayer :=
  { bdrv_is_allocated := fun _ _ _ => (true, 0), bdrv_aio_readv := fun _ _ _ => true,
    aio_result := fun _ => ([], 0), qemu_file_rate_limit := fun _ => false,
    qemu_get_clock_ns := 0 }

/-- The engine around a `block_mig_state`: an empty stream, an empty task queue
at iteration 0, no read in flight. -/
def engine_of (st : BlkMigState) : Engine :=
  { st := st, f := empty_file, pipe := empty_pipe 0, inflight := [], masters := 0 }

/-- The state left by `init_blk_migration` for one device `"sda"` of 2048
sectors, all dirty, with block migration disabled (`blk_enable = 0`). -/
def disabled_state : BlkMigState :=
  { fresh_state 0 [registered (sda 2048 (fun _ => true)) 0] with blk_enable := 0 }

/-- A block layer that reports the sectors below 65536 unallocated, in one run
of 65536 sectors, the others allocated, and that rejects every asynchronous
read. -/
def aio_sparse_rejecting : AioLayer :=
  { bdrv_is_allocated := fun _ sector _ => (decide (65536 ≤ sector), 65536),
    bdrv_aio_readv := fun _ _ _ => false, aio_result := fun _ => ([], 0),
    qemu_file_rate_limit := fun _ => false, qemu_get_clock_ns := 0 }

/-- The engine after `init_blk_migration` with `shared_base` set and one device
`"sda"` of 131072 sectors. -/
def shared_base_engine : Engine :=
  engine_of (fresh_state 1 [registered (sda 131072 (fun _ => false)) 1])

/-! ## Reachable states -/

/-- The states reachable from `init_blk_migration` by the bulk operations:
`blk_mig_save_bulked_block` on the asynchronous path and
`blk_mig_save_bulked_block_sync` on the pipelined path, each with whatever the
block layer answers during the call. -/
inductive bulk_reachable : Engine → Prop
  | init (st : BlkMigState) (f : QEMUFile) (drives : List BlockDriverState) (pipe : Pipe) :
      bulk_reachable
        { st := (init_blk_migration st f drives).1, f := (init_blk_migration st f drives).2,
          pipe := pipe, inflight := [], masters := 0 }
  | async (al : AioLayer) (fuel : Nat) (e : Engine) (ret : Int) (e' : Engine) :
      bulk_reachable e → blk_mig_save_bulked_block al fuel e = some (ret, e') →
      bulk_reachable e'
  | sync (bl : BlockLayer) (BATCH_LEN : Nat) (e : Engine) (out : SyncOut) :
      bulk_reachable e → blk_mig_save_bulked_block_sync bl BATCH_LEN e.st e.pipe = some out →
      bulk_reachable { e with st := out.st, pipe := out.pipe }

/-- The engine right after `init_blk_migration` has registered the single
device `"sda"` of 2048 sectors, all dirty. -/
def init_engine : Engine :=
  { st := (init_blk_migration (fresh_state 0 []) empty_file [sda 2048 (fun _ => true)]).1,
    f := (init_blk_migration (fresh_state 0 []) empty_file [sda 2048 (fun _ => true)]).2,
    pipe := empty_pipe 0, inflight := [], masters := 0 }

/-- The engine after `mig_save_device_bulk` has submitted, from `init_engine`,
the read of the only chunk of the device: one read in flight. -/
def one_in_flight_engine : Engine :=
  match mig_save_device_bulk aio_ok 1 0 init_engine with
  | some (_, e) => e
  | none => init_engine

/-- The states reachable from `init_blk_migration`, called when no chunk is on
the ready list, by asynchronous read submissions (`mig_save_device_bulk`,
`mig_save_device_dirty` with `is_async` set), completion callbacks
`blk_mig_read_cb` fired once for a read that is in flight, and the flushes
`flush_blks` and `flush_blks_master`.  Every chunk in flight or on the ready
list owns a `BLOCK_SIZE` buffer obtained from `qemu_malloc`, and a submission
takes place only while fewer than `2^31 - 1` such chunks exist. -/
inductive aio_reachable : Engine → Prop
  | init (st : BlkMigState) (f : QEMUFile) (drives : List BlockDriverState) (pipe : Pipe) :
      st.blk_list = [] →
      aio_reachable
        { st := (init_blk_migration st f drives).1, f := (init_blk_migration st f drives).2,
          pipe := pipe, inflight := [], masters := 0 }
  | bulk (al : AioLayer) (fuel dev : Nat) (e : Engine) (ret : Int) (e' : Engine) :
      aio_reachable e → e.inflight.length + e.st.blk_list.length + 1 < 2 ^ 31 →
      mig_save_device_bulk al fuel dev e = some (ret, e') → aio_reachable e'
  | dirty (bl : BlockLayer) (al : AioLayer) (is_async : Int) (dev : Nat) (e : Engine) (ret : Int)
      (e' : Engine) :
      aio_reachable e → is_async ≠ 0 →
      e.inflight.length + e.st.blk_list.length + 1 < 2 ^ 31 →
      mig_save_device_dirty bl al is_async dev e = some (Run.returns (ret, e')) →
      aio_reachable e'
  | read_cb (clock : Int) (i : Nat) (blk : BlkMigBlock) (data : List Nat) (ret : Int)
      (e : Engine) (st' : BlkMigState) :
      aio_reachable e → e.inflight[i]? = some blk →
      blk_mig_read_cb clock e.st { blk with buf := data } ret = Run.returns st' →
      aio_reachable { e with st := st', inflight := e.inflight.eraseIdx i }
  | flush (al : AioLayer) (e e' : Engine) :
      aio_reachable e → flush_blks al e = some (Run.returns e') → aio_reachable e'
  | flush_master (BATCH_LEN BATCH_MIN_LEN : Nat) (last : Int) (e : Engine) (ret : Nat)
      (e' : Engine) :
      aio_reachable e →
      flush_blks_master BATCH_LEN BATCH_MIN_LEN last e = some (Run.returns (ret, e')) →
      aio_reachable e'

/-- What the counters count: `submitted` is the number of reads in flight,
`read_done` the number of chunks on the ready list, and the two together stay
below `2^31`. -/
def aio_counted (e : Engine) : Prop :=
  e.st.submitted = (e.inflight.length : Int) ∧ e.st.read_done = (e.st.blk_list.length : Int) ∧
    e.inflight.length + e.st.blk_list.length < 2 ^ 31

/-! ## Arithmetic of the header word -/

theorem and_vnum_mask_shift : ∀ x < 512, (x &&& 504) >>> 3 = x / 8 % 64 := by
  set_option maxRecDepth 4000 in decide

theorem and_flag_bits : ∀ x < 512,
    x &&& 1 = x % 2 ∧ x &&& 2 = 2 * (x / 2 % 2) ∧ x &&& 4 = 4 * (x / 4 % 2) := by
  set_option maxRecDepth 4000 in decide

theorem or_mod_two_pow (a b n : Nat) : (a ||| b) % 2 ^ n = (a % 2 ^ n) ||| (b % 2 ^ n) := by
  apply Nat.eq_of_testBit_eq
  intro i
  simp only [Nat.testBit_mod_two_pow, Nat.testBit_or]
  cases decide (i < n) <;> simp

theorem or_div_two_pow (a b n : Nat) : (a ||| b) / 2 ^ n = (a / 2 ^ n) ||| (b / 2 ^ n) := by
  apply Nat.eq_of_testBit_eq
  intro i
  simp only [← Nat.shiftRight_eq_div_pow, Nat.testBit_shiftRight, Nat.testBit_or]

theorem sext32_mod_512 (w : Nat) : sext32 w % 512 = w % 512 := by
  unfold sext32
  split <;> omega

theorem sext32_small (w : Nat) (h : w < 2 ^ 31) : sext32 w = w := by
  unfold sext32
  have : w % 2 ^ 32 = w := Nat.mod_eq_of_lt (by omega)
  rw [this, if_pos h]

/-- Low nine bits of the header word written by `disk_save_block_slave`:
flag `DEVICE_BLOCK` plus the low six bits of `iter_num` in bits 3..8. -/
theorem data_header_low (sector iter_num : Nat) :
    data_header sector iter_num % 512 = 1 + 8 * (iter_num % 64) := by
  unfold data_header
  have h9 : (512 : Nat) = 2 ^ 9 := by norm_num
  rw [h9, or_mod_two_pow, or_mod_two_pow, ← h9, sext32_mod_512]
  simp only [BDRV_SECTOR_BITS, BLK_MIG_FLAG_DEVICE_BLOCK, DISK_VNUM_OFFSET, Nat.shiftLeft_eq]
  have h0 : sector * 2 ^ 9 % 2 ^ 64 % 512 = 0 := by omega
  have h1 : iter_num * 2 ^ 3 % 512 = 2 ^ 3 * (iter_num % 64) := by omega
  rw [h0, h1, Nat.zero_or, Nat.lor_comm, ← Nat.mul_add_lt_is_or (by norm_num)]
  omega

/-- The header word written by `disk_save_block_slave` when the sector fits in
54 bits and `iter_num` in the six bits of the iteration field. -/
theorem data_header_value (sector iter_num : Nat) (hs : sector < 2 ^ 54) (hi : iter_num < 64) :
    data_header sector iter_num = sector * 512 + (1 + 8 * iter_num) := by
  unfold data_header
  simp only [BDRV_SECTOR_BITS, BLK_MIG_FLAG_DEVICE_BLOCK, DISK_VNUM_OFFSET, Nat.shiftLeft_eq]
  rw [sext32_small _ (by omega), Nat.mod_eq_of_lt (by omega), Nat.or_assoc]
  have h1 : 1 ||| iter_num * 2 ^ 3 = 2 ^ 3 * iter_num + 1 := by
    rw [Nat.lor_comm, Nat.mul_comm, ← Nat.mul_add_lt_is_or (by norm_num)]
  rw [h1, Nat.mul_comm sector, ← Nat.mul_add_lt_is_or (by omega)]
  omega

/-! ## Stream lemmas -/

theorem qemu_put_be64_eq (f : QEMUFile) (v : Nat) :
    qemu_put_be64 f v = { buf := f.buf ++ be64_bytes v, has_error := f.has_error } := by
  simp [qemu_put_be64, qemu_put_byte, be64_bytes]

theorem qemu_get_be64_bytes (v : Nat) (hv : v < 2 ^ 64) (rest : List Nat) (e : Bool) :
    qemu_get_be64 { buf := be64_bytes v ++ rest, has_error := e }
      = (v, { buf := rest, has_error := e }) := by
  simp only [qemu_get_be64, qemu_get_byte, be64_bytes, List.cons_append, List.nil_append]
  congr 1
  omega

theorem take_takeWhile_length (p : Nat → Bool) (l : List Nat) :
    l.take (l.takeWhile p).length = l.takeWhile p := by
  induction l with
  | nil => rfl
  | cons a t ih =>
    by_cases h : p a
    · simp [List.takeWhile_cons, h, ih]
    · simp [List.takeWhile_cons, h]

theorem takeWhile_length_le (p : Nat → Bool) (l : List Nat) :
    (l.takeWhile p).length ≤ l.length := by
  induction l with
  | nil => simp
  | cons a t ih =>
    by_cases h : p a
    · simp [List.takeWhile_cons, h, ih]
    · simp [List.takeWhile_cons, h]

theorem cstr_cstr (l : List Nat) : cstr (cstr l) = cstr l := by
  unfold cstr
  induction l with
  | nil => rfl
  | cons a t ih =>
    by_cases h : (a != 0) = true
    · simp [List.takeWhile_cons, h, ih]
    · simp [List.takeWhile_cons, h]

/-- Writing a C string with its `strlen` puts exactly its bytes on the stream. -/
theorem qemu_put_buffer_cstr (f : QEMUFile) (name : List Nat) :
    qemu_put_buffer f name (strlen name)
      = { buf := f.buf ++ cstr name, has_error := f.has_error } := by
  have h1 : name.take (strlen name) = cstr name := take_takeWhile_length _ name
  have h2 : strlen name - name.length = 0 := by
    have := takeWhile_length_le (fun c => c != 0) name
    unfold strlen cstr
    omega
  simp [qemu_put_buffer, h1, h2]

/-- Writing a buffer of exactly `size` bytes puts exactly its bytes on the stream. -/
theorem qemu_put_buffer_full (f : QEMUFile) (buf : List Nat) (size : Nat)
    (h : buf.length = size) :
    qemu_put_buffer f buf size = { buf := f.buf ++ buf, has_error := f.has_error } := by
  subst h
  simp [qemu_put_buffer]

theorem qemu_get_buffer_append (buf rest : List Nat) (e : Bool) :
    qemu_get_buffer { buf := buf ++ rest, has_error := e } buf.length
      = (buf, { buf := rest, has_error := e }) := by
  simp [qemu_get_buffer]

/-- The bytes of the record written by `disk_save_block_slave`. -/
theorem disk_save_block_slave_eq (bmds_list : List BlkMigDevState) (blk : BlkMigBlock)
    (bmds : BlkMigDevState) (iter_num : Nat) (f : QEMUFile)
    (hdev : bmds_list.get? blk.bmds = some bmds)
    (hname : strlen bmds.bs.device_name ≤ 255)
    (hbuf : blk.buf.length = BLOCK_SIZE) :
    disk_save_block_slave bmds_list blk iter_num f
      = some (BLOCK_SIZE,
          { buf := f.buf ++ (be64_bytes (data_header blk.sector iter_num) ++
              ([strlen bmds.bs.device_name] ++ (cstr bmds.bs.device_name ++ blk.buf))),
            has_error := f.has_error }) := by
  have hmod : strlen bmds.bs.device_name % 256 = strlen bmds.bs.device_name := by omega
  simp only [disk_save_block_slave, hdev, qemu_put_be64_eq, qemu_put_buffer_cstr,
    qemu_put_buffer_full _ _ _ hbuf, qemu_put_byte, hmod, data_header, List.append_assoc]

/-- Reading back a length byte followed by a C string of that length. -/
theorem block_load_device_name_eq (name rest : List Nat) (e : Bool) :
    block_load_device_name
        { buf := [strlen name] ++ (cstr name ++ rest), has_error := e }
      = (cstr name, { buf := rest, has_error := e }) := by
  have h := qemu_get_buffer_append (cstr name) rest e
  simp only [block_load_device_name, qemu_get_byte, List.singleton_append]
  unfold strlen
  rw [h]
  simp [cstr_cstr]

/-! ## `block_load` returns -/

theorem qemu_get_byte_ok (f : QEMUFile) (h : (qemu_get_byte f).2.has_error = false) :
    f.has_error = false ∧ (qemu_get_byte f).2.buf.length + 1 = f.buf.length := by
  unfold qemu_get_byte at h ⊢
  cases hb : f.buf with
  | nil => simp [hb] at h
  | cons b rest =>
    simp only [hb] at h ⊢
    exact ⟨h, rfl⟩

theorem qemu_get_be64_snd (f : QEMUFile) :
    (qemu_get_be64 f).2
      = (qemu_get_byte (qemu_get_byte (qemu_get_byte (qemu_get_byte (qemu_get_byte
          (qemu_get_byte (qemu_get_byte (qemu_get_byte f).2).2).2).2).2).2).2).2 := rfl

theorem qemu_get_be64_ok (f : QEMUFile) (h : (qemu_get_be64 f).2.has_error = false) :
    f.has_error = false ∧ (qemu_get_be64 f).2.buf.length + 8 = f.buf.length := by
  rw [qemu_get_be64_snd] at h ⊢
  obtain ⟨h7, l7⟩ := qemu_get_byte_ok _ h
  obtain ⟨h6, l6⟩ := qemu_get_byte_ok _ h7
  obtain ⟨h5, l5⟩ := qemu_get_byte_ok _ h6
  obtain ⟨h4, l4⟩ := qemu_get_byte_ok _ h5
  obtain ⟨h3, l3⟩ := qemu_get_byte_ok _ h4
  obtain ⟨h2, l2⟩ := qemu_get_byte_ok _ h3
  obtain ⟨h1, l1⟩ := qemu_get_byte_ok _ h2
  obtain ⟨h0, l0⟩ := qemu_get_byte_ok _ h1
  exact ⟨h0, by omega⟩

theorem qemu_get_buffer_ok (f : QEMUFile) (size : Nat)
    (h : (qemu_get_buffer f size).2.has_error = false) :
    f.has_error = false ∧ (qemu_get_buffer f size).2.buf.length ≤ f.buf.length := by
  unfold qemu_get_buffer at h ⊢
  simp only [Bool.or_eq_false_iff] at h
  exact ⟨h.1, by simp⟩

theorem block_load_device_name_ok (f : QEMUFile)
    (h : (block_load_device_name f).2.has_error = false) :
    f.has_error = false ∧ (block_load_device_name f).2.buf.length ≤ f.buf.length := by
  have hs : (block_load_device_name f).2
      = (qemu_get_buffer (qemu_get_byte f).2 (qemu_get_byte f).1).2 := rfl
  rw [hs] at h ⊢
  obtain ⟨h1, l1⟩ := qemu_get_buffer_ok _ _ h
  obtain ⟨h0, l0⟩ := qemu_get_byte_ok _ h1
  exact ⟨h0, by omega⟩

/-- A pass of `block_load` that neither returns nor leaves the stream in error
has consumed at least the eight header bytes. -/
theorem block_load_body_progress (bdrv_find : List Nat → Option BlockDriverState)
    (f : QEMUFile) (s : LoadState) (flags : Nat) (f' : QEMUFile) (s' : LoadState)
    (h : block_load_body bdrv_find f s = LoadStep.next flags f' s')
    (he : f'.has_error = false) : f'.buf.length + 8 ≤ f.buf.length := by
  unfold block_load_body at h
  simp only at h
  split at h
  · split at h
    · cases h
    · split at h
      · cases h
      · injection h with _ hf _
        subst hf
        obtain ⟨h2, l2⟩ := qemu_get_buffer_ok _ _ he
        obtain ⟨h1, l1⟩ := block_load_device_name_ok _ h2
        obtain ⟨_, l0⟩ := qemu_get_be64_ok _ h1
        omega
  · split at h
    · injection h with _ hf _
      subst hf
      obtain ⟨_, l0⟩ := qemu_get_be64_ok _ he
      omega
    · split at h
      · split at h
        · cases h
        · injection h with _ hf _
          subst hf
          obtain ⟨h2, l2⟩ := qemu_get_be64_ok _ he
          obtain ⟨h1, l1⟩ := block_load_device_name_ok _ h2
          obtain ⟨_, l0⟩ := qemu_get_be64_ok _ h1
          omega
      · split at h
        · cases h
        · injection h with _ hf _
          subst hf
          obtain ⟨_, l0⟩ := qemu_get_be64_ok _ he
          omega

/-- The loop of `block_load` returns when it has more fuel than the stream has
bytes left. -/
theorem block_load_loop_returns (bdrv_find : List Nat → Option BlockDriverState) :
    ∀ (fuel : Nat) (f : QEMUFile) (s : LoadState), f.buf.length < fuel →
      ∃ r, block_load_loop bdrv_find fuel f s = some r := by
  intro fuel
  induction fuel with
  | zero => intro f s h; omega
  | succ n ih =>
    intro f s h
    unfold block_load_loop
    cases hb : block_load_body bdrv_find f s with
    | ret code f' s' => exact ⟨_, rfl⟩
    | next flags f' s' =>
      simp only
      by_cases he : qemu_file_has_error f' = true
      · simp only [he, if_true]
        exact ⟨_, rfl⟩
      · simp only [he, Bool.false_eq_true, if_false]
        by_cases hf : flags &&& BLK_MIG_FLAG_EOS = 0
        · simp only [hf, if_true]
          have hprog := block_load_body_progress bdrv_find f s flags f' s' hb
            (by simpa [qemu_file_has_error] using he)
          exact ih f' s' (by omega)
        · simp only [hf, if_false]
          exact ⟨_, rfl⟩

/-- The function `block_load` returns on every stream. -/
theorem block_load_returns (bdrv_find : List Nat → Option BlockDriverState) (f : QEMUFile)
    (s : LoadState) : ∃ r, block_load bdrv_find f s = some r :=
  block_load_loop_returns bdrv_find (f.buf.length + 1) f s (Nat.lt_succ_self _)

/-! ## C1: wire round trip -/

/-- Decoding of the header word of a data record whose sector fits in 54 bits
and whose `iter_num` fits in the six-bit field. -/
theorem block_load_header_data (sector iter_num : Nat) (hs : sector < 2 ^ 54)
    (hi : iter_num < 64) :
    block_load_header (data_header sector iter_num)
      = { flags := 1 + 8 * iter_num, addr := (sector : Int), iter_num := iter_num } := by
  have hv : data_header sector iter_num = sector * 512 + (1 + 8 * iter_num) :=
    data_header_value sector iter_num hs hi
  have hflags : (sector * 512 + (1 + 8 * iter_num)) &&& (BDRV_SECTOR_SIZE - 1)
      = 1 + 8 * iter_num := by
    have := Nat.and_pow_two_sub_one_eq_mod (sector * 512 + (1 + 8 * iter_num)) 9
    simp only [BDRV_SECTOR_SIZE, BDRV_SECTOR_BITS, Nat.shiftLeft_eq, Nat.one_mul]
    rw [this]
    omega
  have hiter : ((1 + 8 * iter_num) &&& DISK_VNUM_MASK) >>> DISK_VNUM_OFFSET = iter_num := by
    have := and_vnum_mask_shift (1 + 8 * iter_num) (by omega)
    have hm : DISK_VNUM_MASK = 504 := by decide
    rw [hm, DISK_VNUM_OFFSET, this]
    omega
  have haddr : toInt64 (sector * 512 + (1 + 8 * iter_num)) / 2 ^ BDRV_SECTOR_BITS
      = (sector : Int) := by
    unfold toInt64 BDRV_SECTOR_BITS
    have h1 : (sector * 512 + (1 + 8 * iter_num)) % 2 ^ 64
        = sector * 512 + (1 + 8 * iter_num) := Nat.mod_eq_of_lt (by omega)
    rw [h1, if_pos (by omega)]
    omega
  simp only [block_load_header, hv, hflags, hiter, haddr]

theorem data_header_lt (sector iter_num : Nat) : data_header sector iter_num < 2 ^ 64 := by
  unfold data_header sext32
  have h1 : (sector <<< BDRV_SECTOR_BITS) % 2 ^ 64 < 2 ^ 64 := Nat.mod_lt _ (by norm_num)
  have h2 : BLK_MIG_FLAG_DEVICE_BLOCK < 2 ^ 64 := by decide
  split
  · exact Nat.or_lt_two_pow (Nat.or_lt_two_pow h1 h2) (by omega)
  · exact Nat.or_lt_two_pow (Nat.or_lt_two_pow h1 h2) (by omega)

/-- C1: for every sector below `2^54`, every `iter_num` in 0..62, every device
name of at most 255 bytes and every `BLOCK_SIZE`-byte payload, the record
written by `disk_save_block_slave`, read back by the header and body decoding
of `block_load` (whatever follows it on the stream), has the `DEVICE_BLOCK`
flag and decodes to `addr = sector`, to the same `iter_num`, to the same device
name and to the same payload, consuming exactly the record; and when the
destination knows a device of that name, of positive length, the pass of
`block_load` pushes a write task for it with `addr = sector` and that payload. -/
theorem wire_round_trip (bmds_list : List BlkMigDevState) (blk : BlkMigBlock)
    (bmds : BlkMigDevState) (iter_num : Nat) (rest : List Nat)
    (hdev : bmds_list.get? blk.bmds = some bmds)
    (hsector : blk.sector < 2 ^ 54) (hiter : iter_num ≤ 62)
    (hname : strlen bmds.bs.device_name ≤ 255)
    (hbuf : blk.buf.length = BLOCK_SIZE) :
    ∃ f,
      disk_save_block_slave bmds_list blk iter_num empty_file = some (BLOCK_SIZE, f) ∧
      (block_load_header (qemu_get_be64 { buf := f.buf ++ rest, has_error := false }).1).flags
          &&& BLK_MIG_FLAG_DEVICE_BLOCK ≠ 0 ∧
      (block_load_header (qemu_get_be64 { buf := f.buf ++ rest, has_error := false }).1).addr
          = (blk.sector : Int) ∧
      ((block_load_header (qemu_get_be64 { buf := f.buf ++ rest, has_error := false }).1).flags
          &&& DISK_VNUM_MASK) >>> DISK_VNUM_OFFSET = iter_num ∧
      (block_load_device_name
          (qemu_get_be64 { buf := f.buf ++ rest, has_error := false }).2).1
          = cstr bmds.bs.device_name ∧
      qemu_get_buffer (block_load_device_name
          (qemu_get_be64 { buf := f.buf ++ rest, has_error := false }).2).2 BLOCK_SIZE
          = (blk.buf, { buf := rest, has_error := false }) ∧
      ∀ (bdrv_find : List Nat → Option BlockDriverState) (bs : BlockDriverState)
        (s : LoadState),
        bdrv_find (cstr bmds.bs.device_name) = some bs →
        0 < bdrv_getlength bs / 2 ^ BDRV_SECTOR_BITS →
        block_load_body bdrv_find { buf := f.buf ++ rest, has_error := false } s
          = LoadStep.next (1 + 8 * iter_num) { buf := rest, has_error := false }
              { s with reduce_q := s.reduce_q ++
                  [{ bs := bs, addr := (blk.sector : Int), buf := blk.buf,
                     nr_sectors := block_load_nr_sectors
                       (bdrv_getlength bs / 2 ^ BDRV_SECTOR_BITS) (blk.sector : Int) }] } := by
  have hw := disk_save_block_slave_eq bmds_list blk bmds iter_num empty_file hdev hname hbuf
  have hh := block_load_header_data blk.sector iter_num hsector (by omega)
  have hget : ∀ tail : List Nat,
      qemu_get_be64 { buf := be64_bytes (data_header blk.sector iter_num) ++ tail,
                      has_error := false }
        = (data_header blk.sector iter_num, { buf := tail, has_error := false }) :=
    fun tail => qemu_get_be64_bytes _ (data_header_lt _ _) tail false
  have hbit : (1 + 8 * iter_num) &&& BLK_MIG_FLAG_DEVICE_BLOCK ≠ 0 := by
    have := (and_flag_bits (1 + 8 * iter_num) (by omega)).1
    rw [BLK_MIG_FLAG_DEVICE_BLOCK, this]
    omega
  have hiter : ((1 + 8 * iter_num) &&& DISK_VNUM_MASK) >>> DISK_VNUM_OFFSET = iter_num := by
    have := and_vnum_mask_shift (1 + 8 * iter_num) (by omega)
    have hm : DISK_VNUM_MASK = 504 := by decide
    rw [hm, DISK_VNUM_OFFSET, this]
    omega
  have hpay := qemu_get_buffer_append blk.buf rest false
  rw [hbuf] at hpay
  refine ⟨_, hw, ?h1, ?h2, ?h3, ?h4, ?h5, ?h6⟩
  case h6 =>
    intro bdrv_find bs s hfind hlen
    simp only [empty_file, List.nil_append, List.append_assoc, block_load_body, hget, hh,
      if_pos hbit, block_load_device_name_eq, hfind, if_neg (not_le.mpr hlen), hpay]
  case h1 =>
    simp only [empty_file, List.nil_append, List.append_assoc, hget, hh]
    exact hbit
  case h2 =>
    simp only [empty_file, List.nil_append, List.append_assoc, hget, hh]
  case h3 =>
    simp only [empty_file, List.nil_append, List.append_assoc, hget, hh]
    exact hiter
  case h4 =>
    simp only [empty_file, List.nil_append, List.append_assoc, hget,
      block_load_device_name_eq]
  case h5 =>
    simp only [empty_file, List.nil_append, List.append_assoc, hget,
      block_load_device_name_eq, hpay]

/-- C1 at a concrete record: chunk at sector 2048 of `"sda"` (4096 sectors),
`iter_num = 1`, followed on the stream by an EOS header; the destination has
the same `"sda"`. -/
theorem wire_round_trip_witness :
    ∃ f,
      disk_save_block_slave [registered (sda 4096 (fun _ => false)) 0] (zero_chunk 2048 2048) 1
          empty_file = some (BLOCK_SIZE, f) ∧
      (block_load_header (qemu_get_be64
          { buf := f.buf ++ be64_bytes 2, has_error := false }).1).flags
          &&& BLK_MIG_FLAG_DEVICE_BLOCK ≠ 0 ∧
      (block_load_header (qemu_get_be64
          { buf := f.buf ++ be64_bytes 2, has_error := false }).1).addr = ((2048 : Nat) : Int) ∧
      ((block_load_header (qemu_get_be64
          { buf := f.buf ++ be64_bytes 2, has_error := false }).1).flags
          &&& DISK_VNUM_MASK) >>> DISK_VNUM_OFFSET = 1 ∧
      (block_load_device_name
          (qemu_get_be64 { buf := f.buf ++ be64_bytes 2, has_error := false }).2).1
          = cstr [115, 100, 97, 0] ∧
      qemu_get_buffer (block_load_device_name
          (qemu_get_be64 { buf := f.buf ++ be64_bytes 2, has_error := false }).2).2 BLOCK_SIZE
          = (List.replicate BLOCK_SIZE 0, { buf := be64_bytes 2, has_error := false }) ∧
      block_load_body (fun _ => some (sda 4096 (fun _ => false)))
          { buf := f.buf ++ be64_bytes 2, has_error := false } empty_load
        = LoadStep.next (1 + 8 * 1) { buf := be64_bytes 2, has_error := false }
            { empty_load with reduce_q := empty_load.reduce_q ++
                [{ bs := sda 4096 (fun _ => false), addr := ((2048 : Nat) : Int),
                   buf := List.replicate BLOCK_SIZE 0,
                   nr_sectors := block_load_nr_sectors
                     (bdrv_getlength (sda 4096 (fun _ => false)) / 2 ^ BDRV_SECTOR_BITS)
                     ((2048 : Nat) : Int) }] } := by
  obtain ⟨f, h0, h1, h2, h3, h4, h5, h6⟩ :=
    wire_round_trip [registered (sda 4096 (fun _ => false)) 0] (zero_chunk 2048 2048)
      (registered (sda 4096 (fun _ => false)) 0) 1 (be64_bytes 2)
      rfl (by decide) (by decide) (by decide) (List.length_replicate _ _)
  exact ⟨f, h0, h1, h2, h3, h4, h5,
    h6 (fun _ => some (sda 4096 (fun _ => false))) (sda 4096 (fun _ => false)) empty_load rfl
      (by decide)⟩

/-! ## C5: invalid frame -/

theorem and_low_mask (w m : Nat) (hm : m < 512) :
    (w &&& (BDRV_SECTOR_SIZE - 1)) &&& m = w &&& m := by
  have h : (BDRV_SECTOR_SIZE - 1) &&& m = m := by
    have := Nat.and_pow_two_sub_one_eq_mod m 9
    rw [Nat.and_comm]
    simp only [BDRV_SECTOR_SIZE, BDRV_SECTOR_BITS, Nat.shiftLeft_eq, Nat.one_mul]
    rw [this]
    omega
  rw [Nat.and_assoc, h]

/-- One pass of `block_load` on a header word without `DEVICE_BLOCK`, `EOS` and
`PROGRESS` whose iteration field is not `DISK_NEGOTIATE` returns `-EINVAL`. -/
theorem block_load_body_invalid (bdrv_find : List Nat → Option BlockDriverState) (w : Nat)
    (rest : List Nat) (e : Bool) (s : LoadState) (hw : w < 2 ^ 64)
    (hdev : w &&& BLK_MIG_FLAG_DEVICE_BLOCK = 0) (heos : w &&& BLK_MIG_FLAG_EOS = 0)
    (hprog : w &&& BLK_MIG_FLAG_PROGRESS = 0)
    (hiter : (w &&& DISK_VNUM_MASK) >>> DISK_VNUM_OFFSET ≠ DISK_NEGOTIATE) :
    block_load_body bdrv_find { buf := be64_bytes w ++ rest, has_error := e } s
      = LoadStep.ret (-EINVAL) { buf := rest, has_error := e } s := by
  have h1 : (block_load_header w).flags &&& BLK_MIG_FLAG_DEVICE_BLOCK = 0 := by
    simp only [block_load_header]
    rw [and_low_mask w _ (by decide), hdev]
  have h2 : (block_load_header w).flags &&& BLK_MIG_FLAG_PROGRESS = 0 := by
    simp only [block_load_header]
    rw [and_low_mask w _ (by decide), hprog]
  have h3 : (block_load_header w).flags &&& BLK_MIG_FLAG_EOS = 0 := by
    simp only [block_load_header]
    rw [and_low_mask w _ (by decide), heos]
  have h4 : (block_load_header w).iter_num ≠ DISK_NEGOTIATE := by
    simp only [block_load_header]
    rw [and_low_mask w _ (by decide)]
    exact hiter
  simp only [block_load_body, qemu_get_be64_bytes w hw rest e, h1, h2, h3, h4, ne_eq,
    not_true_eq_false, if_false, if_true]

/-- C5: `block_load` returns `-EINVAL` for every header word in which none of
the flag bits `DEVICE_BLOCK`, `EOS`, `PROGRESS` is set and whose six-bit
iteration field is not 63, whether the word is the first one of the stream or
is met by a later pass of the loop. -/
theorem block_load_invalid_frame (bdrv_find : List Nat → Option BlockDriverState) (w : Nat)
    (rest : List Nat) (e : Bool) (s : LoadState) (hw : w < 2 ^ 64)
    (hdev : w &&& BLK_MIG_FLAG_DEVICE_BLOCK = 0) (heos : w &&& BLK_MIG_FLAG_EOS = 0)
    (hprog : w &&& BLK_MIG_FLAG_PROGRESS = 0)
    (hiter : (w &&& DISK_VNUM_MASK) >>> DISK_VNUM_OFFSET ≠ DISK_NEGOTIATE) :
    block_load bdrv_find { buf := be64_bytes w ++ rest, has_error := e } s
        = some (-EINVAL, { buf := rest, has_error := e }, s) ∧
      ∀ fuel, block_load_loop bdrv_find (fuel + 1)
          { buf := be64_bytes w ++ rest, has_error := e } s
        = some (-EINVAL, { buf := rest, has_error := e }, s) := by
  have hb := block_load_body_invalid bdrv_find w rest e s hw hdev heos hprog hiter
  constructor
  · simp only [block_load, block_load_loop, hb]
  · intro fuel
    simp only [block_load_loop, hb]

/-- C5 at the unknown flag `0x08`: a stream holding only the header word 8. -/
theorem block_load_invalid_frame_witness :
    block_load (fun _ => none) { buf := be64_bytes 8 ++ [], has_error := false } empty_load
        = some (-EINVAL, { buf := [], has_error := false }, empty_load) ∧
      ∀ fuel, block_load_loop (fun _ => none) (fuel + 1)
          { buf := be64_bytes 8 ++ [], has_error := false } empty_load
        = some (-EINVAL, { buf := [], has_error := false }, empty_load) :=
  block_load_invalid_frame (fun _ => none) 8 [] false empty_load (by decide) (by decide)
    (by decide) (by decide) (by decide)

/-! ## C10: the iteration field of data and negotiation headers -/

/-- Decoding of the header word of any data record: flag `DEVICE_BLOCK` and the
low six bits of `iter_num`. -/
theorem block_load_header_data_flags (sector iter_num : Nat) :
    (block_load_header (data_header sector iter_num)).flags = 1 + 8 * (iter_num % 64) ∧
    (block_load_header (data_header sector iter_num)).iter_num = iter_num % 64 := by
  have hlow : data_header sector iter_num % 512 = 1 + 8 * (iter_num % 64) :=
    data_header_low sector iter_num
  have hflags : (block_load_header (data_header sector iter_num)).flags
      = 1 + 8 * (iter_num % 64) := by
    have := Nat.and_pow_two_sub_one_eq_mod (data_header sector iter_num) 9
    simp only [block_load_header, BDRV_SECTOR_SIZE, BDRV_SECTOR_BITS, Nat.shiftLeft_eq,
      Nat.one_mul]
    rw [this]
    exact hlow
  refine ⟨hflags, ?_⟩
  have h2 : (block_load_header (data_header sector iter_num)).iter_num
      = ((block_load_header (data_header sector iter_num)).flags &&& DISK_VNUM_MASK)
          >>> DISK_VNUM_OFFSET := rfl
  have hm : DISK_VNUM_MASK = 504 := by decide
  rw [h2, hflags, hm, DISK_VNUM_OFFSET, and_vnum_mask_shift _ (by omega)]
  omega

/-- C10 (amended): the header of every data record written by
`disk_save_block_slave` carries the flag `DEVICE_BLOCK` and, in its six-bit
iteration field, `iter_num mod 64`; the field is in 0..62 exactly when
`iter_num mod 64` is not 63, in particular for every `iter_num` in 0..62.  The
header written by `init_blk_migration_it`, when it writes one, is the
negotiation header: field 63 and none of the three flag bits. -/
theorem iter_field_of_headers (bmds_list : List BlkMigDevState) (blk : BlkMigBlock)
    (bmds : BlkMigDevState) (iter_num : Nat) (f : QEMUFile)
    (st : BlkMigState) (f0 : QEMUFile) (bs : BlockDriverState)
    (hdev : bmds_list.get? blk.bmds = some bmds) :
    (∃ tail, disk_save_block_slave bmds_list blk iter_num f
        = some (BLOCK_SIZE,
            { buf := f.buf ++ (be64_bytes (data_header blk.sector iter_num) ++ tail),
              has_error := f.has_error })) ∧
    (block_load_header (data_header blk.sector iter_num)).flags
        &&& BLK_MIG_FLAG_DEVICE_BLOCK ≠ 0 ∧
    (block_load_header (data_header blk.sector iter_num)).iter_num = iter_num % 64 ∧
    ((block_load_header (data_header blk.sector iter_num)).iter_num ≤ 62
        ↔ iter_num % 64 ≠ 63) ∧
    (iter_num ≤ 62 →
      (block_load_header (data_header blk.sector iter_num)).iter_num = iter_num) ∧
    ((init_blk_migration_it st f0 bs).2 = f0 ∨
      ∃ tail, (init_blk_migration_it st f0 bs).2
        = { buf := f0.buf ++ (be64_bytes negotiate_header ++ tail),
            has_error := f0.has_error }) ∧
    (block_load_header negotiate_header).iter_num = DISK_NEGOTIATE ∧
    (block_load_header negotiate_header).flags &&&
      (BLK_MIG_FLAG_DEVICE_BLOCK ||| BLK_MIG_FLAG_EOS ||| BLK_MIG_FLAG_PROGRESS) = 0 := by
  obtain ⟨hflags, hit⟩ := block_load_header_data_flags blk.sector iter_num
  refine ⟨?_, ?_, hit, ?_, ?_, ?_, by decide, by decide⟩
  · simp only [disk_save_block_slave, hdev, qemu_put_be64_eq, qemu_put_byte, qemu_put_buffer,
      data_header, List.append_assoc]
    exact ⟨_, rfl⟩
  · have := (and_flag_bits (1 + 8 * (iter_num % 64)) (by omega)).1
    rw [hflags, BLK_MIG_FLAG_DEVICE_BLOCK, this]
    omega
  · rw [hit]
    omega
  · intro h
    rw [hit]
    omega
  · unfold init_blk_migration_it
    by_cases hro : bs.read_only = true
    · left
      simp [hro]
    · by_cases hsec : bdrv_getlength bs / 2 ^ BDRV_SECTOR_BITS ≤ 0
      · left
        simp [hro, hsec]
      · right
        simp only [hro, hsec, qemu_put_be64_eq, qemu_put_byte, qemu_put_buffer,
          List.append_assoc, Bool.not_false, if_true, if_false, Bool.false_eq_true]
        exact ⟨_, rfl⟩

/-- C10 (amended) at a concrete record and a concrete registration: chunk 0 of
`"sda"` sent with `iter_num = 62`. -/
theorem iter_field_of_headers_witness :
    (block_load_header (data_header (zero_chunk 0 2048).sector 62)).iter_num = 62 % 64 ∧
    ((init_blk_migration_it (fresh_state 0 []) empty_file (sda 4096 (fun _ => false))).2
        = empty_file ∨
      ∃ tail, (init_blk_migration_it (fresh_state 0 []) empty_file
          (sda 4096 (fun _ => false))).2
        = { buf := empty_file.buf ++ (be64_bytes negotiate_header ++ tail),
            has_error := empty_file.has_error }) :=
  have h := iter_field_of_headers [registered (sda 4096 (fun _ => false)) 0] (zero_chunk 0 2048)
    (registered (sda 4096 (fun _ => false)) 0) 62 empty_file (fresh_state 0 []) empty_file
    (sda 4096 (fun _ => false)) rfl
  ⟨h.2.2.1, h.2.2.2.2.2.1⟩

/-- C10, counterexample: with the non-negative `iter_num = 63` the data record
written by `disk_save_block_slave` has the value 63 in its iteration field. -/
theorem iter_field_63_in_data_record :
    ∃ f, disk_save_block_slave [registered (sda 4096 (fun _ => false)) 0] (zero_chunk 0 2048) 63
          empty_file = some (BLOCK_SIZE, f) ∧
      (block_load_header (qemu_get_be64 f).1).flags &&& BLK_MIG_FLAG_DEVICE_BLOCK ≠ 0 ∧
      (block_load_header (qemu_get_be64 f).1).iter_num = 63 ∧
      ¬ (block_load_header (qemu_get_be64 f).1).iter_num ≤ 62 := by
  have hw := disk_save_block_slave_eq [registered (sda 4096 (fun _ => false)) 0]
    (zero_chunk 0 2048) (registered (sda 4096 (fun _ => false)) 0) 63 empty_file rfl
    (by decide) (List.length_replicate _ _)
  have hh := block_load_header_data 0 63 (by norm_num) (by norm_num)
  have hget := qemu_get_be64_bytes (data_header 0 63) (data_header_lt _ _)
    ([strlen (registered (sda 4096 (fun _ => false)) 0).bs.device_name] ++
      (cstr (registered (sda 4096 (fun _ => false)) 0).bs.device_name ++
        (zero_chunk 0 2048).buf)) false
  refine ⟨_, hw, ?_⟩
  have hs : (zero_chunk 0 2048).sector = 0 := rfl
  simp only [empty_file, List.nil_append, hs, hget, hh]
  decide

/-- A writable device of positive length is registered by
`init_blk_migration_it` as `registered bs shared_base`, at the end of the list. -/
theorem init_blk_migration_it_registered (st : BlkMigState) (f : QEMUFile)
    (bs : BlockDriverState) (hrw : bs.read_only = false)
    (hlen : 0 < bdrv_getlength bs / 2 ^ BDRV_SECTOR_BITS) :
    (init_blk_migration_it st f bs).1.bmds_list
      = st.bmds_list ++ [registered bs st.shared_base] := by
  simp only [init_blk_migration_it, hrw, Bool.not_false, if_true, if_neg (not_le.mpr hlen),
    registered]

/-! ## C2: shared base on the synchronous bulk path -/

/-- When the first registered device has bulk pending and `shared_base` set,
`blk_mig_save_bulked_block_sync` returns 0 and leaves `block_mig_state` and the
task queue as they were; only the freshly allocated task body stays behind. -/
theorem blk_mig_save_bulked_block_sync_shared_base (bl : BlockLayer) (BATCH_LEN : Nat)
    (st : BlkMigState) (p : Pipe) (bmds : BlkMigDevState) (rest : List BlkMigDevState)
    (hlist : st.bmds_list = bmds :: rest) (hdev : bmds.bulk_completed = 0)
    (hshared : bmds.shared_base ≠ 0) :
    blk_mig_save_bulked_block_sync bl BATCH_LEN st p
      = some { ret := 0, st := st, pipe := (new_task_body p).2 } := by
  simp only [blk_mig_save_bulked_block_sync, hlist, blk_mig_save_bulked_block_sync_devs, hdev,
    hshared, ne_eq, not_false_eq_true, if_true]
  rw [← hlist]

/-- With such a device and the global bulk flag clear, the `while` loop of
`disk_save_master` does not end within any number of passes. -/
theorem disk_save_master_bulk_shared_base (bl : BlockLayer) (BATCH_LEN : Nat)
    (st : BlkMigState) (bmds : BlkMigDevState) (rest : List BlkMigDevState)
    (hlist : st.bmds_list = bmds :: rest) (hbulk : st.bulk_completed = 0)
    (hdev : bmds.bulk_completed = 0) (hshared : bmds.shared_base ≠ 0) :
    ∀ (fuel data_sent : Nat) (p : Pipe),
      disk_save_master_bulk bl BATCH_LEN fuel data_sent st p = none := by
  intro fuel
  induction fuel with
  | zero => intro data_sent p; rfl
  | succ n ih =>
    intro data_sent p
    simp only [disk_save_master_bulk, hbulk, if_true,
      blk_mig_save_bulked_block_sync_shared_base bl BATCH_LEN st p bmds rest hlist hdev hshared]
    exact ih _ _

/-- C2, the code at the failing input (one registered device `"sda"` with
`shared_base` set, bulk not completed): `blk_mig_save_bulked_block_sync`
returns 0, the value of a successful run, pushes nothing and leaves
`bulk_completed` at 0, and `block_save_iter` with `stage = 2` does not return
within any number of passes of the `while` loop of `disk_save_master`. -/
theorem shared_base_sync_bulk_spins (BATCH_LEN : Nat) :
    (blk_mig_save_bulked_block_sync reads_ok BATCH_LEN
        (fresh_state 1 [registered (sda 4096 (fun _ => false)) 1]) (empty_pipe 0)).map
        (fun o => (o.ret, o.st.bulk_completed, o.pipe.task_q.tasks)) = some (0, 0, []) ∧
    ∀ fuel, block_save_iter reads_ok BATCH_LEN fuel 2
        (fresh_state 1 [registered (sda 4096 (fun _ => false)) 1]) (empty_pipe 0) empty_file
        = none := by
  constructor
  · rw [blk_mig_save_bulked_block_sync_shared_base reads_ok BATCH_LEN _ _
      (registered (sda 4096 (fun _ => false)) 1) [] rfl rfl (by decide)]
    rfl
  · intro fuel
    have h := disk_save_master_bulk_shared_base reads_ok BATCH_LEN
      (fresh_state 1 [registered (sda 4096 (fun _ => false)) 1])
      (registered (sda 4096 (fun _ => false)) 1) [] rfl rfl rfl (by decide) fuel 0 (empty_pipe 0)
    have hb : (fresh_state 1 [registered (sda 4096 (fun _ => false)) 1]).bulk_completed = 0 := rfl
    simp only [block_save_iter, disk_save_master, hb, if_true, h]

/-! ## C3 and C4: the convergence check -/

/-- With bulk completed, remaining dirty bytes and an accumulated read time
`total_time` of 0, `is_stage2_completed` does not return: the assertion
`total_time != 0` of `compute_read_bwidth` fails. -/
theorem is_stage2_completed_aborts (st : BlkMigState) (max_downtime : Nat)
    (hbulk : st.bulk_completed = 1) (hdirty : get_remaining_dirty st ≠ 0)
    (htime : st.total_time = 0) :
    is_stage2_completed st max_downtime = Run.aborts := by
  simp only [is_stage2_completed, hbulk, if_true, hdirty, if_false, compute_read_bwidth, htime,
    ne_eq, not_true_eq_false]

/-- The synchronous bulk sweep times no read: it leaves `reads` and
`total_time` as they are (only `blk_mig_read_cb` calls `add_avg_read_time`). -/
theorem blk_mig_save_bulked_block_sync_read_time (bl : BlockLayer) (BATCH_LEN : Nat)
    (st : BlkMigState) (p : Pipe) (out : SyncOut)
    (h : blk_mig_save_bulked_block_sync bl BATCH_LEN st p = some out) :
    out.st.reads = st.reads ∧ out.st.total_time = st.total_time := by
  simp only [blk_mig_save_bulked_block_sync] at h
  split at h
  · cases h
  · cases h
    exact ⟨rfl, rfl⟩
  · cases h
    exact ⟨rfl, rfl⟩

theorem converging_state_dirty_2048 (reads total_time : Int) :
    ((converging_state 2048 reads total_time).bmds_list.map
      (fun bmds => bdrv_get_dirty_count bmds.bs)).sum = 1 := by
  have h : (converging_state 2048 reads total_time).bmds_list
      = [registered (sda 2048 (fun _ => true)) 0] := rfl
  rw [h]
  decide

theorem converging_state_dirty_8192 (reads total_time : Int) :
    ((converging_state 8192 reads total_time).bmds_list.map
      (fun bmds => bdrv_get_dirty_count bmds.bs)).sum = 4 := by
  have h : (converging_state 8192 reads total_time).bmds_list
      = [registered (sda 8192 (fun _ => true)) 0] := rfl
  rw [h]
  decide

theorem converging_state_dirty_59392 (reads total_time : Int) :
    ((converging_state 59392 reads total_time).bmds_list.map
      (fun bmds => bdrv_get_dirty_count bmds.bs)).sum = 29 := by
  have h : (converging_state 59392 reads total_time).bmds_list
      = [registered (sda 59392 (fun _ => true)) 0] := rfl
  rw [h]
  decide

theorem converging_state_remaining (reads total_time : Int) :
    get_remaining_dirty (converging_state 2048 reads total_time) = 1048576 := by
  unfold get_remaining_dirty
  rw [converging_state_dirty_2048]
  decide

/-- C4, the code at the failing input: bulk completed, one dirty chunk left
(remaining dirty bytes `BLOCK_SIZE`), no read timed (`reads = 0`,
`total_time = 0`, as after `init_blk_migration` and the synchronous sweeps).
The check does not return 0: `assert(block_mig_state.total_time != 0)` in
`compute_read_bwidth` fails. -/
theorem is_stage2_completed_not_zero :
    (converging_state 2048 0 0).bulk_completed = 1 ∧
    get_remaining_dirty (converging_state 2048 0 0) = 1048576 ∧
    (converging_state 2048 0 0).reads = 0 ∧
    (converging_state 2048 0 0).total_time = 0 ∧
    is_stage2_completed (converging_state 2048 0 0) 30000000 = Run.aborts ∧
    is_stage2_completed (converging_state 2048 0 0) 30000000 ≠ Run.returns 0 := by
  have h : is_stage2_completed (converging_state 2048 0 0) 30000000 = Run.aborts :=
    is_stage2_completed_aborts (converging_state 2048 0 0) 30000000 rfl
      (by rw [converging_state_remaining]; decide) rfl
  refine ⟨rfl, converging_state_remaining 0 0, rfl, rfl, h, ?_⟩
  rw [h]
  intro hc
  cases hc

/-- The example of the specification: four dirty chunks left, one read of
`BLOCK_SIZE` bytes timed at 1 ms, `max_downtime` 10 ms (all in ns): the check
returns 1. -/
theorem is_stage2_completed_example :
    is_stage2_completed (converging_state 8192 1 1000000) 10000000 = Run.returns 1 := by
  have hrem : get_remaining_dirty (converging_state 8192 1 1000000) = 4194304 := by
    unfold get_remaining_dirty
    rw [converging_state_dirty_8192]
    decide
  have hr : (converging_state 8192 1 1000000).reads = 1 := rfl
  have ht : (converging_state 8192 1 1000000).total_time = 1000000 := rfl
  have hb : (converging_state 8192 1 1000000).bulk_completed = 1 := rfl
  have hw : toInt32 (toUInt64 (1 * (BLOCK_SIZE : Int))) = 1048576 := by decide
  have h1 : long_double_div ((1048576 : Int) : ℚ) ((1000000 : Int) : ℚ) ≠ 0 := by decide!
  have h2 : long_double_div ((4194304 : Int) : ℚ)
      (long_double_div ((1048576 : Int) : ℚ) ((1000000 : Int) : ℚ))
      ≤ ((10000000 : Nat) : ℚ) := by decide!
  simp only [is_stage2_completed, hrem, compute_read_bwidth, hr, ht, hb, hw, if_true]
  rw [if_neg (by decide : ¬ (4194304 : Int) = 0), if_pos (by decide : ¬ (1000000 : Int) = 0)]
  simp only [h1, if_false, h2, decide_True, if_true]

/-- C3, the code at the failing input: one dirty chunk left, 2048 reads timed at
one second each, `max_downtime` 30 ms (all in ns).  The `int` product
`reads * BLOCK_SIZE` is `2^31` and wraps to `-2^31`, the bandwidth is negative,
and `is_stage2_completed` returns 1 although the remaining chunk needs one
second at the observed bandwidth: the convergence predicate of the
specification is false. -/
theorem is_stage2_completed_int_overflow :
    toInt32 (toUInt64 ((converging_state 2048 2048 2048000000000).reads * (BLOCK_SIZE : Int)))
      = -2147483648 ∧
    is_stage2_completed (converging_state 2048 2048 2048000000000) 30000000 = Run.returns 1 ∧
    ¬ should_finish_spec (converging_state 2048 2048 2048000000000) 30000000 := by
  have hr : (converging_state 2048 2048 2048000000000).reads = 2048 := rfl
  have ht : (converging_state 2048 2048 2048000000000).total_time = 2048000000000 := rfl
  have hb : (converging_state 2048 2048 2048000000000).bulk_completed = 1 := rfl
  have hw : toInt32 (toUInt64 (2048 * (BLOCK_SIZE : Int))) = -2147483648 := by decide
  have hbs : (BLOCK_SIZE : Int) = 1048576 := by decide
  have h1 : long_double_div ((-2147483648 : Int) : ℚ) ((2048000000000 : Int) : ℚ) ≠ 0 := by
    decide!
  have h2 : long_double_div ((1048576 : Int) : ℚ)
      (long_double_div ((-2147483648 : Int) : ℚ) ((2048000000000 : Int) : ℚ))
      ≤ ((30000000 : Nat) : ℚ) := by decide!
  refine ⟨by rw [hr]; exact hw, ?_, ?_⟩
  · simp only [is_stage2_completed, converging_state_remaining, compute_read_bwidth, hr, ht, hb,
      hw, if_true]
    rw [if_neg (by decide : ¬ (1048576 : Int) = 0),
      if_pos (by decide : ¬ (2048000000000 : Int) = 0)]
    simp only [h1, if_false, h2, decide_True, if_true]
  · simp only [should_finish_spec, converging_state_dirty_2048, hr, ht, hb, hbs]
    norm_num

/-- The quotients of the convergence check are rounded to `long double`: with
29 dirty chunks left, 29 reads timed at 30 ms together and `max_downtime`
30 ms, the remaining bytes are the bytes read, the exact quotient
`remaining / bandwidth` is `max_downtime`, the rounded one lies above it, and
`is_stage2_completed` returns 0. -/
theorem is_stage2_completed_rounded :
    is_stage2_completed (converging_state 59392 29 30000000) 30000000 = Run.returns 0 ∧
    should_finish_spec (converging_state 59392 29 30000000) 30000000 := by
  have hrem : get_remaining_dirty (converging_state 59392 29 30000000) = 30408704 := by
    unfold get_remaining_dirty
    rw [converging_state_dirty_59392]
    decide
  have hr : (converging_state 59392 29 30000000).reads = 29 := rfl
  have ht : (converging_state 59392 29 30000000).total_time = 30000000 := rfl
  have hb : (converging_state 59392 29 30000000).bulk_completed = 1 := rfl
  have hw : toInt32 (toUInt64 (29 * (BLOCK_SIZE : Int))) = 30408704 := by decide
  have hbs : (BLOCK_SIZE : Int) = 1048576 := by decide
  have h1 : long_double_div ((30408704 : Int) : ℚ) ((30000000 : Int) : ℚ) ≠ 0 := by decide!
  have h2 : ¬ long_double_div ((30408704 : Int) : ℚ)
      (long_double_div ((30408704 : Int) : ℚ) ((30000000 : Int) : ℚ))
      ≤ ((30000000 : Nat) : ℚ) := by decide!
  refine ⟨?_, ?_⟩
  · simp only [is_stage2_completed, hrem, compute_read_bwidth, hr, ht, hb, hw, if_true]
    rw [if_neg (by decide : ¬ (30408704 : Int) = 0), if_pos (by decide : ¬ (30000000 : Int) = 0)]
    simp only [h1, if_false, h2, decide_False, Bool.false_eq_true]
  · simp only [should_finish_spec, converging_state_dirty_59392, hr, ht, hb, hbs]
    norm_num

theorem toInt64_toUInt64 (x : Int) (h0 : 0 ≤ x) (h : x < 2 ^ 63) :
    toInt64 (toUInt64 x) = x := by
  unfold toInt64 toUInt64
  have h1 : x % 2 ^ 64 = x := Int.emod_eq_of_lt h0 (by omega)
  rw [h1]
  have h2 : x.toNat % 2 ^ 64 = x.toNat := Nat.mod_eq_of_lt (by omega)
  rw [h2, if_pos (by omega)]
  omega

theorem toInt32_toUInt64 (x : Int) (h0 : 0 ≤ x) (h : x < 2 ^ 31) :
    toInt32 (toUInt64 x) = x := by
  unfold toInt32 toUInt64
  have h1 : x % 2 ^ 64 = x := Int.emod_eq_of_lt h0 (by omega)
  rw [h1]
  have h2 : x.toNat % 2 ^ 32 = x.toNat := Nat.mod_eq_of_lt (by omega)
  rw [h2, if_pos (by omega)]
  omega

/-! ## The chunk loop of the synchronous sweeps -/

theorem nb_chunks_lt_iff (T j : Nat) :
    j < nb_chunks T ↔ j * BDRV_SECTORS_PER_DIRTY_CHUNK < T := by
  unfold nb_chunks BDRV_SECTORS_PER_DIRTY_CHUNK
  omega

/-- Loop rule for `for_each_chunk` started on a chunk boundary: an invariant
indexed by the chunk number that every pass carries one chunk further holds for
the number of chunks of the device when the loop ends, and the loop does end
within `nb_chunks + 1` tests of its condition. -/
theorem for_each_chunk_invariant (pass : Nat → Sweep → Sweep) (T : Nat)
    (Inv : Nat → Sweep → Prop)
    (hT : ∀ j s, Inv j s → s.bmds.total_sectors = T ∧ s.failed = false)
    (hstep : ∀ j s, Inv j s → j * BDRV_SECTORS_PER_DIRTY_CHUNK < T →
      Inv (j + 1) (pass (j * BDRV_SECTORS_PER_DIRTY_CHUNK) s)) :
    ∀ m j fuel s, nb_chunks T = j + m → m + 1 ≤ fuel → Inv j s →
      ∃ s', for_each_chunk pass fuel (j * BDRV_SECTORS_PER_DIRTY_CHUNK) s = some s' ∧
        Inv (nb_chunks T) s' := by
  intro m
  induction m with
  | zero =>
    intro j fuel s hn hfuel hinv
    obtain ⟨fuel', rfl⟩ : ∃ fuel', fuel = fuel' + 1 := ⟨fuel - 1, by omega⟩
    have hge : ¬ j * BDRV_SECTORS_PER_DIRTY_CHUNK < T := by
      rw [← nb_chunks_lt_iff]
      omega
    refine ⟨s, ?_, ?_⟩
    · simp only [for_each_chunk, (hT j s hinv).1, hge, if_false]
    · have : nb_chunks T = j := by omega
      rw [this]
      exact hinv
  | succ m ih =>
    intro j fuel s hn hfuel hinv
    obtain ⟨fuel', rfl⟩ : ∃ fuel', fuel = fuel' + 1 := ⟨fuel - 1, by omega⟩
    have hlt : j * BDRV_SECTORS_PER_DIRTY_CHUNK < T := by
      rw [← nb_chunks_lt_iff]
      omega
    have hnext := hstep j s hinv hlt
    have hfail := (hT _ _ hnext).2
    have hsec : j * BDRV_SECTORS_PER_DIRTY_CHUNK + BDRV_SECTORS_PER_DIRTY_CHUNK
        = (j + 1) * BDRV_SECTORS_PER_DIRTY_CHUNK := by
      unfold BDRV_SECTORS_PER_DIRTY_CHUNK
      omega
    obtain ⟨s', hs', hinv'⟩ := ih (j + 1) fuel' _ (by omega) (by omega) hnext
    refine ⟨s', ?_, hinv'⟩
    simp only [for_each_chunk, (hT j s hinv).1, hlt, if_true, hfail, Bool.false_eq_true,
      if_false, hsec]
    exact hs'

/-! ### Effect of `sweep_emit` -/

theorem sweep_emit_bmds (B dev sector nr : Nat) (data : List Nat) (s : Sweep) :
    (sweep_emit B dev sector nr data s).bmds
      = { s.bmds with bs := bdrv_reset_dirty s.bmds.bs sector nr } := rfl

theorem sweep_emit_failed (B dev sector nr : Nat) (data : List Nat) (s : Sweep) :
    (sweep_emit B dev sector nr data s).failed = s.failed := rfl

theorem sweep_emit_data_sent (B dev sector nr : Nat) (data : List Nat) (s : Sweep) :
    (sweep_emit B dev sector nr data s).data_sent = s.data_sent := rfl

theorem sweep_emit_log (B dev sector nr : Nat) (data : List Nat) (s : Sweep) :
    (sweep_emit B dev sector nr data s).pipe.log
      = s.pipe.log ++ [BdrvCall.reset_dirty dev sector nr] := by
  unfold sweep_emit
  simp only
  split <;> rfl

theorem body_add_block_chunks_of (devices : List BlkMigDevState) (h : TaskHeap) (body : Nat)
    (blk : BlkMigBlock) (hh : heap_chunks_of devices h) (hblk : chunk_of devices blk) :
    heap_chunks_of devices (body_add_block h body blk) := by
  unfold body_add_block
  cases hb : h.bodies.get? body with
  | none => simpa using hh
  | some b =>
    intro b' hb' blk' hblk'
    simp only at hb'
    rcases List.mem_or_eq_of_mem_set hb' with hmem | heq
    · exact hh b' hmem blk' hblk'
    · subst heq
      simp only [List.mem_append, List.mem_singleton] at hblk'
      rcases hblk' with ht | he
      · exact hh b (List.mem_iff_get?.mpr ⟨body, hb⟩) blk' (List.mem_of_mem_take ht)
      · rw [he]
        exact hblk

theorem sweep_emit_chunks_of (devices : List BlkMigDevState) (B dev sector nr : Nat)
    (data : List Nat) (s : Sweep) (hh : heap_chunks_of devices s.pipe.heap)
    (hblk : chunk_of devices
      { buf := data, bmds := dev, sector := sector, nr_sectors := nr, ret := 0, time := 0,
        done := 0 }) :
    heap_chunks_of devices (sweep_emit B dev sector nr data s).pipe.heap := by
  have h1 := body_add_block_chunks_of devices s.pipe.heap s.body _ hh hblk
  unfold sweep_emit
  simp only
  split
  · intro b hb blk' hblk'
    simp only [new_task_body, List.mem_append, List.mem_singleton] at hb
    rcases hb with hb | hb
    · exact h1 b hb blk' hblk'
    · subst hb
      simp at hblk'
  · exact h1

/-! ## C6: coverage of the synchronous bulk sweep -/

theorem sweep_nr_sectors_pos (T sector : Nat) (h : sector < T) :
    1 ≤ sweep_nr_sectors T sector ∧ sweep_nr_sectors T sector ≤ BDRV_SECTORS_PER_DIRTY_CHUNK := by
  unfold sweep_nr_sectors BDRV_SECTORS_PER_DIRTY_CHUNK
  split <;> omega

theorem bdrv_reset_dirty_chunk (bs : BlockDriverState) (j nr k : Nat) (h1 : 1 ≤ nr)
    (h2 : nr ≤ BDRV_SECTORS_PER_DIRTY_CHUNK) :
    (bdrv_reset_dirty bs (j * BDRV_SECTORS_PER_DIRTY_CHUNK) nr).dirty k
      = if k = j then false else bs.dirty k := by
  unfold bdrv_reset_dirty
  unfold BDRV_SECTORS_PER_DIRTY_CHUNK at *
  simp only
  have hiff : (j * 2048 / 2048 ≤ k ∧ k ≤ (j * 2048 + nr - 1) / 2048) ↔ k = j := by omega
  simp only [hiff]

/-- One pass of the bulk chunk loop carries the invariant from chunk `j` to
chunk `j + 1` when the read succeeds. -/
theorem bulk_chunk_step (bl : BlockLayer) (B : Nat) (devices : List BlkMigDevState)
    (H0 : Prop) (dev T : Nat) (log0 : List BdrvCall) (d : BlkMigDevState)
    (hread : ∀ bs sector nr, (bl.bdrv_read bs sector nr).isSome = true)
    (hdev : devices.get? dev = some d) (hd : d.total_sectors = T)
    (j : Nat) (s : Sweep) (hinv : bulk_inv devices H0 dev T log0 j s)
    (hlt : j * BDRV_SECTORS_PER_DIRTY_CHUNK < T) :
    bulk_inv devices H0 dev T log0 (j + 1)
      (blk_mig_save_bulked_block_sync_chunk bl B dev (j * BDRV_SECTORS_PER_DIRTY_CHUNK) s) := by
  obtain ⟨hT, hf, hlog, hdirty, hheap⟩ := hinv
  obtain ⟨data, hdata⟩ := Option.isSome_iff_exists.mp
    (hread s.bmds.bs (j * BDRV_SECTORS_PER_DIRTY_CHUNK)
      (sweep_nr_sectors T (j * BDRV_SECTORS_PER_DIRTY_CHUNK)))
  have hnr := sweep_nr_sectors_pos T _ hlt
  unfold blk_mig_save_bulked_block_sync_chunk
  simp only [hT, hdata]
  refine ⟨?_, ?_, ?_, ?_, ?_⟩
  · simp only [sweep_emit_bmds, hT]
  · simp only [sweep_emit_failed, hf]
  · simp only [sweep_emit_log, hlog, List.range_succ, List.flatMap_append, List.flatMap_singleton,
      chunk_calls, List.append_assoc, List.cons_append, List.nil_append, List.flatMap_cons,
      List.flatMap_nil, List.append_nil]
  · intro k hk
    simp only [sweep_emit_bmds]
    rw [bdrv_reset_dirty_chunk _ _ _ _ hnr.1 hnr.2]
    by_cases hkj : k = j
    · simp [hkj]
    · simp only [hkj, if_false]
      exact hdirty k (by omega)
  · intro h0
    apply sweep_emit_chunks_of
    · exact hheap h0
    · exact ⟨d, hdev, by rw [hd]; exact hlt, by rw [hd]⟩

theorem nb_chunks_le (T : Nat) : nb_chunks T ≤ T := by
  unfold nb_chunks BDRV_SECTORS_PER_DIRTY_CHUNK
  omega

/-- The bulk chunk loop of one device, started at `cur_sector = 0` with
successful reads, ends and satisfies the invariant for all chunks. -/
theorem bulk_chunks_run (bl : BlockLayer) (B : Nat) (devices : List BlkMigDevState)
    (H0 : Prop) (dev : Nat) (d : BlkMigDevState) (body : Nat) (p : Pipe)
    (hread : ∀ bs sector nr, (bl.bdrv_read bs sector nr).isSome = true)
    (hdev : devices.get? dev = some d) (hcur : d.cur_sector = 0)
    (hheap : H0 → heap_chunks_of devices p.heap) :
    ∃ s', blk_mig_save_bulked_block_sync_chunks bl B dev
        (d.total_sectors - d.cur_sector + 1) d.cur_sector
        { bmds := d, body := body, data_sent := 0, pipe := p, failed := false } = some s' ∧
      bulk_inv devices H0 dev d.total_sectors p.log (nb_chunks d.total_sectors) s' := by
  have h := for_each_chunk_invariant (blk_mig_save_bulked_block_sync_chunk bl B dev)
    d.total_sectors (bulk_inv devices H0 dev d.total_sectors p.log)
    (fun j s hinv => ⟨hinv.1, hinv.2.1⟩)
    (fun j s hinv hlt => bulk_chunk_step bl B devices H0 dev d.total_sectors p.log d hread hdev
      rfl j s hinv hlt)
    (nb_chunks d.total_sectors) 0 (d.total_sectors - d.cur_sector + 1)
    { bmds := d, body := body, data_sent := 0, pipe := p, failed := false }
    (by omega) (by have := nb_chunks_le d.total_sectors; omega)
    ⟨rfl, rfl, by simp, fun k hk => absurd hk (Nat.not_lt_zero k), hheap⟩
  rw [hcur]
  rw [hcur] at h
  simpa [blk_mig_save_bulked_block_sync_chunks] using h

theorem flush_last_body_log (p : Pipe) (body : Nat) : (flush_last_body p body).log = p.log := by
  unfold flush_last_body
  split <;> rfl

theorem flush_last_body_chunks_of (devices : List BlkMigDevState) (p : Pipe) (body : Nat)
    (h : heap_chunks_of devices p.heap) :
    heap_chunks_of devices (flush_last_body p body).heap := by
  unfold flush_last_body
  split
  · exact h
  · exact h

/-- The device loop of the bulk sweep over devices with `shared_base` clear,
bulk pending and `cur_sector = 0`, with successful reads: it runs to its end
without `return`, makes exactly the calls of `bulk_sweep_calls`, and leaves every
device swept. -/
theorem bulk_devs_run (bl : BlockLayer) (B : Nat) (devices : List BlkMigDevState) (H0 : Prop)
    (hread : ∀ bs sector nr, (bl.bdrv_read bs sector nr).isSome = true) :
    ∀ (todo : List BlkMigDevState) (dev body : Nat) (p : Pipe),
      (∀ i bmds, todo.get? i = some bmds → devices.get? (dev + i) = some bmds) →
      (∀ bmds ∈ todo, bmds.shared_base = 0 ∧ bmds.bulk_completed = 0 ∧ bmds.cur_sector = 0) →
      (H0 → heap_chunks_of devices p.heap) →
      ∃ todo' p', blk_mig_save_bulked_block_sync_devs bl B dev todo body p
          = some (none, todo', p') ∧
        p'.log = p.log ++ bulk_sweep_calls dev todo ∧
        (H0 → heap_chunks_of devices p'.heap) ∧
        List.Forall₂ bulk_swept todo todo' := by
  intro todo
  induction todo with
  | nil =>
    intro dev body p _ _ hheap
    exact ⟨[], p, rfl, by simp [bulk_sweep_calls], hheap, List.Forall₂.nil⟩
  | cons d rest ih =>
    intro dev body p hsub hall hheap
    obtain ⟨hsh, hbc, hcur⟩ := hall d (List.mem_cons_self _ _)
    have hdev : devices.get? dev = some d := by
      have := hsub 0 d rfl
      simpa using this
    obtain ⟨s', hs', hT, hf, hlog, hdirty, hheap'⟩ :=
      bulk_chunks_run bl B devices H0 dev d body p hread hdev hcur hheap
    obtain ⟨todo', p', hrun, hlog', hheap'', hfa⟩ := ih (dev + 1) s'.body
      (flush_last_body s'.pipe s'.body)
      (fun i bmds hi => by
        have := hsub (i + 1) bmds (by simpa using hi)
        rw [← this]
        congr 1
        omega)
      (fun bmds hmem => hall bmds (List.mem_cons_of_mem _ hmem))
      (fun h0 => flush_last_body_chunks_of devices _ _ (hheap' h0))
    refine ⟨{ s'.bmds with bulk_completed := 1 } :: todo', p', ?_, ?_, hheap'', ?_⟩
    · simp only [blk_mig_save_bulked_block_sync_devs, hbc, hsh, if_true, ne_eq,
        not_true_eq_false, if_false, hs', hf, Bool.false_eq_true, hrun]
    · rw [hlog', flush_last_body_log, hlog]
      simp only [bulk_sweep_calls, List.append_assoc]
    · exact List.Forall₂.cons ⟨hT, rfl, hdirty⟩ hfa

/-- C6: for every list of registered devices with `shared_base` clear, bulk
pending and `cur_sector = 0`, and with every read succeeding,
`blk_mig_save_bulked_block_sync` returns (with value 0 and the global bulk flag
set) after reading, device by device in list order, exactly the chunks
`0, 1, ..., nb_chunks - 1` of each device at sectors `0, C, 2C, ...`, each
read followed by the dirty reset of the same range, and leaves no chunk of any
device dirty.  Here `nb_chunks S` is `ceil(S / C)`, and the `nr_sectors` of the
chunk at `sector` is `min(C, S - sector)`: between 1 and `C`, and short only
for the last chunk of the device. -/
theorem bulk_sweep_coverage (bl : BlockLayer) (BATCH_LEN : Nat) (st : BlkMigState) (p : Pipe)
    (hread : ∀ bs sector nr, (bl.bdrv_read bs sector nr).isSome = true)
    (hdevs : ∀ bmds ∈ st.bmds_list,
      bmds.shared_base = 0 ∧ bmds.bulk_completed = 0 ∧ bmds.cur_sector = 0) :
    (∃ out, blk_mig_save_bulked_block_sync bl BATCH_LEN st p = some out ∧
      out.ret = 0 ∧ out.st.bulk_completed = 1 ∧
      out.pipe.log = p.log ++ bulk_sweep_calls 0 st.bmds_list ∧
      List.Forall₂ bulk_swept st.bmds_list out.st.bmds_list) ∧
    (∀ S, S ≤ nb_chunks S * BDRV_SECTORS_PER_DIRTY_CHUNK ∧
      nb_chunks S * BDRV_SECTORS_PER_DIRTY_CHUNK < S + BDRV_SECTORS_PER_DIRTY_CHUNK) ∧
    (∀ S k, k < nb_chunks S →
      sweep_nr_sectors S (k * BDRV_SECTORS_PER_DIRTY_CHUNK)
        = min BDRV_SECTORS_PER_DIRTY_CHUNK (S - k * BDRV_SECTORS_PER_DIRTY_CHUNK) ∧
      1 ≤ sweep_nr_sectors S (k * BDRV_SECTORS_PER_DIRTY_CHUNK) ∧
      sweep_nr_sectors S (k * BDRV_SECTORS_PER_DIRTY_CHUNK) ≤ BDRV_SECTORS_PER_DIRTY_CHUNK ∧
      (sweep_nr_sectors S (k * BDRV_SECTORS_PER_DIRTY_CHUNK) < BDRV_SECTORS_PER_DIRTY_CHUNK →
        k + 1 = nb_chunks S)) := by
  refine ⟨?_, ?_, ?_⟩
  · obtain ⟨todo', p', hrun, hlog, _, hfa⟩ :=
      bulk_devs_run bl BATCH_LEN st.bmds_list False hread st.bmds_list 0 (new_task_body p).1
        (new_task_body p).2 (fun i bmds hi => by simpa using hi) hdevs (fun h => h.elim)
    refine ⟨{ ret := 0, st := { st with bmds_list := todo', bulk_completed := 1 }, pipe := p' },
      ?_, rfl, rfl, ?_, hfa⟩
    · simp only [blk_mig_save_bulked_block_sync, hrun]
    · rw [hlog]
      rfl
  · intro S
    unfold nb_chunks BDRV_SECTORS_PER_DIRTY_CHUNK
    omega
  · intro S k hk
    have hlt := (nb_chunks_lt_iff S k).mp hk
    unfold nb_chunks at *
    unfold sweep_nr_sectors BDRV_SECTORS_PER_DIRTY_CHUNK at *
    split <;> omega

/-- C6 at the devices `"a"` (2048 sectors) and `"b"` (1024 sectors, one short
chunk), `BATCH_LEN = 4`: two reads, each followed by its dirty reset. -/
theorem bulk_sweep_coverage_witness :
    (∃ out, blk_mig_save_bulked_block_sync reads_ok 4 (fresh_state 0 two_disks) (empty_pipe 0)
        = some out ∧
      out.ret = 0 ∧ out.st.bulk_completed = 1 ∧
      out.pipe.log = (empty_pipe 0).log ++ bulk_sweep_calls 0 (fresh_state 0 two_disks).bmds_list ∧
      List.Forall₂ bulk_swept (fresh_state 0 two_disks).bmds_list out.st.bmds_list) ∧
    bulk_sweep_calls 0 (fresh_state 0 two_disks).bmds_list
      = [BdrvCall.read 0 0 2048, BdrvCall.reset_dirty 0 0 2048,
         BdrvCall.read 1 0 1024, BdrvCall.reset_dirty 1 0 1024] :=
  ⟨(bulk_sweep_coverage reads_ok 4 (fresh_state 0 two_disks) (empty_pipe 0)
      (fun _ _ _ => rfl)
      (fun bmds h => by
        simp only [fresh_state, two_disks, List.mem_cons, List.mem_singleton,
          List.not_mem_nil, or_false] at h
        rcases h with rfl | rfl <;> exact ⟨rfl, rfl, rfl⟩)).1,
   by decide⟩

/-! ## C7: batching in the synchronous bulk sweep -/

/-- C7, the code at the failing input: two registered devices `"a"` (2048
sectors) and `"b"` (1024 sectors), one chunk each, reads succeeding, any
`BATCH_LEN`.  The task body is allocated once before the device loop and is not
replaced after the flush that ends a device.  With `BATCH_LEN = 1` the body
freed at the end of `"a"` is written to and pushed for `"b"`; with any other
`BATCH_LEN` the body pushed at the end of `"a"` receives the chunk of `"b"` and
is pushed a second time, so the queue holds the same pointer twice and the
chunk of `"a"` is in two queue entries. -/
theorem bulk_sweep_reuses_task_body (BATCH_LEN : Nat) :
    (blk_mig_save_bulked_block_sync reads_ok BATCH_LEN (fresh_state 0 two_disks)
        (empty_pipe 0)).map
      (fun o => (o.pipe.task_q.tasks, o.pipe.heap.use_after_free,
        (o.pipe.heap.bodies.get? 0).map (fun b => b.blocks.map (fun k => (k.bmds, k.sector)))))
      = some (if BATCH_LEN = 1 then ([0, 1], true, some [(0, 0)])
              else ([0, 0], false, some [(0, 0), (1, 0)])) := by
  rcases BATCH_LEN with _ | _ | _ | n
  · rfl
  · rfl
  · rfl
  · have h1 : ¬ (1 = n + 1 + 1 + 1) := by omega
    have h2 : ¬ (2 = n + 1 + 1 + 1) := by omega
    have h3 : ¬ (n + 1 + 1 + 1 = 1) := by omega
    simp [blk_mig_save_bulked_block_sync, blk_mig_save_bulked_block_sync_devs,
      blk_mig_save_bulked_block_sync_chunks, for_each_chunk,
      blk_mig_save_bulked_block_sync_chunk, sweep_emit, sweep_nr_sectors, new_task_body,
      body_len, body_add_block, flush_last_body, queue_push_task, free_body, fresh_state,
      two_disks, registered, disk, empty_pipe, reads_ok, bdrv_getlength, bdrv_reset_dirty,
      BDRV_SECTOR_BITS, BDRV_SECTORS_PER_DIRTY_CHUNK, alloc_aio_bitmap, h1, h2, h3]

/-! ## C8: the synchronous dirty sweep -/

theorem bmds_aio_inflight_congr (a b : BlkMigDevState) (h1 : a.aio_bitmap = b.aio_bitmap)
    (h2 : a.bs.length = b.bs.length) (sector : Nat) :
    bmds_aio_inflight a sector = bmds_aio_inflight b sector := by
  unfold bmds_aio_inflight bdrv_getlength
  rw [h1, h2]

/-- One pass of the dirty chunk loop carries the invariant from chunk `j` to
chunk `j + 1` when no read is in flight and the read succeeds. -/
theorem dirty_chunk_step (bl : BlockLayer) (B dev : Nat) (d : BlkMigDevState)
    (log0 : List BdrvCall)
    (hread : ∀ bs sector nr, (bl.bdrv_read bs sector nr).isSome = true)
    (hfl : ∀ sector, bmds_aio_inflight d sector = false)
    (j : Nat) (s : Sweep)
    (hinv : dirty_inv dev d.total_sectors d.bs.dirty d.aio_bitmap d.bs.length log0 j s)
    (hlt : j * BDRV_SECTORS_PER_DIRTY_CHUNK < d.total_sectors) :
    dirty_inv dev d.total_sectors d.bs.dirty d.aio_bitmap d.bs.length log0 (j + 1)
      (mig_save_device_dirty_sync_chunk bl B dev (j * BDRV_SECTORS_PER_DIRTY_CHUNK) s) := by
  obtain ⟨hT, hf, hlog, hdirty, hsent, hbm, hlen, _⟩ := hinv
  have hnofl : bmds_aio_inflight s.bmds (j * BDRV_SECTORS_PER_DIRTY_CHUNK) = false := by
    rw [bmds_aio_inflight_congr s.bmds d hbm hlen]
    exact hfl _
  have hj : j * BDRV_SECTORS_PER_DIRTY_CHUNK / BDRV_SECTORS_PER_DIRTY_CHUNK = j := by
    unfold BDRV_SECTORS_PER_DIRTY_CHUNK
    omega
  have hget : bdrv_get_dirty s.bmds.bs (j * BDRV_SECTORS_PER_DIRTY_CHUNK) = d.bs.dirty j := by
    unfold bdrv_get_dirty
    rw [hj, hdirty j]
    simp
  obtain ⟨data, hdata⟩ := Option.isSome_iff_exists.mp
    (hread s.bmds.bs (j * BDRV_SECTORS_PER_DIRTY_CHUNK)
      (sweep_nr_sectors d.total_sectors (j * BDRV_SECTORS_PER_DIRTY_CHUNK)))
  have hnr := sweep_nr_sectors_pos d.total_sectors _ hlt
  unfold mig_save_device_dirty_sync_chunk
  simp only [hnofl, Bool.false_eq_true, if_false, hget]
  by_cases hd : d.bs.dirty j = true
  · simp only [hd, if_true, hT, hdata]
    refine ⟨?_, ?_, ?_, ?_, ?_, ?_, ?_, ?_⟩
    · simp only [sweep_emit_bmds, hT]
    · simp only [sweep_emit_failed, hf]
    · simp only [sweep_emit_log, hlog, List.range_succ, List.filter_append, List.filter_singleton,
        hd, List.flatMap_append, chunk_calls, List.append_assoc, List.cons_append,
        List.nil_append, List.flatMap_cons, List.flatMap_nil, List.append_nil, cond_true]
    · intro k
      simp only [sweep_emit_bmds]
      rw [bdrv_reset_dirty_chunk _ _ _ _ hnr.1 hnr.2, hdirty k]
      by_cases hkj : k = j
      · simp [hkj]
      · have hiff : (k < j + 1) ↔ (k < j) := by omega
        simp only [hkj, if_false, hiff]
    · simp only [sweep_emit_data_sent, hsent, List.range_succ, List.filter_append,
        List.filter_singleton, hd, List.length_append, List.length_singleton, cond_true]
      rw [Nat.add_mul, Nat.one_mul]
      omega
    · simp only [sweep_emit_bmds, hbm]
    · simp only [sweep_emit_bmds, bdrv_reset_dirty, hlen]
    · intro _
      show j * BDRV_SECTORS_PER_DIRTY_CHUNK + BDRV_SECTORS_PER_DIRTY_CHUNK
        = (j + 1) * BDRV_SECTORS_PER_DIRTY_CHUNK
      rw [Nat.add_mul, Nat.one_mul]
  · simp only [hd, Bool.false_eq_true, if_false]
    have hd' : d.bs.dirty j = false := by simpa using hd
    have hcd : j * BDRV_SECTORS_PER_DIRTY_CHUNK + BDRV_SECTORS_PER_DIRTY_CHUNK
        = (j + 1) * BDRV_SECTORS_PER_DIRTY_CHUNK := by rw [Nat.add_mul, Nat.one_mul]
    refine ⟨hT, hf, ?_, ?_, ?_, hbm, hlen, fun _ => hcd⟩
    · simp only [hlog, List.range_succ, List.filter_append, List.filter_singleton, hd',
        List.flatMap_append, List.flatMap_nil, List.append_nil, cond_false]
    · intro k
      rw [hdirty k]
      by_cases hkj : k = j
      · simp [hkj, hd']
      · have hiff : (k < j + 1) ↔ (k < j) := by omega
        simp only [hiff]
    · simp only [hsent, List.range_succ, List.filter_append, List.filter_singleton, hd',
        List.append_nil, cond_false]

/-- The dirty sweep of one device with `cur_dirty = 0`, no read in flight and
successful reads: the call returns, its value is the `int` conversion of
`(number of dirty chunks) * BLOCK_SIZE`, it reads and resets exactly the dirty
chunks in increasing order, and it leaves the cursor at or past the end of the
device and no chunk of the device dirty. -/
theorem mig_save_device_dirty_sync_sweep (bl : BlockLayer) (B dev : Nat) (d : BlkMigDevState)
    (p : Pipe)
    (hread : ∀ bs sector nr, (bl.bdrv_read bs sector nr).isSome = true)
    (hcur : d.cur_dirty = 0)
    (hfl : ∀ sector, bmds_aio_inflight d sector = false) :
    ∃ d' p', mig_save_device_dirty_sync bl B dev d p
        = some (toInt32 (((dirty_chunks d).length * BLOCK_SIZE) % 2 ^ 64), d', p') ∧
      p'.log = p.log ++ (dirty_chunks d).flatMap (chunk_calls dev d.total_sectors) ∧
      d'.total_sectors = d.total_sectors ∧ d.total_sectors ≤ d'.cur_dirty ∧
      (∀ k, d'.bs.dirty k = if k < nb_chunks d.total_sectors then false else d.bs.dirty k) ∧
      d'.aio_bitmap = d.aio_bitmap ∧ d'.bs.length = d.bs.length := by
  have h := for_each_chunk_invariant (mig_save_device_dirty_sync_chunk bl B dev)
    d.total_sectors
    (dirty_inv dev d.total_sectors d.bs.dirty d.aio_bitmap d.bs.length (new_task_body p).2.log)
    (fun j s hinv => ⟨hinv.1, hinv.2.1⟩)
    (fun j s hinv hlt => dirty_chunk_step bl B dev d _ hread hfl j s hinv hlt)
    (nb_chunks d.total_sectors) 0 (d.total_sectors - d.cur_dirty + 1)
    { bmds := d, body := (new_task_body p).1, data_sent := 0, pipe := (new_task_body p).2,
      failed := false }
    (by omega) (by have := nb_chunks_le d.total_sectors; omega)
    ⟨rfl, rfl, by simp, fun k => by simp, by simp, rfl, rfl,
      fun h0 => absurd h0 (Nat.lt_irrefl 0)⟩
  obtain ⟨s', hs', hT, hf, hlog, hdirty, hsent, hbm, hlen, hcd⟩ := h
  rw [Nat.zero_mul, hcur] at hs'
  refine ⟨s'.bmds, flush_last_body s'.pipe s'.body, ?_, ?_, hT, ?_, hdirty, hbm, hlen⟩
  · simp only [mig_save_device_dirty_sync, mig_save_device_dirty_sync_chunks, hcur, hs', hf,
      Bool.false_eq_true, if_false, hsent, dirty_chunks]
  · rw [flush_last_body_log, hlog]
    rfl
  · by_cases hn : 0 < nb_chunks d.total_sectors
    · rw [hcd hn]
      have := (nb_chunks_lt_iff d.total_sectors (nb_chunks d.total_sectors)).not.mp
        (Nat.lt_irrefl _)
      omega
    · have h0 : ¬ 0 * BDRV_SECTORS_PER_DIRTY_CHUNK < d.total_sectors := by
        rw [← nb_chunks_lt_iff]
        exact hn
      omega

theorem dirty_chunks_sorted (d : BlkMigDevState) : (dirty_chunks d).Pairwise (· < ·) :=
  List.Pairwise.filter _ (List.pairwise_lt_range _)

theorem dirty_chunks_clean (d : BlkMigDevState)
    (h : ∀ k, k < nb_chunks d.total_sectors → d.bs.dirty k = false) : dirty_chunks d = [] := by
  unfold dirty_chunks
  rw [List.filter_eq_nil_iff]
  intro k hk
  rw [h k (List.mem_range.mp hk)]
  simp

/-- The dirty sweep as the specification describes it, for a device whose dirty
chunks amount to less than `2^31` bytes: the return value is `(number of dirty
chunks) * BLOCK_SIZE`, exactly the dirty chunks are read and reset in strictly
increasing order, the dirty count is 0 afterwards, the cursor is at or past
the end, and a second sweep after the cursor reset emits nothing and returns 0. -/
theorem mig_save_device_dirty_sync_below_2GiB (bl : BlockLayer) (B dev : Nat)
    (d : BlkMigDevState) (p : Pipe)
    (hread : ∀ bs sector nr, (bl.bdrv_read bs sector nr).isSome = true)
    (hcur : d.cur_dirty = 0)
    (hfl : ∀ sector, bmds_aio_inflight d sector = false)
    (hreg : (d.bs.length / 512).toNat = d.total_sectors)
    (hsmall : (dirty_chunks d).length * BLOCK_SIZE < 2 ^ 31) :
    ∃ d' p', mig_save_device_dirty_sync bl B dev d p
        = some ((((dirty_chunks d).length * BLOCK_SIZE : Nat) : Int), d', p') ∧
      p'.log = p.log ++ (dirty_chunks d).flatMap (chunk_calls dev d.total_sectors) ∧
      (dirty_chunks d).Pairwise (· < ·) ∧
      bdrv_get_dirty_count d'.bs = 0 ∧ d'.total_sectors ≤ d'.cur_dirty ∧
      ∃ d'' p'', mig_save_device_dirty_sync bl B dev { d' with cur_dirty := 0 } p'
          = some (0, d'', p'') ∧ p''.log = p'.log := by
  obtain ⟨d', p', hrun, hlog, hT, hcd, hdirty, hbm, hlen⟩ :=
    mig_save_device_dirty_sync_sweep bl B dev d p hread hcur hfl
  have hclean : ∀ k, k < nb_chunks d'.total_sectors → d'.bs.dirty k = false := by
    intro k hk
    rw [hdirty k, if_pos (by rw [← hT]; exact hk)]
  have hret : toInt32 (((dirty_chunks d).length * BLOCK_SIZE) % 2 ^ 64)
      = (((dirty_chunks d).length * BLOCK_SIZE : Nat) : Int) := by
    unfold toInt32
    have h1 : (dirty_chunks d).length * BLOCK_SIZE % 2 ^ 64 % 2 ^ 32
        = (dirty_chunks d).length * BLOCK_SIZE := by omega
    rw [h1, if_pos hsmall]
  have hfl' : ∀ sector, bmds_aio_inflight { d' with cur_dirty := 0 } sector = false := by
    intro sector
    exact (bmds_aio_inflight_congr _ d hbm hlen sector).trans (hfl sector)
  obtain ⟨d'', p'', hrun2, hlog2, _⟩ :=
    mig_save_device_dirty_sync_sweep bl B dev { d' with cur_dirty := 0 } p' hread rfl hfl'
  have hnone : dirty_chunks { d' with cur_dirty := 0 } = [] := dirty_chunks_clean _ hclean
  rw [hnone] at hrun2 hlog2
  refine ⟨d', p', ?_, hlog, dirty_chunks_sorted d, ?_, by rw [hT]; exact hcd, d'', p'', ?_, ?_⟩
  · rw [hrun, hret]
  · unfold bdrv_get_dirty_count
    rw [hlen, hreg, ← hT]
    have := dirty_chunks_clean d' hclean
    unfold dirty_chunks at this
    rw [this]
    rfl
  · rw [hrun2]
    rfl
  · simpa using hlog2

theorem getD_replicate_zero (n i : Nat) : (List.replicate n (0 : Nat)).getD i 0 = 0 := by
  induction n generalizing i with
  | zero => rfl
  | succ n ih =>
    cases i with
    | zero => rfl
    | succ i => simp [List.replicate_succ, ih i]

/-- A freshly registered device has no read in flight. -/
theorem registered_no_inflight (bs : BlockDriverState) (shared_base : Int) (sector : Nat) :
    bmds_aio_inflight (registered bs shared_base) sector = false := by
  unfold bmds_aio_inflight registered alloc_aio_bitmap
  simp only [getD_replicate_zero, Nat.zero_and, ne_eq, not_true_eq_false, decide_False,
    ite_self]

theorem registered_disk_total_sectors (name : List Nat) (sectors : Nat) (dirty : Nat → Bool)
    (shared_base : Int) :
    (registered (disk name sectors dirty) shared_base).total_sectors = sectors := by
  simp only [registered, disk, bdrv_getlength, BDRV_SECTOR_BITS]
  omega

/-- The example of the specification: a device of 4096 sectors whose chunks at
sectors 0 and 2048 are dirty.  The sweep reads and resets sector 0, then sector
2048, returns `2 * BLOCK_SIZE`, and leaves the dirty count 0. -/
theorem dirty_sweep_example :
    ∃ d' p', mig_save_device_dirty_sync reads_ok 4 0
        (registered (sda 4096 (fun k => k == 0 || k == 1)) 0) (empty_pipe 1)
        = some (2097152, d', p') ∧
      p'.log = [BdrvCall.read 0 0 2048, BdrvCall.reset_dirty 0 0 2048,
                BdrvCall.read 0 2048 2048, BdrvCall.reset_dirty 0 2048 2048] ∧
      bdrv_get_dirty_count d'.bs = 0 ∧ d'.total_sectors ≤ d'.cur_dirty := by
  have hchunks : dirty_chunks (registered (sda 4096 (fun k => k == 0 || k == 1)) 0) = [0, 1] := by
    decide
  have hT : (registered (sda 4096 (fun k => k == 0 || k == 1)) 0).total_sectors = 4096 := by
    decide
  obtain ⟨d', p', hrun, hlog, _, hcount, hcd, _⟩ :=
    mig_save_device_dirty_sync_below_2GiB reads_ok 4 0
      (registered (sda 4096 (fun k => k == 0 || k == 1)) 0) (empty_pipe 1)
      (fun _ _ _ => rfl) rfl (registered_no_inflight _ _) (by decide)
      (by rw [hchunks]; decide)
  refine ⟨d', p', ?_, ?_, hcount, hcd⟩
  · rw [hrun, hchunks]
    rfl
  · rw [hlog, hchunks, hT]
    decide

/-- C8, the code at the failing input: a device `"sda"` of 4194304 sectors
(2 GiB) all of whose 2048 chunks are dirty, cursor at 0, no read in flight,
reads succeeding, any `BATCH_LEN`.  The sweep emits 2048 chunks and its
`unsigned long data_sent` is `2048 * BLOCK_SIZE = 2^31`, but the function is
declared `int` and returns `-2^31`. -/
theorem dirty_sweep_return_truncated (BATCH_LEN : Nat) :
    (dirty_chunks (registered (sda 4194304 (fun _ => true)) 0)).length = 2048 ∧
    2048 * BLOCK_SIZE = 2147483648 ∧
    ∃ d' p', mig_save_device_dirty_sync reads_ok BATCH_LEN 0
        (registered (sda 4194304 (fun _ => true)) 0) (empty_pipe 1)
        = some (-2147483648, d', p') := by
  have hlen : (dirty_chunks (registered (sda 4194304 (fun _ => true)) 0)).length = 2048 := by
    unfold dirty_chunks
    rw [sda, registered_disk_total_sectors]
    have hn : nb_chunks 4194304 = 2048 := by decide
    rw [hn]
    simp [registered, disk]
  obtain ⟨d', p', hrun, _⟩ :=
    mig_save_device_dirty_sync_sweep reads_ok BATCH_LEN 0
      (registered (sda 4194304 (fun _ => true)) 0) (empty_pipe 1)
      (fun _ _ _ => rfl) rfl (registered_no_inflight _ _)
  refine ⟨hlen, by decide, d', p', ?_⟩
  rw [hrun, hlen]
  have : toInt32 (2048 * BLOCK_SIZE % 2 ^ 64) = -2147483648 := by decide
  rw [this]

/-! ## C9: the short tail, end to end -/

theorem wire_payload_length (buf : List Nat) : (wire_payload buf).length = BLOCK_SIZE := by
  unfold wire_payload
  simp only [List.length_append, List.length_take, List.length_replicate]
  omega

/-- The bytes of the record written by `disk_save_block_slave`, whatever the
length of the model buffer. -/
theorem disk_save_block_slave_wire (bmds_list : List BlkMigDevState) (blk : BlkMigBlock)
    (bmds : BlkMigDevState) (iter_num : Nat) (f : QEMUFile)
    (hdev : bmds_list.get? blk.bmds = some bmds)
    (hname : strlen bmds.bs.device_name ≤ 255) :
    disk_save_block_slave bmds_list blk iter_num f
      = some (BLOCK_SIZE,
          { buf := f.buf ++ (be64_bytes (data_header blk.sector iter_num) ++
              ([strlen bmds.bs.device_name] ++
                (cstr bmds.bs.device_name ++ wire_payload blk.buf))),
            has_error := f.has_error }) := by
  have hmod : strlen bmds.bs.device_name % 256 = strlen bmds.bs.device_name := by omega
  simp only [disk_save_block_slave, hdev, qemu_put_be64_eq, qemu_put_buffer_cstr, qemu_put_byte,
    hmod, data_header, List.append_assoc, wire_payload]
  simp only [qemu_put_buffer, List.append_assoc]

/-- One pass of `block_load` over a well-formed data record for a device known
at the destination: the write task is built from the decoded header, the
destination length and the `BLOCK_SIZE` payload. -/
theorem block_load_body_record (bdrv_find : List Nat → Option BlockDriverState) (w : Nat)
    (name payload rest : List Nat) (bs : BlockDriverState) (s : LoadState)
    (hw : w < 2 ^ 64)
    (hflag : (block_load_header w).flags &&& BLK_MIG_FLAG_DEVICE_BLOCK ≠ 0)
    (hpay : payload.length = BLOCK_SIZE)
    (hfind : bdrv_find (cstr name) = some bs)
    (hlen : 0 < bdrv_getlength bs / 2 ^ BDRV_SECTOR_BITS) :
    block_load_body bdrv_find
        { buf := be64_bytes w ++ ([strlen name] ++ (cstr name ++ (payload ++ rest))),
          has_error := false } s
      = LoadStep.next (block_load_header w).flags { buf := rest, has_error := false }
          { s with reduce_q := s.reduce_q ++
              [{ bs := bs, addr := (block_load_header w).addr, buf := payload,
                 nr_sectors := block_load_nr_sectors
                   (bdrv_getlength bs / 2 ^ BDRV_SECTOR_BITS) (block_load_header w).addr }] } := by
  have hp := qemu_get_buffer_append payload rest false
  rw [hpay] at hp
  simp only [block_load_body, qemu_get_be64_bytes w hw, if_pos hflag, block_load_device_name_eq,
    hfind, if_neg (not_le.mpr hlen), hp]

/-- For a sector inside a device of `T` sectors the receiver computes the same
`nr_sectors` as the sweeps. -/
theorem block_load_nr_sectors_eq (T sector : Nat) (h : sector < T) :
    block_load_nr_sectors (T : Int) (sector : Int) = ((sweep_nr_sectors T sector : Nat) : Int) := by
  unfold block_load_nr_sectors sweep_nr_sectors BDRV_SECTORS_PER_DIRTY_CHUNK
  by_cases hs : T - sector < 2048
  · have hs' : (T : Int) - (sector : Int) < ((2048 : Nat) : Int) := by omega
    rw [if_pos hs, if_pos hs', toInt32_toUInt64 _ (by omega) (by omega)]
    omega
  · have hs' : ¬ (T : Int) - (sector : Int) < ((2048 : Nat) : Int) := by omega
    rw [if_neg hs, if_neg hs']

/-- C9 (amended): with reads succeeding, `shared_base` clear, bulk pending and
`cur_sector = 0`, every chunk that `blk_mig_save_bulked_block_sync` links into a
task body, for a source device of `T < 2^54` sectors, when written by
`disk_save_block_slave` with an `iter_num` in 0..63 and read by `block_load` at a
destination whose device of that name has the same `T` sectors, yields a write
task with `addr = sector` and the same `nr_sectors = min(C, T - sector)`, which
ends inside the device: a short final chunk is written as the valid tail only. -/
theorem short_tail_end_to_end (bl : BlockLayer) (BATCH_LEN : Nat) (st : BlkMigState) (p : Pipe)
    (hread : ∀ bs sector nr, (bl.bdrv_read bs sector nr).isSome = true)
    (hdevs : ∀ bmds ∈ st.bmds_list,
      bmds.shared_base = 0 ∧ bmds.bulk_completed = 0 ∧ bmds.cur_sector = 0)
    (hheap : heap_chunks_of st.bmds_list p.heap) :
    ∃ out, blk_mig_save_bulked_block_sync bl BATCH_LEN st p = some out ∧
      ∀ b ∈ out.pipe.heap.bodies, ∀ blk ∈ b.blocks, ∀ bmds,
        st.bmds_list.get? blk.bmds = some bmds → bmds.total_sectors < 2 ^ 54 →
        strlen bmds.bs.device_name ≤ 255 →
        ∀ (iter_num : Nat) (rest : List Nat) (bdrv_find : List Nat → Option BlockDriverState)
          (bs : BlockDriverState) (s : LoadState),
          iter_num ≤ 63 → bdrv_find (cstr bmds.bs.device_name) = some bs →
          bdrv_getlength bs / 2 ^ BDRV_SECTOR_BITS = (bmds.total_sectors : Int) →
          blk.nr_sectors
              = min BDRV_SECTORS_PER_DIRTY_CHUNK (bmds.total_sectors - blk.sector) ∧
          blk.sector + blk.nr_sectors ≤ bmds.total_sectors ∧
          ∃ f, disk_save_block_slave st.bmds_list blk iter_num empty_file
              = some (BLOCK_SIZE, f) ∧
            block_load_body bdrv_find { buf := f.buf ++ rest, has_error := false } s
              = LoadStep.next (1 + 8 * iter_num) { buf := rest, has_error := false }
                  { s with reduce_q := s.reduce_q ++
                      [{ bs := bs, addr := (blk.sector : Int), buf := wire_payload blk.buf,
                         nr_sectors := (blk.nr_sectors : Int) }] } := by
  obtain ⟨todo', p', hrun, _, hheap', _⟩ :=
    bulk_devs_run bl BATCH_LEN st.bmds_list True hread st.bmds_list 0 (new_task_body p).1
      (new_task_body p).2 (fun i bmds hi => by simpa using hi) hdevs
      (fun _ b hb blk hblk => by
        simp only [new_task_body, List.mem_append, List.mem_singleton] at hb
        rcases hb with hb | hb
        · exact hheap b hb blk hblk
        · subst hb
          simp at hblk)
  refine ⟨{ ret := 0, st := { st with bmds_list := todo', bulk_completed := 1 }, pipe := p' },
    by simp only [blk_mig_save_bulked_block_sync, hrun], ?_⟩
  intro b hb blk hblk bmds hdev hT hname iter_num rest bdrv_find bs s hiter hfind hlen
  obtain ⟨bmds0, hdev0, hsec, hnr⟩ := hheap' trivial b hb blk hblk
  rw [hdev] at hdev0
  cases hdev0
  have hpos : 0 < bdrv_getlength bs / 2 ^ BDRV_SECTOR_BITS := by
    rw [hlen]
    omega
  have hh := block_load_header_data blk.sector iter_num (by omega) (by omega)
  have hbit : (1 + 8 * iter_num) &&& BLK_MIG_FLAG_DEVICE_BLOCK ≠ 0 := by
    have := (and_flag_bits (1 + 8 * iter_num) (by omega)).1
    rw [BLK_MIG_FLAG_DEVICE_BLOCK, this]
    omega
  have hbody := block_load_body_record bdrv_find (data_header blk.sector iter_num)
    bmds.bs.device_name (wire_payload blk.buf) rest bs s (data_header_lt _ _)
    (by rw [hh]; exact hbit) (wire_payload_length _) hfind hpos
  rw [hh, hlen, block_load_nr_sectors_eq _ _ hsec, ← hnr] at hbody
  refine ⟨?_, ?_, _, disk_save_block_slave_wire st.bmds_list blk bmds iter_num empty_file hdev
    hname, ?_⟩
  · rw [hnr]
    unfold sweep_nr_sectors BDRV_SECTORS_PER_DIRTY_CHUNK
    split <;> omega
  · rw [hnr]
    unfold sweep_nr_sectors BDRV_SECTORS_PER_DIRTY_CHUNK
    split <;> omega
  · simp only [empty_file, List.nil_append, List.append_assoc]
    exact hbody

/-- The chunks linked into task bodies by the bulk sweep of `"a"` and `"b"`. -/
theorem two_disks_chunks :
    (blk_mig_save_bulked_block_sync reads_ok 4 (fresh_state 0 two_disks) (empty_pipe 1)).map
      (fun o => o.pipe.heap.bodies.map (fun b => b.blocks))
      = some [[sync_chunk 0 0 2048, sync_chunk 1 0 1024]] := by
  rfl

/-- C9 (amended) at the short chunk of `"b"` (1024 sectors): the bulk sweep of
`"a"` and `"b"` cuts the chunk `(sector 0, nr_sectors 1024)`, and its record,
written with `iter_num = 1` and read at a destination whose `"b"` has 1024
sectors, gives a write task with `addr = 0` and `nr_sectors = 1024`. -/
theorem short_tail_end_to_end_witness :
    ∃ f, disk_save_block_slave (fresh_state 0 two_disks).bmds_list (sync_chunk 1 0 1024) 1
          empty_file = some (BLOCK_SIZE, f) ∧
        block_load_body (fun _ => some (disk [98] 1024 (fun _ => false)))
            { buf := f.buf ++ [], has_error := false } empty_load
          = LoadStep.next (1 + 8 * 1) { buf := [], has_error := false }
              { empty_load with reduce_q := empty_load.reduce_q ++
                  [{ bs := disk [98] 1024 (fun _ => false), addr := ((0 : Nat) : Int),
                     buf := wire_payload [], nr_sectors := ((1024 : Nat) : Int) }] } := by
  obtain ⟨out, hrun, hall⟩ := short_tail_end_to_end reads_ok 4 (fresh_state 0 two_disks)
    (empty_pipe 1) (fun _ _ _ => rfl)
    (fun bmds h => by
      simp only [fresh_state, two_disks, List.mem_cons, List.mem_singleton,
        List.not_mem_nil, or_false] at h
      rcases h with rfl | rfl <;> exact ⟨rfl, rfl, rfl⟩)
    (fun b hb => by simp [empty_pipe] at hb)
  have hchunks := two_disks_chunks
  rw [hrun] at hchunks
  simp only [Option.map_some', Option.some.injEq] at hchunks
  have hmem : [sync_chunk 0 0 2048, sync_chunk 1 0 1024]
      ∈ out.pipe.heap.bodies.map (fun b => b.blocks) := by
    rw [hchunks]
    simp
  obtain ⟨b, hb, hblocks⟩ := List.mem_map.mp hmem
  have hblk : sync_chunk 1 0 1024 ∈ b.blocks := by
    rw [hblocks]
    simp
  exact (hall b hb (sync_chunk 1 0 1024) hblk (registered (disk [98] 1024 (fun _ => false)) 0)
    rfl (by decide) (by decide) 1 [] (fun _ => some (disk [98] 1024 (fun _ => false)))
    (disk [98] 1024 (fun _ => false)) empty_load (by decide) rfl (by decide)).2.2

/-- C9, counterexample: the bulk sweep of a device `"sda"` of 2048 sectors cuts
the single chunk `(sector 0, nr_sectors 2048)`; written with `iter_num = 64` and
read at a destination whose `"sda"` has the same 2048 sectors, the record gives a
write task with `addr = 1` and `nr_sectors = 2047`. -/
theorem short_tail_iter_64 :
    (blk_mig_save_bulked_block_sync reads_ok 4
        (fresh_state 0 [registered (sda 2048 (fun _ => false)) 0]) (empty_pipe 64)).map
      (fun o => o.pipe.heap.bodies.map (fun b => b.blocks))
      = some [[sync_chunk 0 0 2048]] ∧
    ∃ f, disk_save_block_slave [registered (sda 2048 (fun _ => false)) 0] (sync_chunk 0 0 2048) 64
          empty_file = some (BLOCK_SIZE, f) ∧
        block_load_body (fun _ => some (sda 2048 (fun _ => false)))
            { buf := f.buf ++ [], has_error := false } empty_load
          = LoadStep.next 1 { buf := [], has_error := false }
              { empty_load with reduce_q := empty_load.reduce_q ++
                  [{ bs := sda 2048 (fun _ => false), addr := 1,
                     buf := wire_payload [], nr_sectors := 2047 }] } := by
  refine ⟨rfl, _, disk_save_block_slave_wire [registered (sda 2048 (fun _ => false)) 0]
    (sync_chunk 0 0 2048) (registered (sda 2048 (fun _ => false)) 0) 64 empty_file rfl
    (by decide), ?_⟩
  have hw : data_header (sync_chunk 0 0 2048).sector 64 = 513 := by decide
  have hflags : (block_load_header 513).flags = 1 := by decide
  have haddr : (block_load_header 513).addr = 1 := by decide
  have hnr : block_load_nr_sectors
      (bdrv_getlength (sda 2048 (fun _ => false)) / 2 ^ BDRV_SECTOR_BITS) 1 = 2047 := by decide
  have hbody := block_load_body_record (fun _ => some (sda 2048 (fun _ => false))) 513
    (registered (sda 2048 (fun _ => false)) 0).bs.device_name (wire_payload []) []
    (sda 2048 (fun _ => false)) empty_load (by decide) (by rw [hflags]; decide)
    (wire_payload_length _) rfl (by decide)
  rw [hflags, haddr, hnr] at hbody
  simp only [empty_file, List.nil_append, List.append_assoc, hw]
  exact hbody

/-! ## Batching of the bulk sweep of a single device -/

theorem body_add_block_last (full : List task_body) (cur : task_body) (blk : BlkMigBlock)
    (h : TaskHeap) (hb : h.bodies = full ++ [cur]) (hf : h.freed = [])
    (hu : h.use_after_free = false) (hl : cur.len = cur.blocks.length) :
    body_add_block h full.length blk
      = TaskHeap.mk
          (full ++ [task_body.mk cur.type (cur.len + 1) cur.iter_num (cur.blocks ++ [blk])])
          [] false := by
  unfold body_add_block
  have hget : h.bodies.get? full.length = some cur := by
    rw [hb]
    simp
  rw [hget]
  simp only [hb, hf, hu, hl, List.take_length]
  simp

/-- Linking chunk `j` into the current body carries the batching invariant from
chunk `j` to chunk `j + 1`. -/
theorem sweep_emit_batch (B : Nat) (q0 : List Nat) (dev nr : Nat) (data : List Nat) (j : Nat)
    (s : Sweep) (hinv : batch_inv B q0 j s) :
    batch_inv B q0 (j + 1)
      (sweep_emit B dev (j * BDRV_SECTORS_PER_DIRTY_CHUNK) nr data s) := by
  obtain ⟨i, r, full, cur, hj, hr, hbody, hfull, hbodies, hfreed, huaf, htasks, hfullb, hlen,
    hblen, hsec⟩ := hinv
  have hadd := body_add_block_last full cur
    (BlkMigBlock.mk data dev (j * BDRV_SECTORS_PER_DIRTY_CHUNK) nr 0 0 0) s.pipe.heap hbodies
    hfreed huaf (by rw [hlen, hblen])
  rw [hfull, ← hbody] at hadd
  have hsec' : (cur.blocks ++ [BlkMigBlock.mk data dev (j * BDRV_SECTORS_PER_DIRTY_CHUNK) nr
        0 0 0]).map (fun k => k.sector)
      = (List.range' (i * B) (r + 1)).map (fun k => k * BDRV_SECTORS_PER_DIRTY_CHUNK) := by
    rw [List.map_append, hsec, List.range'_concat, List.map_append]
    simp only [List.map_cons, List.map_nil, Nat.one_mul, hj]
  have hlen1 : body_len (TaskHeap.mk
      (full ++ [task_body.mk cur.type (cur.len + 1) cur.iter_num
        (cur.blocks ++ [BlkMigBlock.mk data dev (j * BDRV_SECTORS_PER_DIRTY_CHUNK) nr 0 0 0])])
      [] false) s.body = r + 1 := by
    unfold body_len
    rw [hbody, ← hfull]
    simp [hlen]
  unfold sweep_emit
  simp only [hadd, hlen1]
  by_cases hB : r + 1 = B
  · simp only [hB, if_true]
    refine ⟨i + 1, 0, full ++ [task_body.mk cur.type (cur.len + 1) cur.iter_num
        (cur.blocks ++ [BlkMigBlock.mk data dev (j * BDRV_SECTORS_PER_DIRTY_CHUNK) nr 0 0 0])],
      _, ?_, by omega, ?_, ?_, rfl, rfl, rfl, ?_, ?_, rfl, rfl, ?_⟩
    · rw [Nat.succ_mul]
      omega
    · simp [new_task_body, hfull]
    · simp [hfull]
    · simp only [new_task_body, queue_push_task, htasks, hbody, List.range_succ,
        List.append_assoc]
    · intro t b hb
      by_cases ht : t < full.length
      · rw [List.get?_eq_getElem?, List.getElem?_append_left ht, ← List.get?_eq_getElem?] at hb
        exact hfullb t b hb
      · have hti : t = full.length := by
          obtain ⟨hlt, _⟩ := List.get?_eq_some.mp hb
          simp only [List.length_append, List.length_singleton] at hlt
          omega
        subst hti
        simp only [List.get?_eq_getElem?, List.getElem?_concat_length,
          Option.some.injEq] at hb
        subst hb
        refine ⟨by simp only [hlen]; exact hB, ?_⟩
        simp only [hsec', hfull, hB]
    · simp
  · simp only [hB, if_false]
    refine ⟨i, r + 1, full, _, by omega, by omega, hbody, hfull, rfl, rfl, rfl, htasks, hfullb,
      by simp only [hlen], by simp [hblen], hsec'⟩

/-- Batching of the bulk sweep of a single registered device, started with an
empty heap, for `BATCH_LEN ≥ 1`: with `nb_chunks = i * BATCH_LEN + r` and
`r < BATCH_LEN`, the sweep pushes the `i` full task bodies `0 .. i - 1` once
each, in order, body `t` holding the chunks `t * BATCH_LEN ..
(t + 1) * BATCH_LEN - 1`; the last body `i` holds the remaining `r` chunks and
is pushed when `r ≠ 0` and freed when `r = 0`; no store goes through a freed
pointer.  So every chunk is in exactly one pushed body and every pushed body
holds between 1 and `BATCH_LEN` chunks. -/
theorem bulk_sweep_single_device_batches (bl : BlockLayer) (B : Nat) (hB : 0 < B)
    (st : BlkMigState) (d : BlkMigDevState) (p : Pipe)
    (hread : ∀ bs sector nr, (bl.bdrv_read bs sector nr).isSome = true)
    (hst : st.bmds_list = [d])
    (hd : d.shared_base = 0 ∧ d.bulk_completed = 0 ∧ d.cur_sector = 0)
    (hheap : p.heap = { bodies := [], freed := [], use_after_free := false }) :
    ∃ (out : SyncOut) (i r : Nat) (full : List task_body) (cur : task_body),
      blk_mig_save_bulked_block_sync bl B st p = some out ∧
      nb_chunks d.total_sectors = i * B + r ∧ r < B ∧
      out.pipe.heap.bodies = full ++ [cur] ∧ full.length = i ∧
      (∀ t b, full.get? t = some b → b.len = B ∧
        b.blocks.map (fun k => k.sector)
          = (List.range' (t * B) B).map (fun k => k * BDRV_SECTORS_PER_DIRTY_CHUNK)) ∧
      cur.len = r ∧
      cur.blocks.map (fun k => k.sector)
        = (List.range' (i * B) r).map (fun k => k * BDRV_SECTORS_PER_DIRTY_CHUNK) ∧
      out.pipe.task_q.tasks = p.task_q.tasks ++ List.range i ++ (if r = 0 then [] else [i]) ∧
      out.pipe.heap.freed = (if r = 0 then [i] else []) ∧
      out.pipe.heap.use_after_free = false := by
  obtain ⟨hsh, hbc, hcur⟩ := hd
  have h := for_each_chunk_invariant (blk_mig_save_bulked_block_sync_chunk bl B 0)
    d.total_sectors
    (fun j s => s.bmds.total_sectors = d.total_sectors ∧ s.failed = false ∧
      batch_inv B p.task_q.tasks j s)
    (fun j s hinv => ⟨hinv.1, hinv.2.1⟩)
    (fun j s hinv hlt => by
      obtain ⟨hT, hf, hb⟩ := hinv
      obtain ⟨data, hdata⟩ := Option.isSome_iff_exists.mp
        (hread s.bmds.bs (j * BDRV_SECTORS_PER_DIRTY_CHUNK)
          (sweep_nr_sectors d.total_sectors (j * BDRV_SECTORS_PER_DIRTY_CHUNK)))
      unfold blk_mig_save_bulked_block_sync_chunk
      simp only [hT, hdata]
      refine ⟨by simp only [sweep_emit_bmds, hT], by simp only [sweep_emit_failed, hf], ?_⟩
      have hb' := sweep_emit_batch B p.task_q.tasks 0
        (sweep_nr_sectors d.total_sectors (j * BDRV_SECTORS_PER_DIRTY_CHUNK)) data j
        { s with pipe := { s.pipe with log := s.pipe.log ++
            [BdrvCall.read 0 (j * BDRV_SECTORS_PER_DIRTY_CHUNK)
              (sweep_nr_sectors d.total_sectors (j * BDRV_SECTORS_PER_DIRTY_CHUNK))] } } hb
      exact hb')
    (nb_chunks d.total_sectors) 0 (d.total_sectors - d.cur_sector + 1)
    { bmds := d, body := (new_task_body p).1, data_sent := 0, pipe := (new_task_body p).2,
      failed := false }
    (by omega) (by have := nb_chunks_le d.total_sectors; omega)
    ⟨rfl, rfl, 0, 0, [], task_body.mk task_type.TASK_TYPE_DISK 0 p.task_q.iter_num [],
      by omega, hB, by simp [new_task_body, hheap], rfl,
      by simp [new_task_body, hheap], by simp [new_task_body, hheap],
      by simp [new_task_body, hheap], by simp [new_task_body],
      fun t b hb => by simp at hb, rfl, rfl, by simp⟩
  obtain ⟨s', hs', hT, hf, i, r, full, cur, hj, hr, hbody, hfull, hbodies, hfreed, huaf, htasks,
    hfullb, hlen, hblen, hsec⟩ := h
  rw [Nat.zero_mul, hcur] at hs'
  have hlast : body_len s'.pipe.heap s'.body = r := by
    unfold body_len
    rw [hbodies, hbody, ← hfull]
    simp [hlen]
  refine ⟨{ ret := 0,
            st := { st with bmds_list := { s'.bmds with bulk_completed := 1 } :: [],
                            bulk_completed := 1 },
            pipe := flush_last_body s'.pipe s'.body }, i, r, full, cur, ?_, hj, hr, ?_⟩
  · simp only [blk_mig_save_bulked_block_sync, hst, blk_mig_save_bulked_block_sync_devs, hbc,
      hsh, if_true, ne_eq, not_true_eq_false, if_false, blk_mig_save_bulked_block_sync_chunks,
      hcur, hs', hf, Bool.false_eq_true]
  · rw [hbody] at hlast
    by_cases hr0 : r = 0
    · have hfl : flush_last_body s'.pipe i
          = { s'.pipe with heap := free_body s'.pipe.heap i } := by
        unfold flush_last_body
        rw [hlast, hr0]
        simp
      simp only [hbody, hfl, free_body, hbodies, hfreed, huaf, htasks, hr0, if_true,
        List.append_nil, List.nil_append]
      exact ⟨trivial, hfull, hfullb, by rw [hlen, hr0], by rw [hsec, hr0], trivial, trivial, trivial⟩
    · have hfl : flush_last_body s'.pipe i
          = { s'.pipe with task_q := queue_push_task s'.pipe.task_q i } := by
        unfold flush_last_body
        rw [hlast]
        simp [hr0]
      simp only [hbody, hfl, queue_push_task, hbodies, hfreed, huaf, htasks, hr0, if_false]
      exact ⟨trivial, hfull, hfullb, hlen, hsec, trivial, trivial, trivial⟩

/-! ## C11: the bulk cursor after the synchronous bulk sweep -/

/-- A property of the device record that every pass of a chunk loop keeps is
kept by the loop. -/
theorem for_each_chunk_preserves (pass : Nat → Sweep → Sweep) (P : Sweep → Prop)
    (hpass : ∀ sector s, P s → P (pass sector s)) :
    ∀ fuel sector s s', P s → for_each_chunk pass fuel sector s = some s' → P s' := by
  intro fuel
  induction fuel with
  | zero =>
    intro sector s s' _ h
    simp [for_each_chunk] at h
  | succ fuel ih =>
    intro sector s s' hP h
    simp only [for_each_chunk] at h
    split at h
    · split at h
      · cases h
        exact hpass _ _ hP
      · exact ih _ _ _ (hpass _ _ hP) h
    · cases h
      exact hP

theorem blk_mig_save_bulked_block_sync_chunk_cur_sector (bl : BlockLayer) (B dev sector : Nat)
    (s : Sweep) :
    (blk_mig_save_bulked_block_sync_chunk bl B dev sector s).bmds.cur_sector = s.bmds.cur_sector ∧
    (blk_mig_save_bulked_block_sync_chunk bl B dev sector s).bmds.total_sectors
      = s.bmds.total_sectors := by
  unfold blk_mig_save_bulked_block_sync_chunk
  simp only
  split
  · exact ⟨rfl, rfl⟩
  · simp only [sweep_emit_bmds, and_self]

/-- The device loop of `blk_mig_save_bulked_block_sync` never stores to
`cur_sector` (nor to `total_sectors`): however it is left, every device has the
`cur_sector` it had before. -/
theorem blk_mig_save_bulked_block_sync_devs_cur_sector (bl : BlockLayer) (B : Nat) :
    ∀ (todo : List BlkMigDevState) (dev body : Nat) (p : Pipe) r todo' p',
      blk_mig_save_bulked_block_sync_devs bl B dev todo body p = some (r, todo', p') →
      todo'.map (fun d => (d.cur_sector, d.total_sectors))
        = todo.map (fun d => (d.cur_sector, d.total_sectors)) := by
  intro todo
  induction todo with
  | nil =>
    intro dev body p r todo' p' h
    simp only [blk_mig_save_bulked_block_sync_devs, Option.some.injEq, Prod.mk.injEq] at h
    rw [← h.2.1]
  | cons d rest ih =>
    intro dev body p r todo' p' h
    simp only [blk_mig_save_bulked_block_sync_devs] at h
    split at h
    · split at h
      · simp only [Option.some.injEq, Prod.mk.injEq] at h
        rw [← h.2.1]
      · split at h
        · cases h
        · rename_i s hs
          have hk := for_each_chunk_preserves (blk_mig_save_bulked_block_sync_chunk bl B dev)
            (fun s => s.bmds.cur_sector = d.cur_sector ∧ s.bmds.total_sectors = d.total_sectors)
            (fun sector s hP => by
              obtain ⟨h1, h2⟩ := blk_mig_save_bulked_block_sync_chunk_cur_sector bl B dev sector s
              exact ⟨h1.trans hP.1, h2.trans hP.2⟩)
            _ _ _ s ⟨rfl, rfl⟩ hs
          split at h
          · simp only [Option.some.injEq, Prod.mk.injEq] at h
            rw [← h.2.1]
            simp only [List.map_cons, hk.1, hk.2]
          · split at h
            · cases h
            · rename_i r1 rest1 p1 hrest
              simp only [Option.some.injEq, Prod.mk.injEq] at h
              rw [← h.2.1]
              simp only [List.map_cons, hk.1, hk.2, ih _ _ _ _ _ _ hrest]
    · split at h
      · cases h
      · rename_i r1 rest1 p1 hrest
        simp only [Option.some.injEq, Prod.mk.injEq] at h
        rw [← h.2.1]
        simp only [List.map_cons, ih _ _ _ _ _ _ hrest]

/-- Every run of `blk_mig_save_bulked_block_sync` that returns leaves the
`cur_sector` and `total_sectors` of every device as they were. -/
theorem blk_mig_save_bulked_block_sync_cur_sector (bl : BlockLayer) (B : Nat) (st : BlkMigState)
    (p : Pipe) (out : SyncOut) (h : blk_mig_save_bulked_block_sync bl B st p = some out) :
    out.st.bmds_list.map (fun d => (d.cur_sector, d.total_sectors))
      = st.bmds_list.map (fun d => (d.cur_sector, d.total_sectors)) := by
  simp only [blk_mig_save_bulked_block_sync] at h
  split at h
  · cases h
  · rename_i r l p' hrun
    cases h
    exact blk_mig_save_bulked_block_sync_devs_cur_sector bl B _ _ _ _ _ _ _ hrun
  · rename_i l p' hrun
    cases h
    exact blk_mig_save_bulked_block_sync_devs_cur_sector bl B _ _ _ _ _ _ _ hrun

/-- C11, the code at the failing input: one registered device `"sda"` of 2048
sectors, `shared_base` clear, every read succeeding, any `BATCH_LEN`.
`blk_mig_save_bulked_block_sync` runs to completion and sets
`block_mig_state.bulk_completed` to 1, and the device still has
`cur_sector = 0`, below its `total_sectors = 2048`: the sweep advances its
local `sector` and stores it to `cur_dirty`, never to `cur_sector`. -/
theorem bulk_sync_completed_cur_sector_zero (BATCH_LEN : Nat) :
    ∃ out, blk_mig_save_bulked_block_sync reads_ok BATCH_LEN
        (fresh_state 0 [registered (sda 2048 (fun _ => false)) 0]) (empty_pipe 0) = some out ∧
      out.st.bulk_completed = 1 ∧
      out.st.bmds_list.map (fun d => (d.bulk_completed, d.cur_sector, d.cur_dirty, d.total_sectors))
        = [(1, 0, 2048, 2048)] := by
  rcases BATCH_LEN with _ | _ | n
  · exact ⟨_, rfl, rfl, rfl⟩
  · exact ⟨_, rfl, rfl, rfl⟩
  · have h1 : ¬ (1 = n + 1 + 1) := by omega
    simp [blk_mig_save_bulked_block_sync, blk_mig_save_bulked_block_sync_devs,
      blk_mig_save_bulked_block_sync_chunks, for_each_chunk,
      blk_mig_save_bulked_block_sync_chunk, sweep_emit, sweep_nr_sectors, new_task_body,
      body_len, body_add_block, flush_last_body, queue_push_task, free_body, fresh_state,
      registered, sda, disk, empty_pipe, reads_ok, bdrv_getlength, bdrv_reset_dirty,
      BDRV_SECTOR_BITS, BDRV_SECTORS_PER_DIRTY_CHUNK, alloc_aio_bitmap, h1]

/-! ## The in-flight bitmap -/

theorem and_one_shiftLeft_ne_zero (w k : Nat) :
    decide (w &&& (1 <<< k) ≠ 0) = w.testBit k := by
  rw [Nat.one_shiftLeft]
  by_cases h : w.testBit k = true
  · rw [h]
    simp only [decide_eq_true_eq]
    intro h0
    have := congrArg (fun x => x.testBit k) h0
    simp [Nat.testBit_and, h, Nat.testBit_two_pow] at this
  · simp only [Bool.not_eq_true] at h
    rw [h]
    simp only [ne_eq, decide_not, Bool.not_eq_false', decide_eq_true_eq]
    apply Nat.eq_of_testBit_eq
    intro i
    simp only [Nat.testBit_and, Nat.testBit_two_pow, Nat.zero_testBit]
    by_cases hi : k = i
    · subst hi
      simp [h]
    · simp [hi]

theorem bmds_set_aio_inflight_pass_length (set : Int) (bitmap : List Nat) (c : Nat) :
    (bmds_set_aio_inflight_pass set bitmap c).length = bitmap.length := by
  simp [bmds_set_aio_inflight_pass]

theorem testBit_clear (v b i : Nat) (hb : b < 64) (hi : i < 64) :
    (v &&& (2 ^ 64 - 1 - (1 <<< b))).testBit i = (v.testBit i && !decide (b = i)) := by
  have h : (2 ^ 64 - 1 - (1 <<< b)).testBit i = !decide (b = i) := by
    rw [Nat.one_shiftLeft]
    have hlt : 2 ^ b < 2 ^ 64 := Nat.pow_lt_pow_right (by decide) hb
    have hx : 2 ^ 64 - 1 - 2 ^ b = 2 ^ 64 - (2 ^ b + 1) := by omega
    rw [hx, Nat.testBit_two_pow_sub_succ hlt, Nat.testBit_two_pow]
    simp [hi]
  rw [Nat.testBit_and, h]

/-- The word update of `bmds_set_aio_inflight`, bit by bit. -/
theorem testBit_set_or_clear (set : Int) (v b i : Nat) (hb : b < 64) (hi : i < 64) :
    (if set ≠ 0 then v ||| (1 <<< b) else v &&& (2 ^ 64 - 1 - (1 <<< b))).testBit i
      = if b = i then decide (set ≠ 0) else v.testBit i := by
  by_cases hs : set = 0
  · rw [if_neg (by simpa using hs), testBit_clear v b i hb hi]
    by_cases hbi : b = i
    · simp [hbi, hs]
    · simp [hbi]
  · rw [if_pos hs, Nat.testBit_or, Nat.one_shiftLeft, Nat.testBit_two_pow]
    by_cases hbi : b = i
    · simp [hbi, hs]
    · simp [hbi]

/-- Effect of one pass of the loop of `bmds_set_aio_inflight` whose word is
inside the array: the bit of its chunk takes the value `set`, every other bit
keeps its value. -/
theorem bmds_set_aio_inflight_pass_bit (set : Int) (bitmap : List Nat) (c c' : Nat)
    (hc : c / 64 < bitmap.length) :
    aio_bit (bmds_set_aio_inflight_pass set bitmap c) c'
      = if c' = c then decide (set ≠ 0) else aio_bit bitmap c' := by
  have hget : ∀ v, (bitmap.set (c / 64) v).getD (c' / 64) 0
      = if c / 64 = c' / 64 then v else bitmap.getD (c' / 64) 0 := by
    intro v
    simp only [List.getD_eq_getElem?_getD, List.getElem?_set, hc, if_true]
    split <;> rfl
  unfold aio_bit bmds_set_aio_inflight_pass
  simp only [hget]
  by_cases hidx : c / 64 = c' / 64
  · rw [if_pos hidx, testBit_set_or_clear set _ _ _ (Nat.mod_lt _ (by decide))
      (Nat.mod_lt _ (by decide)), hidx]
    by_cases hcc : c' = c
    · rw [if_pos hcc, if_pos (by rw [hcc])]
    · rw [if_neg hcc, if_neg (by omega)]
  · rw [if_neg hidx, if_neg (fun h => hidx (by rw [h]))]

/-- Effect of the loop of `bmds_set_aio_inflight` over the chunks `start`, ...,
`start + n - 1`, all of whose words are inside the array. -/
theorem bmds_set_aio_inflight_loop_bit (set : Int) :
    ∀ (n start : Nat) (bitmap : List Nat), (start + n - 1) / 64 < bitmap.length ∨ n = 0 →
      ((List.range' start n).foldl (bmds_set_aio_inflight_pass set) bitmap).length
          = bitmap.length ∧
      ∀ c', aio_bit ((List.range' start n).foldl (bmds_set_aio_inflight_pass set) bitmap) c'
        = if start ≤ c' ∧ c' < start + n then decide (set ≠ 0) else aio_bit bitmap c' := by
  intro n
  induction n with
  | zero =>
    intro start bitmap _
    refine ⟨rfl, fun c' => ?_⟩
    rw [if_neg (by omega)]
    rfl
  | succ n ih =>
    intro start bitmap hb
    have hb' : (start + n) / 64 < bitmap.length := by
      rcases hb with hb | hb
      · simpa using hb
      · omega
    have hstart : start / 64 < bitmap.length := by omega
    have hl := bmds_set_aio_inflight_pass_length set bitmap start
    obtain ⟨h1, h2⟩ := ih (start + 1) (bmds_set_aio_inflight_pass set bitmap start) (by
      by_cases hn : n = 0
      · exact Or.inr hn
      · left
        rw [hl]
        have : start + 1 + n - 1 = start + n := by omega
        rw [this]
        exact hb')
    simp only [List.range', List.foldl_cons]
    refine ⟨h1.trans hl, fun c' => ?_⟩
    rw [h2 c', bmds_set_aio_inflight_pass_bit set bitmap start c' hstart]
    by_cases hc : c' = start
    · subst hc
      rw [if_neg (by omega), if_pos rfl, if_pos (by omega)]
    · by_cases hr : start + 1 ≤ c' ∧ c' < start + 1 + n
      · rw [if_pos hr, if_pos (by omega)]
      · rw [if_neg hr, if_neg hc, if_neg (by omega)]

theorem toInt64_of_lt (w : Nat) (h : w < 2 ^ 63) : toInt64 w = (w : Int) := by
  unfold toInt64
  have h1 : w % 2 ^ 64 = w := Nat.mod_eq_of_lt (by omega)
  rw [h1, if_pos h]

/-- Byte size computed by `alloc_aio_bitmap` for a device of `S` sectors:
`ceil(S / (CHUNK * 8))`. -/
theorem alloc_aio_bitmap_size_eq (bs : BlockDriverState) (S : Nat)
    (hlen : bs.length = (S : Int) * 512) :
    alloc_aio_bitmap_size bs = (((S + 16383) / 16384 : Nat) : Int) := by
  unfold alloc_aio_bitmap_size bdrv_getlength BDRV_SECTOR_BITS BDRV_SECTORS_PER_DIRTY_CHUNK
  rw [hlen]
  norm_num
  omega

/-- The array that `alloc_aio_bitmap` gives a device holds exactly the words that
lie inside the allocation of `bitmap_size` bytes. -/
theorem alloc_aio_bitmap_word_iff (bs : BlockDriverState) (idx : Nat) :
    idx < (alloc_aio_bitmap bs).length
      ↔ aio_bitmap_word_inside (alloc_aio_bitmap_size bs) idx = true := by
  unfold alloc_aio_bitmap aio_bitmap_word_inside
  rw [List.length_replicate]
  simp only [decide_eq_true_eq]
  omega

/-- Number of words of the array that `alloc_aio_bitmap` gives a device of `S`
sectors: one word per 8 bytes of the allocation, that is per 131072 sectors,
a trailing part of fewer than 8 bytes holding no word. -/
theorem alloc_aio_bitmap_length (bs : BlockDriverState) (S : Nat)
    (hlen : bs.length = (S : Int) * 512) :
    (alloc_aio_bitmap bs).length = (S + 16383) / 16384 / 8 := by
  unfold alloc_aio_bitmap
  rw [List.length_replicate, alloc_aio_bitmap_size_eq bs S hlen, Int.toNat_ofNat]

/-- The array that `alloc_aio_bitmap` gives a device of `S` sectors has a word
for every 64 chunks of the device exactly when the number of chunks, modulo
64, is 0 or at least 57. -/
theorem alloc_aio_bitmap_length_covers_iff (bs : BlockDriverState) (S : Nat)
    (hlen : bs.length = (S : Int) * 512) :
    (nb_chunks S + 63) / 64 ≤ (alloc_aio_bitmap bs).length
      ↔ (nb_chunks S % 64 = 0 ∨ 57 ≤ nb_chunks S % 64) := by
  rw [alloc_aio_bitmap_length bs S hlen]
  unfold nb_chunks BDRV_SECTORS_PER_DIRTY_CHUNK
  omega

/-- The checked test in terms of the bit of the sector's chunk. -/
theorem bmds_aio_inflight_checked_eq (bmds : BlkMigDevState) (t : Nat) :
    bmds_aio_inflight_checked bmds t
      = if toInt64 (t <<< BDRV_SECTOR_BITS) < bdrv_getlength bmds.bs then
          if t / BDRV_SECTORS_PER_DIRTY_CHUNK / 64 < bmds.aio_bitmap.length
          then some (aio_bit bmds.aio_bitmap (t / BDRV_SECTORS_PER_DIRTY_CHUNK)) else none
        else some false := by
  unfold bmds_aio_inflight_checked
  simp only
  split
  · by_cases hidx : t / BDRV_SECTORS_PER_DIRTY_CHUNK / 64 < bmds.aio_bitmap.length
    · rw [if_pos hidx, List.get?_eq_getElem?, List.getElem?_eq_getElem hidx]
      simp only [and_one_shiftLeft_ne_zero, aio_bit, List.getD_eq_getElem?_getD,
        List.getElem?_eq_getElem hidx, Option.getD_some]
    · rw [if_neg hidx, List.get?_eq_getElem?, List.getElem?_eq_none (by omega)]
  · rfl

theorem shiftLeft_sector_bits (t : Nat) : t <<< BDRV_SECTOR_BITS = t * 512 := by
  simp [BDRV_SECTOR_BITS, Nat.shiftLeft_eq]

/-- Below the device length the checked test loads a word inside an array of
one word per 64 chunks and returns the bit of the sector's chunk. -/
theorem bmds_aio_inflight_checked_below (bmds : BlkMigDevState) (S t : Nat)
    (hlen : bmds.bs.length = (S : Int) * 512) (hS : S * 512 < 2 ^ 63)
    (hmap : (nb_chunks S + 63) / 64 ≤ bmds.aio_bitmap.length) (ht : t < S) :
    bmds_aio_inflight_checked bmds t
      = some (aio_bit bmds.aio_bitmap (t / BDRV_SECTORS_PER_DIRTY_CHUNK)) := by
  have hidx : t / BDRV_SECTORS_PER_DIRTY_CHUNK / 64 < bmds.aio_bitmap.length := by
    unfold nb_chunks BDRV_SECTORS_PER_DIRTY_CHUNK at *
    omega
  rw [bmds_aio_inflight_checked_eq, shiftLeft_sector_bits, toInt64_of_lt _ (by omega)]
  unfold bdrv_getlength
  rw [hlen, if_pos (by push_cast; omega), if_pos hidx]

/-- At or beyond the device length, for a sector whose byte offset fits
`int64_t`, the test returns 0 without loading from the array. -/
theorem bmds_aio_inflight_checked_beyond (bmds : BlkMigDevState) (S t : Nat)
    (hlen : bmds.bs.length = (S : Int) * 512) (ht : S ≤ t) (ht' : t < 2 ^ 54) :
    bmds_aio_inflight_checked bmds t = some false := by
  rw [bmds_aio_inflight_checked_eq, shiftLeft_sector_bits, toInt64_of_lt _ (by omega)]
  unfold bdrv_getlength
  rw [hlen, if_neg (by push_cast; omega)]

/-- Where the checked test returns a value, it is the value of
`bmds_aio_inflight`. -/
theorem bmds_aio_inflight_of_checked (bmds : BlkMigDevState) (t : Nat) (b : Bool)
    (h : bmds_aio_inflight_checked bmds t = some b) : bmds_aio_inflight bmds t = b := by
  unfold bmds_aio_inflight_checked at h
  unfold bmds_aio_inflight
  simp only at h ⊢
  split at h
  · rename_i hc
    rw [if_pos hc]
    split at h
    · rename_i w hw
      rw [List.get?_eq_getElem?] at hw
      simp only [List.getD_eq_getElem?_getD, hw, Option.getD_some]
      exact Option.some.inj h
    · cases h
  · rename_i hc
    rw [if_neg hc]
    exact Option.some.inj h

/-! ## C18: set and test of the in-flight bitmap -/

/-- Set and test where the array is large enough: for every device of `S`
sectors whose array `aio_bitmap` has a word for every 64 chunks, and every
range `(sector_num, nb_sectors)` with `nb_sectors ≥ 1` inside the device: after
`bmds_set_aio_inflight(bmds, sector_num, nb_sectors, 1)` the test
`bmds_aio_inflight(bmds, t)` is true for every sector `t` below the device
length in a chunk overlapping the range, and after
`bmds_set_aio_inflight(..., 0)` it is false for those sectors; in both cases the
test of every sector of every other chunk is unchanged; and the test returns 0
for every sector `t` at or beyond the device length with `t < 2^54`.  The test
is the one with the array bound checked, so every word it loads is inside the
array. -/
theorem aio_inflight_set_test (bmds : BlkMigDevState) (S sector_num nb_sectors : Nat)
    (hlen : bmds.bs.length = (S : Int) * 512) (hS : S * 512 < 2 ^ 63)
    (hmap : (nb_chunks S + 63) / 64 ≤ bmds.aio_bitmap.length)
    (hnb : 1 ≤ nb_sectors) (hin : sector_num + nb_sectors ≤ S) :
    (∀ t, t < S →
      sector_num / BDRV_SECTORS_PER_DIRTY_CHUNK ≤ t / BDRV_SECTORS_PER_DIRTY_CHUNK →
      t / BDRV_SECTORS_PER_DIRTY_CHUNK
        ≤ (sector_num + nb_sectors - 1) / BDRV_SECTORS_PER_DIRTY_CHUNK →
      bmds_aio_inflight_checked (bmds_set_aio_inflight bmds sector_num nb_sectors 1) t
        = some true ∧
      bmds_aio_inflight_checked (bmds_set_aio_inflight bmds sector_num nb_sectors 0) t
        = some false) ∧
    (∀ t set,
      ¬ (sector_num / BDRV_SECTORS_PER_DIRTY_CHUNK ≤ t / BDRV_SECTORS_PER_DIRTY_CHUNK ∧
         t / BDRV_SECTORS_PER_DIRTY_CHUNK
           ≤ (sector_num + nb_sectors - 1) / BDRV_SECTORS_PER_DIRTY_CHUNK) →
      bmds_aio_inflight_checked (bmds_set_aio_inflight bmds sector_num nb_sectors set) t
        = bmds_aio_inflight_checked bmds t) ∧
    (∀ t set, S ≤ t → t < 2 ^ 54 →
      bmds_aio_inflight_checked (bmds_set_aio_inflight bmds sector_num nb_sectors set) t
        = some false ∧
      bmds_aio_inflight_checked bmds t = some false) := by
  have hloop : ∀ set,
      ((bmds_set_aio_inflight bmds sector_num nb_sectors set).aio_bitmap.length
          = bmds.aio_bitmap.length) ∧
      ∀ c', aio_bit (bmds_set_aio_inflight bmds sector_num nb_sectors set).aio_bitmap c'
        = if sector_num / BDRV_SECTORS_PER_DIRTY_CHUNK ≤ c' ∧
             c' ≤ (sector_num + nb_sectors - 1) / BDRV_SECTORS_PER_DIRTY_CHUNK
          then decide (set ≠ 0) else aio_bit bmds.aio_bitmap c' := by
    intro set
    have h := bmds_set_aio_inflight_loop_bit set
      ((sector_num + nb_sectors - 1) / BDRV_SECTORS_PER_DIRTY_CHUNK + 1
        - sector_num / BDRV_SECTORS_PER_DIRTY_CHUNK)
      (sector_num / BDRV_SECTORS_PER_DIRTY_CHUNK) bmds.aio_bitmap (by
        left
        unfold nb_chunks BDRV_SECTORS_PER_DIRTY_CHUNK at *
        omega)
    refine ⟨h.1, fun c' => ?_⟩
    have h2 := h.2 c'
    simp only [bmds_set_aio_inflight]
    rw [h2]
    have hle : sector_num / BDRV_SECTORS_PER_DIRTY_CHUNK
        ≤ (sector_num + nb_sectors - 1) / BDRV_SECTORS_PER_DIRTY_CHUNK := by
      unfold BDRV_SECTORS_PER_DIRTY_CHUNK
      omega
    by_cases hc : sector_num / BDRV_SECTORS_PER_DIRTY_CHUNK ≤ c' ∧
        c' ≤ (sector_num + nb_sectors - 1) / BDRV_SECTORS_PER_DIRTY_CHUNK
    · rw [if_pos hc, if_pos (by omega)]
    · rw [if_neg hc, if_neg (by omega)]
  have hbs : ∀ set, (bmds_set_aio_inflight bmds sector_num nb_sectors set).bs = bmds.bs :=
    fun _ => rfl
  refine ⟨?_, ?_, ?_⟩
  · intro t ht h1 h2
    constructor
    · rw [bmds_aio_inflight_checked_below _ S t (by rw [hbs]; exact hlen) hS
        (by rw [(hloop 1).1]; exact hmap) ht, (hloop 1).2, if_pos ⟨h1, h2⟩]
      rfl
    · rw [bmds_aio_inflight_checked_below _ S t (by rw [hbs]; exact hlen) hS
        (by rw [(hloop 0).1]; exact hmap) ht, (hloop 0).2, if_pos ⟨h1, h2⟩]
      rfl
  · intro t set hout
    by_cases ht : t < S
    · rw [bmds_aio_inflight_checked_below _ S t (by rw [hbs]; exact hlen) hS
        (by rw [(hloop set).1]; exact hmap) ht, (hloop set).2, if_neg hout,
        bmds_aio_inflight_checked_below bmds S t hlen hS hmap ht]
    · rw [bmds_aio_inflight_checked_eq, bmds_aio_inflight_checked_eq bmds, hbs, (hloop set).1,
        (hloop set).2, if_neg hout]
  · intro t set ht ht'
    exact ⟨bmds_aio_inflight_checked_beyond _ S t (by rw [hbs]; exact hlen) ht ht',
      bmds_aio_inflight_checked_beyond bmds S t hlen ht ht'⟩

/-- The store loop of `bmds_set_aio_inflight` stays inside an array that has a
word for every chunk of the range. -/
theorem bmds_set_aio_inflight_loop_checked (set : Int) :
    ∀ (n start : Nat) (bitmap : List Nat), (start + n - 1) / 64 < bitmap.length ∨ n = 0 →
      (List.range' start n).foldl (bmds_set_aio_inflight_pass_checked set) (some bitmap)
        = some ((List.range' start n).foldl (bmds_set_aio_inflight_pass set) bitmap) := by
  intro n
  induction n with
  | zero =>
    intro start bitmap _
    rfl
  | succ n ih =>
    intro start bitmap hb
    have hb' : (start + n) / 64 < bitmap.length := by
      rcases hb with hb | hb
      · simpa using hb
      · omega
    have hstart : start / 64 < bitmap.length := by omega
    have hl := bmds_set_aio_inflight_pass_length set bitmap start
    simp only [List.range', List.foldl_cons]
    rw [show bmds_set_aio_inflight_pass_checked set (some bitmap) start
        = some (bmds_set_aio_inflight_pass set bitmap start) from by
      simp only [bmds_set_aio_inflight_pass_checked, hstart, if_true]]
    apply ih
    by_cases hn : n = 0
    · exact Or.inr hn
    · left
      rw [hl]
      have : start + 1 + n - 1 = start + n := by omega
      rw [this]
      exact hb'

/-- Where the array `aio_bitmap` has a word for every 64 chunks of the device,
every word that `bmds_set_aio_inflight` loads and stores for a range inside
the device is inside the array. -/
theorem bmds_set_aio_inflight_checked_inside (bmds : BlkMigDevState)
    (S sector_num nb_sectors : Nat) (set : Int)
    (hmap : (nb_chunks S + 63) / 64 ≤ bmds.aio_bitmap.length)
    (hnb : 1 ≤ nb_sectors) (hin : sector_num + nb_sectors ≤ S) :
    bmds_set_aio_inflight_checked bmds sector_num nb_sectors set
      = some (bmds_set_aio_inflight bmds sector_num nb_sectors set) := by
  have h := bmds_set_aio_inflight_loop_checked set
    ((sector_num + nb_sectors - 1) / BDRV_SECTORS_PER_DIRTY_CHUNK + 1
      - sector_num / BDRV_SECTORS_PER_DIRTY_CHUNK)
    (sector_num / BDRV_SECTORS_PER_DIRTY_CHUNK) bmds.aio_bitmap (by
      left
      unfold nb_chunks BDRV_SECTORS_PER_DIRTY_CHUNK at *
      omega)
  simp only [bmds_set_aio_inflight_checked, bmds_set_aio_inflight, h]

/-- Set and test at the device `"sda"` of 130000 sectors, 64 chunks, whose
allocation of 8 bytes holds the one word of the device; chunk 63 is the short
tail 129024..129999.  For the range of that chunk every access is inside the
array, sector 129500 tests true after the set and false after the clear,
sector 100 of chunk 0 is unaffected, and sector 130000, the first beyond the
device, tests false. -/
theorem aio_inflight_set_test_example :
    (registered (sda 130000 (fun _ => false)) 0).aio_bitmap.length = 1 ∧
    bmds_set_aio_inflight_checked (registered (sda 130000 (fun _ => false)) 0) 129024 976 1
      = some (bmds_set_aio_inflight (registered (sda 130000 (fun _ => false)) 0) 129024 976 1) ∧
    bmds_aio_inflight_checked
        (bmds_set_aio_inflight (registered (sda 130000 (fun _ => false)) 0) 129024 976 1) 129500
      = some true ∧
    bmds_aio_inflight_checked
        (bmds_set_aio_inflight (registered (sda 130000 (fun _ => false)) 0) 129024 976 0) 129500
      = some false ∧
    bmds_aio_inflight_checked
        (bmds_set_aio_inflight (registered (sda 130000 (fun _ => false)) 0) 129024 976 1) 100
      = bmds_aio_inflight_checked (registered (sda 130000 (fun _ => false)) 0) 100 ∧
    bmds_aio_inflight_checked (registered (sda 130000 (fun _ => false)) 0) 130000 = some false :=
  have h := aio_inflight_set_test (registered (sda 130000 (fun _ => false)) 0) 130000 129024 976
    rfl (by decide) (by decide) (by decide) (by decide)
  ⟨by decide,
   bmds_set_aio_inflight_checked_inside (registered (sda 130000 (fun _ => false)) 0) 130000
     129024 976 1 (by decide) (by decide) (by decide),
   (h.1 129500 (by decide) (by decide) (by decide)).1,
   (h.1 129500 (by decide) (by decide) (by decide)).2,
   h.2.1 100 1 (by decide),
   (h.2.2 130000 0 (by decide) (by decide)).2⟩

/-- The allocation of `alloc_aio_bitmap` holds the word of every sector of a
device of `S > 0` sectors exactly when the number of chunks of the device,
modulo 64, is 0 or at least 57: the size is a count of bytes, one per 8
chunks, and the array is indexed in words of 64 chunks. -/
theorem alloc_aio_bitmap_covers_iff (bs : BlockDriverState) (S : Nat)
    (hlen : bs.length = (S : Int) * 512) (hS : 0 < S) :
    (∀ t, t < S → aio_bitmap_word_inside (alloc_aio_bitmap_size bs)
        (t / BDRV_SECTORS_PER_DIRTY_CHUNK / 64) = true)
      ↔ (nb_chunks S % 64 = 0 ∨ 57 ≤ nb_chunks S % 64) := by
  unfold aio_bitmap_word_inside
  rw [alloc_aio_bitmap_size_eq bs S hlen]
  simp only [decide_eq_true_eq]
  unfold nb_chunks BDRV_SECTORS_PER_DIRTY_CHUNK
  constructor
  · intro h
    have := h (S - 1) (by omega)
    omega
  · intro h t ht
    omega

/-- C19, the code at the failing input: the device `"sda"` of 2048 sectors,
one chunk.  `alloc_aio_bitmap` computes the size 1 and allocates that many
bytes, where the specification sizes the bitmap at one word, 8 bytes.
`bmds_aio_inflight` for sector 0, below the device length, accesses the word
`aio_bitmap[0]`, bytes 0 to 7, which does not lie inside the allocation. -/
theorem alloc_aio_bitmap_one_byte :
    alloc_aio_bitmap_size (sda 2048 (fun _ => false)) = 1 ∧
    aio_bitmap_spec_size 2048 = 8 ∧
    toInt64 (0 <<< BDRV_SECTOR_BITS) < bdrv_getlength (sda 2048 (fun _ => false)) ∧
    aio_bitmap_word_inside (alloc_aio_bitmap_size (sda 2048 (fun _ => false)))
      (0 / BDRV_SECTORS_PER_DIRTY_CHUNK / 64) = false := by
  refine ⟨by decide, by decide, by decide, by decide⟩

/-! ## C17: the in-flight bit of a submitted read -/

/-- The three ways in which a call of `mig_save_device_bulk` returns: the
device is complete; the read of the next chunk was submitted; the submission
failed.  `cur` is the cursor after the shared-base skipping. -/
theorem mig_save_device_bulk_cases (al : AioLayer) (fuel dev : Nat) (e : Engine) (r : Int)
    (e' : Engine) (h : mig_save_device_bulk al fuel dev e = some (r, e')) :
    ∃ bmds cur, e.st.bmds_list[dev]? = some bmds ∧
      (if bmds.shared_base ≠ 0
        then bulk_skip_unallocated al bmds.bs bmds.total_sectors fuel bmds.cur_sector
        else some bmds.cur_sector) = some cur ∧
      ((bmds.total_sectors ≤ cur ∧ r = 1 ∧
          e' = { e with
            st := set_bmds e.st dev
              { bmds with cur_sector := bmds.total_sectors,
                          completed_sectors := bmds.total_sectors } }) ∨
       (cur < bmds.total_sectors ∧
          al.bdrv_aio_readv bmds.bs (cur &&& (2 ^ 64 - BDRV_SECTORS_PER_DIRTY_CHUNK))
            (sweep_nr_sectors bmds.total_sectors
              (cur &&& (2 ^ 64 - BDRV_SECTORS_PER_DIRTY_CHUNK))) = true ∧
          r = (if (cur &&& (2 ^ 64 - BDRV_SECTORS_PER_DIRTY_CHUNK))
                + sweep_nr_sectors bmds.total_sectors
                    (cur &&& (2 ^ 64 - BDRV_SECTORS_PER_DIRTY_CHUNK)) ≥ bmds.total_sectors
               then 1 else 0) ∧
          e' = { e with
            st := set_bmds { e.st with submitted := wrap32 (e.st.submitted + 1) } dev
              { bmds with
                completed_sectors := cur,
                bs := bdrv_reset_dirty bmds.bs (cur &&& (2 ^ 64 - BDRV_SECTORS_PER_DIRTY_CHUNK))
                  (sweep_nr_sectors bmds.total_sectors
                    (cur &&& (2 ^ 64 - BDRV_SECTORS_PER_DIRTY_CHUNK))),
                cur_sector := (cur &&& (2 ^ 64 - BDRV_SECTORS_PER_DIRTY_CHUNK))
                  + sweep_nr_sectors bmds.total_sectors
                      (cur &&& (2 ^ 64 - BDRV_SECTORS_PER_DIRTY_CHUNK)) },
            inflight := e.inflight ++
              [BlkMigBlock.mk [] dev (cur &&& (2 ^ 64 - BDRV_SECTORS_PER_DIRTY_CHUNK))
                (sweep_nr_sectors bmds.total_sectors
                  (cur &&& (2 ^ 64 - BDRV_SECTORS_PER_DIRTY_CHUNK)))
                0 al.qemu_get_clock_ns 0] }) ∨
       (cur < bmds.total_sectors ∧
          al.bdrv_aio_readv bmds.bs (cur &&& (2 ^ 64 - BDRV_SECTORS_PER_DIRTY_CHUNK))
            (sweep_nr_sectors bmds.total_sectors
              (cur &&& (2 ^ 64 - BDRV_SECTORS_PER_DIRTY_CHUNK))) = false ∧
          r = 0 ∧
          e' = { e with
            st := set_bmds e.st dev { bmds with completed_sectors := cur },
            f := qemu_file_set_error e.f })) := by
  cases hdev : e.st.bmds_list[dev]? with
  | none => simp [mig_save_device_bulk, hdev] at h
  | some bmds =>
    simp only [mig_save_device_bulk, hdev] at h
    cases hskip : (if bmds.shared_base ≠ 0
        then bulk_skip_unallocated al bmds.bs bmds.total_sectors fuel bmds.cur_sector
        else some bmds.cur_sector) with
    | none => simp [hskip] at h
    | some cur =>
      simp only [hskip] at h
      refine ⟨bmds, cur, rfl, hskip, ?_⟩
      by_cases hc : bmds.total_sectors ≤ cur
      · simp only [ge_iff_le, hc, if_true, Option.some.injEq, Prod.mk.injEq] at h
        exact Or.inl ⟨hc, h.1.symm, h.2.symm⟩
      · simp only [ge_iff_le, hc, if_false] at h
        cases hrd : al.bdrv_aio_readv bmds.bs (cur &&& (2 ^ 64 - BDRV_SECTORS_PER_DIRTY_CHUNK))
            (sweep_nr_sectors bmds.total_sectors
              (cur &&& (2 ^ 64 - BDRV_SECTORS_PER_DIRTY_CHUNK))) with
        | true =>
          simp only [hrd, if_true, Option.some.injEq, Prod.mk.injEq] at h
          exact Or.inr (Or.inl ⟨by omega, rfl, h.1.symm, h.2.symm⟩)
        | false =>
          simp only [hrd, Bool.false_eq_true, if_false, Option.some.injEq, Prod.mk.injEq] at h
          exact Or.inr (Or.inr ⟨by omega, rfl, h.1.symm, h.2.symm⟩)

theorem set_bmds_map {α : Type} (g : BlkMigDevState → α) (st : BlkMigState) (dev : Nat)
    (b bmds : BlkMigDevState) (hdev : st.bmds_list[dev]? = some bmds) (hb : g b = g bmds) :
    (set_bmds st dev b).bmds_list.map g = st.bmds_list.map g := by
  simp only [set_bmds, List.map_set, hb]
  apply List.ext_getElem?
  intro i
  rw [List.getElem?_set]
  split
  · rename_i hi
    subst hi
    split
    · simp [hdev]
    · rename_i hlt
      simp only [List.length_map, not_lt] at hlt
      simp [List.getElem?_eq_none hlt]
  · rfl

/-- The function `mig_save_device_bulk` never stores to an in-flight bitmap:
whatever it returns, every device has the `aio_bitmap` it had before. -/
theorem mig_save_device_bulk_aio_bitmap (al : AioLayer) (fuel dev : Nat) (e : Engine) (r : Int)
    (e' : Engine) (h : mig_save_device_bulk al fuel dev e = some (r, e')) :
    e'.st.bmds_list.map (fun b => b.aio_bitmap) = e.st.bmds_list.map (fun b => b.aio_bitmap) := by
  obtain ⟨bmds, cur, hb, _, hcase⟩ := mig_save_device_bulk_cases al fuel dev e r e' h
  rcases hcase with ⟨_, _, rfl⟩ | ⟨_, _, _, rfl⟩ | ⟨_, _, _, rfl⟩
  · exact set_bmds_map (fun b => b.aio_bitmap) e.st dev _ bmds hb rfl
  · exact set_bmds_map (fun b => b.aio_bitmap)
      { e.st with submitted := wrap32 (e.st.submitted + 1) } dev _ bmds hb rfl
  · exact set_bmds_map (fun b => b.aio_bitmap) e.st dev _ bmds hb rfl

/-- C17, the code at the failing input: one registered device `"sda"` of 2048
sectors, a block layer that accepts the read.  `mig_save_device_bulk` submits
the asynchronous read of the chunk at sector 0 (`submitted` becomes 1 and the
read is outstanding) and returns with the in-flight bit of that chunk clear:
`bmds_aio_inflight(bmds, 0)` is false while the read is in flight.  The same
at a device of 131072 sectors (64 chunks), whose bitmap allocation of 8 bytes
holds the word of the bit: the test loads the word and finds the bit clear. -/
theorem bulk_submit_leaves_inflight_bit_clear :
    (∃ e', mig_save_device_bulk aio_ok 1 0
        (engine_of (fresh_state 0 [registered (sda 2048 (fun _ => true)) 0])) = some (1, e') ∧
      e'.st.submitted = 1 ∧
      e'.inflight.map (fun b => (b.bmds, b.sector, b.nr_sectors)) = [(0, 0, 2048)] ∧
      e'.st.bmds_list.map (fun b => bmds_aio_inflight b 0) = [false]) ∧
    (∃ e', mig_save_device_bulk aio_ok 1 0
        (engine_of (fresh_state 0 [registered (sda 131072 (fun _ => true)) 0])) = some (0, e') ∧
      e'.st.submitted = 1 ∧
      e'.inflight.map (fun b => (b.bmds, b.sector, b.nr_sectors)) = [(0, 0, 2048)] ∧
      e'.st.bmds_list.map (fun b => b.aio_bitmap.length) = [1] ∧
      e'.st.bmds_list.map (fun b => bmds_aio_inflight_checked b 0) = [some false] ∧
      e'.st.bmds_list.map (fun b => bmds_aio_inflight b 0) = [false]) :=
  ⟨⟨_, rfl, by decide, by decide, by decide⟩,
   ⟨_, rfl, by decide, by decide, by decide, by decide, by decide⟩⟩

/-- The sibling path at the device of 131072 sectors: `mig_save_device_dirty`
with `is_async` set submits the read of the dirty chunk at sector 0 and returns
with the in-flight bit of the chunk set, by a store inside the bitmap array;
the completion callback clears it. -/
theorem dirty_submit_sets_inflight_bit :
    ∃ e', mig_save_device_dirty reads_ok aio_ok 1 0
        (engine_of (fresh_state 0 [registered (sda 131072 (fun _ => true)) 0]))
          = some (Run.returns (0, e')) ∧
      e'.st.submitted = 1 ∧
      e'.inflight = [sync_chunk 0 0 2048] ∧
      e'.st.bmds_list.map (fun b => bmds_aio_inflight_checked b 0) = [some true] ∧
      e'.st.bmds_list.map (fun b => bmds_aio_inflight b 0) = [true] ∧
      ∃ st'', blk_mig_read_cb 0 e'.st (sync_chunk 0 0 2048) 0 = Run.returns st'' ∧
        st''.bmds_list.map (fun b => bmds_aio_inflight_checked b 0) = [some false] ∧
        st''.bmds_list.map (fun b => bmds_aio_inflight b 0) = [false] :=
  ⟨_, rfl, by decide, by decide, by decide, by decide, _, rfl, by decide, by decide⟩

/-! ## C16: the stage guards of `block_save_live` -/

/-- C16: for every `stage < 0`, `block_save_live` runs the cleanup (the device
list and the ready list become empty, the rest of `block_mig_state` is kept),
writes nothing to the stream and returns 0; for every `stage ≥ 0` with
`blk_enable != 1` it writes exactly the eight bytes of the EOS header word
`0x02` to the stream, leaves the engine state unchanged and returns 1. -/
theorem block_save_live_guards (al : AioLayer) (drives : List BlockDriverState)
    (section_id stage : Int) (e : Engine) :
    (stage < 0 →
      ∃ e', block_save_live al drives section_id stage e = some (Run.returns (0, e')) ∧
        e'.st.bmds_list = [] ∧ e'.st.blk_list = [] ∧ e'.f = e.f ∧
        e'.st = { e.st with bmds_list := [], blk_list := [] } ∧
        e'.pipe = e.pipe ∧ e'.inflight = e.inflight ∧ e'.masters = e.masters) ∧
    (0 ≤ stage → e.st.blk_enable ≠ 1 →
      ∃ e', block_save_live al drives section_id stage e = some (Run.returns (1, e')) ∧
        e'.f.buf = e.f.buf ++ [0, 0, 0, 0, 0, 0, 0, 2] ∧ e'.f.has_error = e.f.has_error ∧
        e'.st = e.st ∧ e'.pipe = e.pipe ∧ e'.inflight = e.inflight ∧
        e'.masters = e.masters) := by
  constructor
  · intro hs
    refine ⟨{ e with st := blk_mig_cleanup e.st }, ?_, rfl, rfl, rfl, rfl, rfl, rfl, rfl⟩
    simp only [block_save_live, hs, if_true]
  · intro hs he
    refine ⟨{ e with f := qemu_put_be64 e.f BLK_MIG_FLAG_EOS }, ?_, ?_, ?_, rfl, rfl, rfl, rfl⟩
    · simp only [block_save_live, not_lt.mpr hs, if_false, he, ne_eq, not_false_eq_true, if_true]
    · rw [qemu_put_be64_eq]
      rfl
    · rw [qemu_put_be64_eq]

/-- C16 at the negative stage `-1` and at stage 2 with block migration
disabled, for an engine holding one registered device. -/
theorem block_save_live_guards_witness :
    (∃ e', block_save_live aio_ok [] 0 (-1)
          (engine_of (fresh_state 0 [registered (sda 2048 (fun _ => true)) 0]))
        = some (Run.returns (0, e')) ∧
      e'.st.bmds_list = [] ∧ e'.st.blk_list = [] ∧ e'.f = empty_file) ∧
    (∃ e', block_save_live aio_ok [] 0 2
          (engine_of disabled_state)
        = some (Run.returns (1, e')) ∧
      e'.f.buf = [0, 0, 0, 0, 0, 0, 0, 2] ∧ e'.st = disabled_state) :=
  have h1 := (block_save_live_guards aio_ok [] 0 (-1)
    (engine_of (fresh_state 0 [registered (sda 2048 (fun _ => true)) 0]))).1 (by decide)
  have h2 := (block_save_live_guards aio_ok [] 0 2
    (engine_of disabled_state)).2 (by decide) (by decide)
  ⟨h1.elim fun e' h => ⟨e', h.1, h.2.1, h.2.2.1, h.2.2.2.1⟩,
   h2.elim fun e' h => ⟨e', h.1, h.2.1, h.2.2.2.1⟩⟩

/-! ## C14: progress of the asynchronous bulk sweep -/

/-- The statement `cur_sector &= ~((int64_t)BDRV_SECTORS_PER_DIRTY_CHUNK - 1)`
rounds a cursor down to its chunk boundary. -/
theorem and_chunk_mask (x : Nat) (hx : x < 2 ^ 64) :
    x &&& (2 ^ 64 - BDRV_SECTORS_PER_DIRTY_CHUNK)
      = x / BDRV_SECTORS_PER_DIRTY_CHUNK * BDRV_SECTORS_PER_DIRTY_CHUNK := by
  unfold BDRV_SECTORS_PER_DIRTY_CHUNK
  apply Nat.eq_of_testBit_eq
  intro i
  have hm : (2 ^ 64 - 2048 : Nat).testBit i = (decide (i < 64) && !decide (i < 11)) := by
    have h := Nat.testBit_two_pow_sub_succ (x := 2 ^ 11 - 1) (n := 64) (by decide) i
    rw [Nat.testBit_two_pow_sub_one] at h
    exact h
  have hr : (x / 2048 * 2048).testBit i = (decide (11 ≤ i) && x.testBit i) := by
    have : x / 2048 * 2048 = (x >>> 11) <<< 11 := by
      rw [Nat.shiftLeft_eq, Nat.shiftRight_eq_div_pow]
    rw [this, Nat.testBit_shiftLeft, Nat.testBit_shiftRight]
    by_cases h : 11 ≤ i
    · simp [h, show 11 + (i - 11) = i by omega]
    · simp [h]
  rw [Nat.testBit_and, hm, hr]
  by_cases h1 : i < 11
  · simp [h1, show ¬ (11 ≤ i) by omega]
  · by_cases h2 : i < 64
    · simp [h1, h2, show 11 ≤ i by omega]
    · have : x.testBit i = false :=
        Nat.testBit_lt_two_pow
          (Nat.lt_of_lt_of_le hx (Nat.pow_le_pow_right (by decide) (by omega)))
      simp [this]

/-- The shared-base loop only moves the cursor forward. -/
theorem bulk_skip_unallocated_ge (al : AioLayer) (bs : BlockDriverState) (total : Nat) :
    ∀ fuel cur cur', bulk_skip_unallocated al bs total fuel cur = some cur' → cur ≤ cur' := by
  intro fuel
  induction fuel with
  | zero =>
    intro cur cur' h
    simp [bulk_skip_unallocated] at h
  | succ fuel ih =>
    intro cur cur' h
    simp only [bulk_skip_unallocated] at h
    split at h
    · have := ih _ _ h
      omega
    · cases h
      exact Nat.le_refl _

/-- When every unallocated run that the block layer reports has a positive
length, the shared-base loop ends within `total_sectors - cur_sector + 1` tests
of its condition. -/
theorem bulk_skip_unallocated_returns (al : AioLayer) (bs : BlockDriverState) (total : Nat)
    (hpos : ∀ sector, (al.bdrv_is_allocated bs sector MAX_IS_ALLOCATED_SEARCH).1 = false →
      0 < (al.bdrv_is_allocated bs sector MAX_IS_ALLOCATED_SEARCH).2) :
    ∀ fuel cur, total - cur + 1 ≤ fuel →
      ∃ cur', bulk_skip_unallocated al bs total fuel cur = some cur' := by
  intro fuel
  induction fuel with
  | zero =>
    intro cur h
    omega
  | succ fuel ih =>
    intro cur h
    simp only [bulk_skip_unallocated]
    split
    · rename_i hc
      have := hpos cur hc.2
      exact ih _ (by omega)
    · exact ⟨cur, rfl⟩

theorem set_bmds_getElem (st : BlkMigState) (dev : Nat) (b bmds : BlkMigDevState)
    (hdev : st.bmds_list[dev]? = some bmds) : (set_bmds st dev b).bmds_list[dev]? = some b := by
  obtain ⟨hlt, _⟩ := List.getElem?_eq_some.mp hdev
  simp only [set_bmds]
  exact List.getElem?_set_self hlt

/-- C14 (amended): for a device whose `completed_sectors` is not beyond its bulk
cursor (`completed_sectors ≤ cur_sector ≤ total_sectors`, as after registration
with both at 0), every call of `mig_save_device_bulk` that returns, whatever the
block layer reports as unallocated runs and whether or not the read is
accepted, leaves `completed_sectors ≤ total_sectors` and `completed_sectors`
not smaller than before the call; and unless the call took the read-submit
error path (it completed the device or put a read in flight) the device again
has `completed_sectors ≤ cur_sector ≤ total_sectors`.  When every unallocated
run reported has a positive length, the call does return. -/
theorem mig_save_device_bulk_progress (al : AioLayer) (dev : Nat) (e : Engine)
    (bmds : BlkMigDevState) (hdev : e.st.bmds_list[dev]? = some bmds)
    (hinv : bmds.completed_sectors ≤ bmds.cur_sector ∧ bmds.cur_sector ≤ bmds.total_sectors)
    (hT : bmds.total_sectors < 2 ^ 63) :
    (∀ fuel r e', mig_save_device_bulk al fuel dev e = some (r, e') →
      ∃ bmds', e'.st.bmds_list[dev]? = some bmds' ∧
        bmds'.total_sectors = bmds.total_sectors ∧
        bmds'.completed_sectors ≤ bmds'.total_sectors ∧
        bmds.completed_sectors ≤ bmds'.completed_sectors ∧
        (r = 1 ∨ e'.inflight.length = e.inflight.length + 1 →
          bmds'.completed_sectors ≤ bmds'.cur_sector ∧
          bmds'.cur_sector ≤ bmds'.total_sectors)) ∧
    ((∀ sector, (al.bdrv_is_allocated bmds.bs sector MAX_IS_ALLOCATED_SEARCH).1 = false →
        0 < (al.bdrv_is_allocated bmds.bs sector MAX_IS_ALLOCATED_SEARCH).2) →
      ∃ r e', mig_save_device_bulk al (bmds.total_sectors + 1) dev e = some (r, e')) := by
  constructor
  · intro fuel r e' h
    obtain ⟨b, cur, hb, hskip, hcase⟩ := mig_save_device_bulk_cases al fuel dev e r e' h
    rw [hdev] at hb
    cases hb
    have hcur : bmds.cur_sector ≤ cur := by
      split at hskip
      · exact bulk_skip_unallocated_ge _ _ _ _ _ _ hskip
      · cases hskip
        exact Nat.le_refl _
    rcases hcase with ⟨hge, _, rfl⟩ | ⟨hlt, _, _, rfl⟩ | ⟨hlt, _, hr, rfl⟩
    · refine ⟨_, set_bmds_getElem _ _ _ _ hdev, rfl, Nat.le_refl _, ?_, fun _ => ?_⟩
      · exact Nat.le_trans hinv.1 hinv.2
      · exact ⟨Nat.le_refl _, Nat.le_refl _⟩
    · refine ⟨_, set_bmds_getElem _ _ _ _ hdev, rfl, Nat.le_of_lt hlt, ?_, fun _ => ?_⟩
      · exact Nat.le_trans hinv.1 hcur
      · simp only
        rw [and_chunk_mask cur (by omega)]
        unfold sweep_nr_sectors BDRV_SECTORS_PER_DIRTY_CHUNK
        split <;> omega
    · refine ⟨_, set_bmds_getElem _ _ _ _ hdev, rfl, Nat.le_of_lt hlt, ?_, fun hnot => ?_⟩
      · exact Nat.le_trans hinv.1 hcur
      · rcases hnot with h1 | h1
        · rw [hr] at h1
          cases h1
        · simp at h1
  · intro hpos
    have hskip : ∃ cur, (if bmds.shared_base ≠ 0
        then bulk_skip_unallocated al bmds.bs bmds.total_sectors (bmds.total_sectors + 1)
          bmds.cur_sector
        else some bmds.cur_sector) = some cur := by
      split
      · exact bulk_skip_unallocated_returns al bmds.bs bmds.total_sectors hpos _ _ (by omega)
      · exact ⟨_, rfl⟩
    obtain ⟨cur, hcur⟩ := hskip
    simp only [mig_save_device_bulk, hdev, hcur]
    split
    · exact ⟨_, _, rfl⟩
    · split
      · exact ⟨_, _, rfl⟩
      · exact ⟨_, _, rfl⟩

/-- C14 (amended) at the freshly registered device `"sda"` of 131072 sectors
with `shared_base` set, a block layer that reports the first 65536 sectors as
one unallocated run and rejects the read: the call returns, and it leaves
`completed_sectors` within the device. -/
theorem mig_save_device_bulk_progress_witness :
    (∀ fuel r e', mig_save_device_bulk aio_sparse_rejecting fuel 0 shared_base_engine
        = some (r, e') →
      ∃ bmds', e'.st.bmds_list[0]? = some bmds' ∧
        bmds'.total_sectors = 131072 ∧ bmds'.completed_sectors ≤ bmds'.total_sectors ∧
        0 ≤ bmds'.completed_sectors ∧
        (r = 1 ∨ e'.inflight.length = shared_base_engine.inflight.length + 1 →
          bmds'.completed_sectors ≤ bmds'.cur_sector ∧
          bmds'.cur_sector ≤ bmds'.total_sectors)) ∧
    ∃ r e', mig_save_device_bulk aio_sparse_rejecting (131072 + 1) 0 shared_base_engine
      = some (r, e') :=
  have h := mig_save_device_bulk_progress aio_sparse_rejecting 0 shared_base_engine
    (registered (sda 131072 (fun _ => false)) 1) rfl ⟨by decide, by decide⟩ (by decide)
  ⟨h.1, h.2 (fun _ _ => by simp [aio_sparse_rejecting])⟩

/-- C14 as stated, at the same device: the first call skips the unallocated run
to sector 65536, stores `completed_sectors = 65536`, and takes the read-submit
error path, which leaves `cur_sector = 0`.  A second call, made when the block
layer reports sector 0 allocated, stores `completed_sectors = 0`: smaller than
before the call. -/
theorem completed_sectors_decreases_after_error :
    ∃ e1 e2 r, mig_save_device_bulk aio_sparse_rejecting 3 0 shared_base_engine = some (0, e1) ∧
      e1.f.has_error = true ∧
      e1.st.bmds_list.map (fun b => (b.completed_sectors, b.cur_sector)) = [(65536, 0)] ∧
      mig_save_device_bulk aio_ok 3 0 e1 = some (r, e2) ∧
      e2.st.bmds_list.map (fun b => (b.completed_sectors, b.cur_sector)) = [(0, 2048)] :=
  ⟨_, _, _, rfl, by decide, by decide, rfl, by decide⟩

/-! ## The loop of `flush_blks_master` -/

theorem wrap32_of_int (x : Int) (h1 : -2 ^ 31 ≤ x) (h2 : x < 2 ^ 31) : wrap32 x = x := by
  unfold wrap32 toInt32 toUInt64
  split <;> omega

theorem init_blk_migration_it_bulk_completed (st : BlkMigState) (f : QEMUFile)
    (bs : BlockDriverState) :
    (init_blk_migration_it st f bs).1.bulk_completed = st.bulk_completed := by
  unfold init_blk_migration_it
  split
  · simp only
    split <;> rfl
  · rfl

/-- The function `init_blk_migration` leaves the global bulk flag at 0. -/
theorem init_blk_migration_bulk_completed (st : BlkMigState) (f : QEMUFile)
    (drives : List BlockDriverState) : (init_blk_migration st f drives).1.bulk_completed = 0 := by
  unfold init_blk_migration
  have h : ∀ (l : List BlockDriverState) (acc : BlkMigState × QEMUFile),
      (l.foldl (fun acc bs => init_blk_migration_it acc.1 acc.2 bs) acc).1.bulk_completed
        = acc.1.bulk_completed := by
    intro l
    induction l with
    | nil => intro acc; rfl
    | cons bs l ih =>
      intro acc
      rw [List.foldl_cons, ih, init_blk_migration_it_bulk_completed]
  rw [h]

/-- How the device loop of `blk_mig_save_bulked_block_sync` can end: without
`return`, and then every device has `bulk_completed` set; or by a `return`, and
then a device that had `bulk_completed` clear still has it clear. -/
theorem blk_mig_save_bulked_block_sync_devs_flags (bl : BlockLayer) (B : Nat) :
    ∀ (todo : List BlkMigDevState) (dev body : Nat) (p : Pipe) r todo' p',
      blk_mig_save_bulked_block_sync_devs bl B dev todo body p = some (r, todo', p') →
      (r = none → ∀ d ∈ todo', d.bulk_completed = 1) ∧
      (r ≠ none → (∃ d ∈ todo, d.bulk_completed = 0) ∧ ∃ d ∈ todo', d.bulk_completed = 0) := by
  intro todo
  induction todo with
  | nil =>
    intro dev body p r todo' p' h
    simp only [blk_mig_save_bulked_block_sync_devs, Option.some.injEq, Prod.mk.injEq] at h
    obtain ⟨h1, h2, _⟩ := h
    subst h1 h2
    exact ⟨fun _ d hd => by simp at hd, fun hne => (hne rfl).elim⟩
  | cons d rest ih =>
    intro dev body p r todo' p' h
    simp only [blk_mig_save_bulked_block_sync_devs] at h
    split at h
    · rename_i hbc
      split at h
      · simp only [Option.some.injEq, Prod.mk.injEq] at h
        obtain ⟨h1, h2, _⟩ := h
        subst h1 h2
        exact ⟨fun hr => (by cases hr),
          fun _ => ⟨⟨d, List.mem_cons_self _ _, hbc⟩, ⟨d, List.mem_cons_self _ _, hbc⟩⟩⟩
      · split at h
        · cases h
        · rename_i s hs
          have hk := for_each_chunk_preserves (blk_mig_save_bulked_block_sync_chunk bl B dev)
            (fun s => s.bmds.bulk_completed = d.bulk_completed)
            (fun sector s hP => by
              have : (blk_mig_save_bulked_block_sync_chunk bl B dev sector s).bmds.bulk_completed
                  = s.bmds.bulk_completed := by
                unfold blk_mig_save_bulked_block_sync_chunk
                simp only
                split
                · rfl
                · simp only [sweep_emit_bmds]
              exact this.trans hP)
            _ _ _ s rfl hs
          split at h
          · simp only [Option.some.injEq, Prod.mk.injEq] at h
            obtain ⟨h1, h2, _⟩ := h
            subst h1 h2
            exact ⟨fun hr => (by cases hr),
              fun _ => ⟨⟨d, List.mem_cons_self _ _, hbc⟩,
                ⟨s.bmds, List.mem_cons_self _ _, hk.trans hbc⟩⟩⟩
          · split at h
            · cases h
            · rename_i r1 rest1 p1 hrest
              simp only [Option.some.injEq, Prod.mk.injEq] at h
              obtain ⟨h1, h2, _⟩ := h
              subst h1 h2
              obtain ⟨ih1, ih2⟩ := ih _ _ _ _ _ _ hrest
              refine ⟨fun hr d' hd' => ?_, fun hr => ?_⟩
              · rcases List.mem_cons.mp hd' with rfl | hmem
                · rfl
                · exact ih1 hr d' hmem
              · obtain ⟨⟨a, ha, ha0⟩, ⟨c, hc, hc0⟩⟩ := ih2 hr
                exact ⟨⟨d, List.mem_cons_self _ _, hbc⟩, ⟨c, List.mem_cons_of_mem _ hc, hc0⟩⟩
    · split at h
      · cases h
      · rename_i r1 rest1 p1 hrest
        simp only [Option.some.injEq, Prod.mk.injEq] at h
        obtain ⟨h1, h2, _⟩ := h
        subst h1 h2
        obtain ⟨ih1, ih2⟩ := ih _ _ _ _ _ _ hrest
        refine ⟨fun hr d' hd' => ?_, fun hr => ?_⟩
        · rcases List.mem_cons.mp hd' with rfl | hmem
          · rfl
          · exact ih1 hr d' hmem
        · obtain ⟨⟨a, ha, ha0⟩, ⟨c, hc, hc0⟩⟩ := ih2 hr
          exact ⟨⟨a, List.mem_cons_of_mem _ ha, ha0⟩, ⟨c, List.mem_cons_of_mem _ hc, hc0⟩⟩

/-- After `blk_mig_save_bulked_block_sync` has returned from a state in which
the global flag implied the device flags, the global flag is 1 exactly when
every device has `bulk_completed` set. -/
theorem blk_mig_save_bulked_block_sync_flag (bl : BlockLayer) (B : Nat) (st : BlkMigState)
    (p : Pipe) (out : SyncOut)
    (hinv : st.bulk_completed = 1 → ∀ d ∈ st.bmds_list, d.bulk_completed = 1)
    (h : blk_mig_save_bulked_block_sync bl B st p = some out) :
    out.st.bulk_completed = 1 ↔ ∀ d ∈ out.st.bmds_list, d.bulk_completed = 1 := by
  simp only [blk_mig_save_bulked_block_sync] at h
  split at h
  · cases h
  · rename_i r l p' hrun
    cases h
    obtain ⟨_, h2⟩ := blk_mig_save_bulked_block_sync_devs_flags bl B _ _ _ _ _ _ _ hrun
    obtain ⟨⟨a, ha, ha0⟩, ⟨c, hc, hc0⟩⟩ := h2 (by simp)
    constructor
    · intro hg
      have := hinv hg a ha
      omega
    · intro hall
      have := hall c hc
      omega
  · rename_i l p' hrun
    cases h
    obtain ⟨h1, _⟩ := blk_mig_save_bulked_block_sync_devs_flags bl B _ _ _ _ _ _ _ hrun
    exact ⟨fun _ => h1 rfl, fun _ => rfl⟩

theorem set_bmds_mem (st : BlkMigState) (dev : Nat) (b d : BlkMigDevState)
    (h : d ∈ (set_bmds st dev b).bmds_list) : d = b ∨ d ∈ st.bmds_list := by
  simp only [set_bmds] at h
  rcases List.mem_or_eq_of_mem_set h with h | h
  · exact Or.inr h
  · exact Or.inl h

/-- The function `mig_save_device_bulk` changes neither the global bulk flag
nor the `bulk_completed` flag of any device. -/
theorem mig_save_device_bulk_flags (al : AioLayer) (fuel dev : Nat) (e : Engine) (r : Int)
    (e' : Engine) (h : mig_save_device_bulk al fuel dev e = some (r, e')) :
    e'.st.bulk_completed = e.st.bulk_completed ∧
    ∀ d' ∈ e'.st.bmds_list, ∃ d ∈ e.st.bmds_list, d.bulk_completed = d'.bulk_completed := by
  obtain ⟨bmds, cur, hb, _, hcase⟩ := mig_save_device_bulk_cases al fuel dev e r e' h
  have hmem : bmds ∈ e.st.bmds_list := List.getElem?_mem hb
  rcases hcase with ⟨_, _, rfl⟩ | ⟨_, _, _, rfl⟩ | ⟨_, _, _, rfl⟩
  · refine ⟨rfl, fun d' hd' => ?_⟩
    rcases set_bmds_mem _ _ _ _ hd' with rfl | hd
    · exact ⟨bmds, hmem, rfl⟩
    · exact ⟨d', hd, rfl⟩
  · refine ⟨rfl, fun d' hd' => ?_⟩
    rcases set_bmds_mem _ _ _ _ hd' with rfl | hd
    · exact ⟨bmds, hmem, rfl⟩
    · exact ⟨d', hd, rfl⟩
  · refine ⟨rfl, fun d' hd' => ?_⟩
    rcases set_bmds_mem _ _ _ _ hd' with rfl | hd
    · exact ⟨bmds, hmem, rfl⟩
    · exact ⟨d', hd, rfl⟩

/-- The device loop of `blk_mig_save_bulked_block` does not change the global
bulk flag, and the only change it makes to a device flag is to set it. -/
theorem blk_mig_save_bulked_block_devs_flags (al : AioLayer) (fuel : Nat) :
    ∀ (n dev : Nat) (sum : Int) (e : Engine) ret sum' e',
      blk_mig_save_bulked_block_devs al fuel n dev sum e = some (ret, sum', e') →
      e'.st.bulk_completed = e.st.bulk_completed ∧
      ∀ d' ∈ e'.st.bmds_list,
        d'.bulk_completed = 1 ∨ ∃ d ∈ e.st.bmds_list, d.bulk_completed = d'.bulk_completed := by
  intro n
  induction n with
  | zero =>
    intro dev sum e ret sum' e' h
    simp only [blk_mig_save_bulked_block_devs, Option.some.injEq, Prod.mk.injEq] at h
    obtain ⟨_, _, rfl⟩ := h
    exact ⟨rfl, fun d' hd' => Or.inr ⟨d', hd', rfl⟩⟩
  | succ n ih =>
    intro dev sum e ret sum' e' h
    simp only [blk_mig_save_bulked_block_devs] at h
    split at h
    · simp only [Option.some.injEq, Prod.mk.injEq] at h
      obtain ⟨_, _, rfl⟩ := h
      exact ⟨rfl, fun d' hd' => Or.inr ⟨d', hd', rfl⟩⟩
    · split at h
      · split at h
        · cases h
        · rename_i r e1 hbulk
          obtain ⟨hg, hfl⟩ := mig_save_device_bulk_flags al fuel dev e r e1 hbulk
          split at h
          · cases h
          · rename_i bmds1 hb1
            simp only [Option.some.injEq, Prod.mk.injEq] at h
            obtain ⟨_, _, rfl⟩ := h
            refine ⟨hg, fun d' hd' => ?_⟩
            rcases set_bmds_mem _ _ _ _ hd' with rfl | hd
            · split
              · exact Or.inl rfl
              · exact Or.inr (hfl bmds1 (List.getElem?_mem hb1))
            · exact Or.inr (hfl d' hd)
      · exact ih _ _ _ _ _ _ h

/-- The function `blk_mig_save_bulked_block` never changes the global bulk
flag, and the only change it makes to a device flag is to set it. -/
theorem blk_mig_save_bulked_block_flags (al : AioLayer) (fuel : Nat) (e : Engine) (ret : Int)
    (e' : Engine) (h : blk_mig_save_bulked_block al fuel e = some (ret, e')) :
    e'.st.bulk_completed = e.st.bulk_completed ∧
    ∀ d' ∈ e'.st.bmds_list,
      d'.bulk_completed = 1 ∨ ∃ d ∈ e.st.bmds_list, d.bulk_completed = d'.bulk_completed := by
  simp only [blk_mig_save_bulked_block] at h
  split at h
  · cases h
  · rename_i r sum e1 hdevs
    have := blk_mig_save_bulked_block_devs_flags al fuel _ _ _ _ _ _ _ hdevs
    split at h <;> split at h <;> (cases h; exact this)

/-- C12 (amended): in every state reachable from `init_blk_migration` by the
bulk operations, `block_mig_state.bulk_completed` is 1 only if every registered
device has `bulk_completed == 1`; after every return of
`blk_mig_save_bulked_block_sync` the flag is 1 if and only if every registered
device has `bulk_completed == 1`; and `blk_mig_save_bulked_block`, the
asynchronous path, never changes the flag. -/
theorem bulk_completed_flag (e : Engine) (h : bulk_reachable e) :
    (e.st.bulk_completed = 1 → ∀ d ∈ e.st.bmds_list, d.bulk_completed = 1) ∧
    (∀ bl BATCH_LEN out, blk_mig_save_bulked_block_sync bl BATCH_LEN e.st e.pipe = some out →
      (out.st.bulk_completed = 1 ↔ ∀ d ∈ out.st.bmds_list, d.bulk_completed = 1)) ∧
    (∀ al fuel ret e', blk_mig_save_bulked_block al fuel e = some (ret, e') →
      e'.st.bulk_completed = e.st.bulk_completed) := by
  have hinv : e.st.bulk_completed = 1 → ∀ d ∈ e.st.bmds_list, d.bulk_completed = 1 := by
    induction h with
    | init st f drives pipe =>
      intro hg
      simp only [init_blk_migration_bulk_completed] at hg
      omega
    | async al fuel e ret e' _ hstep ih =>
      intro hg d' hd'
      obtain ⟨h1, h2⟩ := blk_mig_save_bulked_block_flags al fuel e ret e' hstep
      rcases h2 d' hd' with h3 | ⟨d, hd, h3⟩
      · exact h3
      · rw [← h3]
        exact ih (h1 ▸ hg) d hd
    | sync bl B e out _ hstep ih =>
      intro hg
      exact (blk_mig_save_bulked_block_sync_flag bl B e.st e.pipe out ih hstep).mp hg
  exact ⟨hinv,
    fun bl B out hs => blk_mig_save_bulked_block_sync_flag bl B e.st e.pipe out hinv hs,
    fun al fuel ret e' hs => (blk_mig_save_bulked_block_flags al fuel e ret e' hs).1⟩

/-- C12 (amended) at the state right after `init_blk_migration` has registered
one device `"sda"` of 2048 sectors. -/
theorem bulk_completed_flag_witness :
    (init_engine.st.bulk_completed = 1 → ∀ d ∈ init_engine.st.bmds_list, d.bulk_completed = 1) ∧
    (∀ bl BATCH_LEN out,
      blk_mig_save_bulked_block_sync bl BATCH_LEN init_engine.st init_engine.pipe = some out →
      (out.st.bulk_completed = 1 ↔ ∀ d ∈ out.st.bmds_list, d.bulk_completed = 1)) ∧
    (∀ al fuel ret e', blk_mig_save_bulked_block al fuel init_engine = some (ret, e') →
      e'.st.bulk_completed = init_engine.st.bulk_completed) :=
  bulk_completed_flag init_engine
    (bulk_reachable.init (fresh_state 0 []) empty_file [sda 2048 (fun _ => true)] (empty_pipe 0))

/-- C12 as stated, on the asynchronous path: from the state right after
`init_blk_migration` has registered one device `"sda"` of 2048 sectors, one
call of `blk_mig_save_bulked_block` submits the read of the only chunk and sets
the device's `bulk_completed`.  In the state reached every registered device has
`bulk_completed == 1` and `block_mig_state.bulk_completed` is 0. -/
theorem async_bulk_leaves_global_flag :
    ∃ e, bulk_reachable e ∧ e.st.bulk_completed = 0 ∧
      e.st.bmds_list.map (fun d => d.bulk_completed) = [1] ∧
      ¬ (e.st.bulk_completed = 1 ↔ ∀ d ∈ e.st.bmds_list, d.bulk_completed = 1) :=
  ⟨_, bulk_reachable.async aio_ok 1 init_engine 1 _
      (bulk_reachable.init (fresh_state 0 []) empty_file [sda 2048 (fun _ => true)]
        (empty_pipe 0)) rfl,
    by decide, by decide, by decide⟩

/-! ## C13: the counters `submitted` and `read_done` -/

theorem init_blk_migration_it_counters (st : BlkMigState) (f : QEMUFile)
    (bs : BlockDriverState) :
    (init_blk_migration_it st f bs).1.submitted = st.submitted ∧
    (init_blk_migration_it st f bs).1.read_done = st.read_done ∧
    (init_blk_migration_it st f bs).1.blk_list = st.blk_list := by
  unfold init_blk_migration_it
  split
  · simp only
    split <;> exact ⟨rfl, rfl, rfl⟩
  · exact ⟨rfl, rfl, rfl⟩

/-- The function `init_blk_migration` zeroes both counters and leaves the
ready list alone. -/
theorem init_blk_migration_counters (st : BlkMigState) (f : QEMUFile)
    (drives : List BlockDriverState) :
    (init_blk_migration st f drives).1.submitted = 0 ∧
    (init_blk_migration st f drives).1.read_done = 0 ∧
    (init_blk_migration st f drives).1.blk_list = st.blk_list := by
  unfold init_blk_migration
  have h : ∀ (l : List BlockDriverState) (acc : BlkMigState × QEMUFile),
      (l.foldl (fun acc bs => init_blk_migration_it acc.1 acc.2 bs) acc).1.submitted
        = acc.1.submitted ∧
      (l.foldl (fun acc bs => init_blk_migration_it acc.1 acc.2 bs) acc).1.read_done
        = acc.1.read_done ∧
      (l.foldl (fun acc bs => init_blk_migration_it acc.1 acc.2 bs) acc).1.blk_list
        = acc.1.blk_list := by
    intro l
    induction l with
    | nil => intro acc; exact ⟨rfl, rfl, rfl⟩
    | cons bs l ih =>
      intro acc
      rw [List.foldl_cons]
      obtain ⟨h1, h2, h3⟩ := ih (init_blk_migration_it acc.1 acc.2 bs)
      obtain ⟨g1, g2, g3⟩ := init_blk_migration_it_counters acc.1 acc.2 bs
      exact ⟨h1.trans g1, h2.trans g2, h3.trans g3⟩
  obtain ⟨h1, h2, h3⟩ := h drives
    ({ st with submitted := 0, read_done := 0, transferred := 0, total_sector_sum := 0,
               prev_progress := -1, bulk_completed := 0, total_time := 0, reads := 0 }, f)
  exact ⟨h1, h2, h3⟩

/-- The completion callback with at least one read counted in `submitted` and
room in `read_done`: the assertion holds, `submitted` goes down by one,
`read_done` goes up by one, and the chunk is appended to the ready list. -/
theorem blk_mig_read_cb_counters (clock : Int) (st : BlkMigState) (blk : BlkMigBlock) (ret : Int)
    (h1 : 1 ≤ st.submitted) (h2 : st.submitted < 2 ^ 31) (h3 : 0 ≤ st.read_done)
    (h4 : st.read_done + 1 < 2 ^ 31) :
    ∃ st', blk_mig_read_cb clock st blk ret = Run.returns st' ∧
      st'.submitted = st.submitted - 1 ∧ st'.read_done = st.read_done + 1 ∧
      st'.blk_list.length = st.blk_list.length + 1 := by
  have hs : wrap32 (st.submitted - 1) = st.submitted - 1 := wrap32_of_int _ (by omega) (by omega)
  have hr : wrap32 (st.read_done + 1) = st.read_done + 1 := wrap32_of_int _ (by omega) (by omega)
  cases hb : st.bmds_list[blk.bmds]? with
  | none =>
    simp only [blk_mig_read_cb, add_avg_read_time, hb, hs, hr]
    rw [if_neg (by omega)]
    exact ⟨_, rfl, rfl, rfl, by simp⟩
  | some bmds =>
    simp only [blk_mig_read_cb, add_avg_read_time, hb, set_bmds, hs, hr]
    rw [if_neg (by omega)]
    exact ⟨_, rfl, rfl, rfl, by simp⟩

/-- Draining the reads `l` when `submitted` counts exactly them: every callback
passes its assertion, `submitted` ends at 0 and the chunks move to the ready
list and to `read_done`. -/
theorem aio_complete_counters (al : AioLayer) :
    ∀ (l : List BlkMigBlock) (st : BlkMigState), st.submitted = (l.length : Int) →
      st.read_done = (st.blk_list.length : Int) → l.length + st.blk_list.length < 2 ^ 31 →
      ∃ st', aio_complete al l st = Run.returns st' ∧ st'.submitted = 0 ∧
        st'.read_done = (st'.blk_list.length : Int) ∧
        st'.blk_list.length = st.blk_list.length + l.length := by
  intro l
  induction l with
  | nil =>
    intro st hs hr _
    exact ⟨st, rfl, by simpa using hs, hr, rfl⟩
  | cons blk rest ih =>
    intro st hs hr hb
    simp only [List.length_cons] at hs hb
    obtain ⟨st1, hcb, g1, g2, g3⟩ := blk_mig_read_cb_counters al.qemu_get_clock_ns st
      { blk with buf := (al.aio_result blk).1 } (al.aio_result blk).2
      (by omega) (by omega) (by omega) (by omega)
    obtain ⟨st', hrun, k1, k2, k3⟩ := ih st1 (by rw [g1, hs]; push_cast; omega)
      (by rw [g2, hr, g3]; push_cast; rfl) (by omega)
    refine ⟨st', ?_, k1, k2, ?_⟩
    · simp only [aio_complete, hcb, hrun]
    · rw [k3, g3, List.length_cons]
      omega

/-- The AIO drain from a state whose counters count: every callback passes its
assertion, and the counters count again, over the same chunks. -/
theorem qemu_aio_flush_counted (al : AioLayer) (e : Engine) (h : aio_counted e) :
    ∃ e1, qemu_aio_flush al e = Run.returns e1 ∧ aio_counted e1 ∧
      e1.inflight.length + e1.st.blk_list.length = e.inflight.length + e.st.blk_list.length := by
  obtain ⟨h1, h2, h3⟩ := h
  obtain ⟨st', hrun, k1, k2, k3⟩ := aio_complete_counters al e.inflight e.st h1 h2 h3
  refine ⟨{ e with st := st', inflight := [] }, ?_, ⟨?_, k2, ?_⟩, ?_⟩
  · simp only [qemu_aio_flush, hrun]
  · simpa using k1
  · simp only [List.length_nil, k3]
    omega
  · simp only [List.length_nil, k3]
    omega

/-- The loop of `flush_blks` from a state in which `read_done` counts the ready
list: no assertion fails, and `read_done` counts the ready list that is left. -/
theorem flush_blks_loop_counters (al : AioLayer) :
    ∀ (fuel : Nat) (st : BlkMigState) (f : QEMUFile) r,
      st.read_done = (st.blk_list.length : Int) → st.blk_list.length < 2 ^ 31 →
      flush_blks_loop al fuel st f = some r →
      ∃ st' f', r = Run.returns (st', f') ∧ st'.read_done = (st'.blk_list.length : Int) ∧
        st'.blk_list.length ≤ st.blk_list.length ∧ st'.submitted = st.submitted := by
  intro fuel
  induction fuel with
  | zero =>
    intro st f r _ _ h
    simp [flush_blks_loop] at h
  | succ fuel ih =>
    intro st f r hrd hlen h
    cases hl : st.blk_list with
    | nil =>
      simp only [flush_blks_loop, hl, Option.some.injEq] at h
      exact ⟨st, f, h.symm, hrd, by rw [hl], rfl⟩
    | cons blk rest =>
      simp only [flush_blks_loop, hl] at h
      rw [hl] at hrd hlen
      simp only [List.length_cons] at hrd hlen
      by_cases hrl : al.qemu_file_rate_limit f = true
      · rw [if_pos hrl] at h
        cases h
        exact ⟨st, f, rfl, by rw [hrd, hl]; rfl, by rw [hl], rfl⟩
      · rw [if_neg hrl] at h
        by_cases hret : blk.ret < 0
        · rw [if_pos hret] at h
          cases h
          exact ⟨st, _, rfl, by rw [hrd, hl]; rfl, by rw [hl], rfl⟩
        · rw [if_neg hret] at h
          cases hsend : blk_send st.bmds_list f blk with
          | none => simp [hsend] at h
          | some f1 =>
            simp only [hsend] at h
            have hw : wrap32 (st.read_done - 1) = (rest.length : Int) := by
              rw [wrap32_of_int _ (by omega) (by omega), hrd]
              push_cast
              omega
            rw [hw, if_neg (by omega)] at h
            obtain ⟨st', f', hr, k1, k2, k3⟩ := ih _ _ _ (by exact rfl) (by simp only; omega) h
            refine ⟨st', f', hr, k1, ?_, k3⟩
            simp only at k2
            simp only [List.length_cons]
            omega

/-- The loop of `flush_blks_master` from a state in which `read_done` counts
the ready list: no assertion fails, and `read_done` counts the ready list that
is left. -/
theorem flush_blks_master_loop_counters (B body : Nat) :
    ∀ (fuel : Nat) (st : BlkMigState) (f : QEMUFile) (heap : TaskHeap) r,
      st.read_done = (st.blk_list.length : Int) → st.blk_list.length < 2 ^ 31 →
      flush_blks_master_loop B body fuel st f heap = some r →
      ∃ st' f' heap', r = Run.returns (st', f', heap') ∧
        st'.read_done = (st'.blk_list.length : Int) ∧
        st'.blk_list.length ≤ st.blk_list.length ∧ st'.submitted = st.submitted := by
  intro fuel
  induction fuel with
  | zero =>
    intro st f heap r _ _ h
    simp [flush_blks_master_loop] at h
  | succ fuel ih =>
    intro st f heap r hrd hlen h
    cases hl : st.blk_list with
    | nil =>
      simp only [flush_blks_master_loop, hl, Option.some.injEq] at h
      exact ⟨st, f, heap, h.symm, hrd, by rw [hl], rfl⟩
    | cons blk rest =>
      simp only [flush_blks_master_loop, hl] at h
      rw [hl] at hrd hlen
      simp only [List.length_cons] at hrd hlen
      by_cases hret : blk.ret < 0
      · rw [if_pos hret] at h
        cases h
        exact ⟨st, _, heap, rfl, by rw [hrd, hl]; rfl, by rw [hl], rfl⟩
      · rw [if_neg hret] at h
        have hw : wrap32 (st.read_done - 1) = (rest.length : Int) := by
          rw [wrap32_of_int _ (by omega) (by omega), hrd]
          push_cast
          omega
        rw [hw, if_neg (by omega)] at h
        split at h
        · cases h
          exact ⟨_, f, _, rfl, rfl, by simp, rfl⟩
        · obtain ⟨st', f', heap', hr, k1, k2, k3⟩ :=
            ih _ _ _ _ (by exact rfl) (by simp only; omega) h
          refine ⟨st', f', heap', hr, k1, ?_, k3⟩
          simp only at k2
          simp only [List.length_cons]
          omega

theorem mig_save_device_dirty_return_eq (e : Engine) (dev : Nat) (r : Run (Int × Engine))
    (h : mig_save_device_dirty_return e dev = some r) : ∃ ret, r = Run.returns (ret, e) := by
  unfold mig_save_device_dirty_return at h
  split at h
  · cases h
  · cases h
    exact ⟨_, rfl⟩

theorem aio_counted_set_bmds (e : Engine) (dev : Nat) (b : BlkMigDevState) (h : aio_counted e) :
    aio_counted { e with st := set_bmds e.st dev b } := h

/-- A submission from a state whose counters count, with room for one more
chunk: the counters count the state with the new read in flight. -/
theorem aio_counted_submit (e : Engine) (dev : Nat) (b : BlkMigDevState) (blk : BlkMigBlock)
    (h : aio_counted e) (hroom : e.inflight.length + e.st.blk_list.length + 1 < 2 ^ 31) :
    aio_counted { e with
      st := set_bmds { e.st with submitted := wrap32 (e.st.submitted + 1) } dev b,
      inflight := e.inflight ++ [blk] } := by
  obtain ⟨h1, h2, h3⟩ := h
  refine ⟨?_, h2, ?_⟩
  · simp only [set_bmds, List.length_append, List.length_singleton]
    rw [wrap32_of_int _ (by omega) (by omega), h1]
    push_cast
    rfl
  · simp only [set_bmds, List.length_append, List.length_singleton]
    omega

/-- The loop of `mig_save_device_dirty` from a state whose counters count: the
assertion of no completion callback fails, and when there is room for one more
chunk the counters count the state the call leaves. -/
theorem mig_save_device_dirty_loop_counters (bl : BlockLayer) (al : AioLayer) (is_async : Int)
    (dev : Nat) :
    ∀ (fuel sector : Nat) (e : Engine) r, aio_counted e →
      mig_save_device_dirty_loop bl al is_async dev fuel sector e = some r →
      ∃ ret e', r = Run.returns (ret, e') ∧
        (e.inflight.length + e.st.blk_list.length + 1 < 2 ^ 31 → aio_counted e') := by
  intro fuel
  induction fuel with
  | zero =>
    intro sector e r _ h
    simp [mig_save_device_dirty_loop] at h
  | succ fuel ih =>
    intro sector e r hc h
    cases hb : e.st.bmds_list[dev]? with
    | none => simp [mig_save_device_dirty_loop, hb] at h
    | some bmds =>
      simp only [mig_save_device_dirty_loop, hb] at h
      by_cases hlt : sector < bmds.total_sectors
      · rw [if_pos hlt] at h
        have hfl : ∃ e1, (if bmds_aio_inflight bmds sector = true then qemu_aio_flush al e
            else Run.returns e) = Run.returns e1 ∧ aio_counted e1 ∧
            e1.inflight.length + e1.st.blk_list.length
              = e.inflight.length + e.st.blk_list.length := by
          split
          · exact qemu_aio_flush_counted al e hc
          · exact ⟨e, rfl, hc, rfl⟩
        obtain ⟨e1, he1, hc1, hlive⟩ := hfl
        rw [he1] at h
        simp only at h
        cases hb1 : e1.st.bmds_list[dev]? with
        | none => simp [hb1] at h
        | some bmds1 =>
          simp only [hb1] at h
          by_cases hd : bdrv_get_dirty bmds1.bs sector = true
          · rw [if_pos hd] at h
            by_cases ha : is_async ≠ 0
            · rw [if_pos ha] at h
              by_cases hrd : al.bdrv_aio_readv bmds1.bs sector
                  (sweep_nr_sectors bmds1.total_sectors sector) = true
              · rw [if_pos hrd] at h
                obtain ⟨ret, hr⟩ := mig_save_device_dirty_return_eq _ _ _ h
                exact ⟨ret, _, hr, fun hroom =>
                  aio_counted_submit e1 dev _ _ hc1 (by omega)⟩
              · rw [if_neg hrd] at h
                cases h
                exact ⟨_, _, rfl, fun _ => hc1⟩
            · rw [if_neg ha] at h
              cases hread : bl.bdrv_read bmds1.bs sector
                  (sweep_nr_sectors bmds1.total_sectors sector) with
              | none =>
                simp only [hread] at h
                cases h
                exact ⟨_, _, rfl, fun _ => hc1⟩
              | some data =>
                simp only [hread] at h
                split at h
                · cases h
                · obtain ⟨ret, hr⟩ := mig_save_device_dirty_return_eq _ _ _ h
                  exact ⟨ret, _, hr, fun _ => hc1⟩
          · rw [if_neg hd] at h
            obtain ⟨ret, e', hr, hc'⟩ := ih _ _ _ (aio_counted_set_bmds e1 dev _ hc1) h
            exact ⟨ret, e', hr, fun hroom => hc' (by simp only [set_bmds]; omega)⟩
      · rw [if_neg hlt] at h
        obtain ⟨ret, hr⟩ := mig_save_device_dirty_return_eq _ _ _ h
        exact ⟨ret, e, hr, fun _ => hc⟩

/-- In every reachable state of the asynchronous engine `submitted` counts the
reads in flight and `read_done` counts the ready list. -/
theorem aio_reachable_counted (e : Engine) (h : aio_reachable e) : aio_counted e := by
  induction h with
  | init st f drives pipe hl =>
    obtain ⟨h1, h2, h3⟩ := init_blk_migration_counters st f drives
    refine ⟨?_, ?_, ?_⟩
    · simp only [h1, List.length_nil, Nat.cast_zero]
    · simp only [h2, h3, hl, List.length_nil, Nat.cast_zero]
    · simp only [h3, hl, List.length_nil]
      decide
  | bulk al fuel dev e ret e' _ hroom hstep ih =>
    obtain ⟨bmds, cur, _, _, hcase⟩ := mig_save_device_bulk_cases al fuel dev e ret e' hstep
    rcases hcase with ⟨_, _, rfl⟩ | ⟨_, _, _, rfl⟩ | ⟨_, _, _, rfl⟩
    · exact ih
    · exact aio_counted_submit e dev _ _ ih hroom
    · exact ih
  | dirty bl al is_async dev e ret e' _ _ hroom hstep ih =>
    unfold mig_save_device_dirty at hstep
    split at hstep
    · cases hstep
    · obtain ⟨ret', e'', hr, hc⟩ :=
        mig_save_device_dirty_loop_counters bl al is_async dev _ _ _ _ ih hstep
      cases hr
      exact hc hroom
  | read_cb clock i blk data ret e st' _ hi hcb ih =>
    obtain ⟨h1, h2, h3⟩ := ih
    have hlt : i < e.inflight.length := (List.getElem?_eq_some.mp hi).1
    obtain ⟨st'', hrun, g1, g2, g3⟩ := blk_mig_read_cb_counters clock e.st
      { blk with buf := data } ret (by omega) (by omega) (by omega) (by omega)
    rw [hrun] at hcb
    cases hcb
    refine ⟨?_, ?_, ?_⟩
    · simp only [List.length_eraseIdx, hlt, if_true, g1, h1]
      omega
    · simp only [g2, g3, h2]
      push_cast
      rfl
    · simp only [List.length_eraseIdx, hlt, if_true, g3]
      omega
  | flush al e e' _ hstep ih =>
    obtain ⟨h1, h2, h3⟩ := ih
    unfold flush_blks at hstep
    split at hstep
    · cases hstep
    · cases hstep
    · rename_i st1 f1 hloop
      cases hstep
      obtain ⟨st', f', hr, k1, k2, k3⟩ :=
        flush_blks_loop_counters al _ _ _ _ h2 (by omega) hloop
      cases hr
      exact ⟨k3.trans h1, k1, by simp only; omega⟩
  | flush_master B M last e ret e' _ hstep ih =>
    obtain ⟨h1, h2, h3⟩ := ih
    unfold flush_blks_master at hstep
    split at hstep
    · cases hstep
      exact ⟨h1, h2, h3⟩
    · split at hstep
      · cases hstep
        exact ⟨h1, h2, h3⟩
      · simp only at hstep
        split at hstep
        · cases hstep
        · cases hstep
        · rename_i st1 f1 heap1 hloop
          cases hstep
          obtain ⟨st', f', heap', hr, k1, k2, k3⟩ :=
            flush_blks_master_loop_counters B _ _ _ _ _ _ h2 (by omega) hloop
          cases hr
          exact ⟨k3.trans h1, k1, by simp only; omega⟩

/-- C13: in every state reachable from `init_blk_migration` by asynchronous
read submissions (`mig_save_device_bulk`, `mig_save_device_dirty` with
`is_async` set), completion callbacks `blk_mig_read_cb` fired once per read in
flight, and flushes (`flush_blks`, `flush_blks_master`), `submitted ≥ 0` and
`read_done ≥ 0` (`submitted` is the number of reads in flight and `read_done`
the length of the ready list), and no assertion on `submitted` or `read_done`
fails in the next step: not in the callback of a read in flight, not in the
callbacks run by the AIO drain of `mig_save_device_dirty`, not in `flush_blks`
and not in `flush_blks_master`. -/
theorem aio_counters_nonneg (e : Engine) (h : aio_reachable e) :
    0 ≤ e.st.submitted ∧ 0 ≤ e.st.read_done ∧
    e.st.submitted = (e.inflight.length : Int) ∧
    e.st.read_done = (e.st.blk_list.length : Int) ∧
    (∀ (clock : Int) (i : Nat) (blk : BlkMigBlock) (data : List Nat) (ret : Int),
      e.inflight[i]? = some blk →
      blk_mig_read_cb clock e.st { blk with buf := data } ret ≠ Run.aborts) ∧
    (∀ bl al is_async dev, mig_save_device_dirty bl al is_async dev e ≠ some Run.aborts) ∧
    (∀ al, flush_blks al e ≠ some Run.aborts) ∧
    (∀ BATCH_LEN BATCH_MIN_LEN last,
      flush_blks_master BATCH_LEN BATCH_MIN_LEN last e ≠ some Run.aborts) := by
  have hc := aio_reachable_counted e h
  obtain ⟨h1, h2, h3⟩ := hc
  refine ⟨by omega, by omega, h1, h2, ?_, ?_, ?_, ?_⟩
  · intro clock i blk data ret hi
    have hlt : i < e.inflight.length := (List.getElem?_eq_some.mp hi).1
    obtain ⟨st'', hrun, _⟩ := blk_mig_read_cb_counters clock e.st
      { blk with buf := data } ret (by omega) (by omega) (by omega) (by omega)
    rw [hrun]
    exact fun hx => by cases hx
  · intro bl al is_async dev hx
    unfold mig_save_device_dirty at hx
    split at hx
    · cases hx
    · obtain ⟨ret', e'', hr, _⟩ :=
        mig_save_device_dirty_loop_counters bl al is_async dev _ _ _ _ ⟨h1, h2, h3⟩ hx
      cases hr
  · intro al hx
    unfold flush_blks at hx
    split at hx
    · cases hx
    · rename_i hloop
      obtain ⟨st', f', hr, _⟩ := flush_blks_loop_counters al _ _ _ _ h2 (by omega) hloop
      cases hr
    · cases hx
  · intro B M last hx
    unfold flush_blks_master at hx
    split at hx
    · cases hx
    · split at hx
      · cases hx
      · simp only at hx
        split at hx
        · cases hx
        · rename_i hloop
          obtain ⟨st', f', heap', hr, _⟩ :=
            flush_blks_master_loop_counters B _ _ _ _ _ _ h2 (by omega) hloop
          cases hr
        · cases hx

/-- C13 at the state with one read in flight: the state reached from
`init_blk_migration` of one device `"sda"` of 2048 sectors by one call of
`mig_save_device_bulk`. -/
theorem aio_counters_nonneg_witness :
    0 ≤ one_in_flight_engine.st.submitted ∧ 0 ≤ one_in_flight_engine.st.read_done ∧
    one_in_flight_engine.st.submitted = (one_in_flight_engine.inflight.length : Int) ∧
    one_in_flight_engine.st.read_done = (one_in_flight_engine.st.blk_list.length : Int) ∧
    (∀ (clock : Int) (i : Nat) (blk : BlkMigBlock) (data : List Nat) (ret : Int),
      one_in_flight_engine.inflight[i]? = some blk →
      blk_mig_read_cb clock one_in_flight_engine.st { blk with buf := data } ret
        ≠ Run.aborts) ∧
    (∀ bl al is_async dev,
      mig_save_device_dirty bl al is_async dev one_in_flight_engine ≠ some Run.aborts) ∧
    (∀ al, flush_blks al one_in_flight_engine ≠ some Run.aborts) ∧
    (∀ BATCH_LEN BATCH_MIN_LEN last,
      flush_blks_master BATCH_LEN BATCH_MIN_LEN last one_in_flight_engine
        ≠ some Run.aborts) :=
  aio_counters_nonneg one_in_flight_engine
    (aio_reachable.bulk aio_ok 1 0 init_engine 1 one_in_flight_engine
      (aio_reachable.init (fresh_state 0 []) empty_file [sda 2048 (fun _ => true)]
        (empty_pipe 0) rfl)
      (by decide) rfl)

/-- One chunk through the asynchronous path, from the state right after
`init_blk_migration` has registered the device `"sda"` of 2048 sectors:
the submission takes `submitted` to 1, the completion callback takes
`submitted` back to 0 and `read_done` to 1, and `flush_blks` sends the chunk,
taking `read_done` back to 0 and `transferred` to 1. -/
theorem aio_one_chunk_example :
    ∃ e1 st2 e3, mig_save_device_bulk aio_ok 1 0 init_engine = some (1, e1) ∧
      (e1.st.submitted, e1.st.read_done, e1.inflight) = (1, 0, [sync_chunk 0 0 2048]) ∧
      blk_mig_read_cb 0 e1.st (sync_chunk 0 0 2048) 0 = Run.returns st2 ∧
      (st2.submitted, st2.read_done, st2.blk_list) = (0, 1, [sync_chunk 0 0 2048]) ∧
      flush_blks aio_ok { e1 with st := st2, inflight := [] } = some (Run.returns e3) ∧
      (e3.st.submitted, e3.st.read_done, e3.st.transferred, e3.st.blk_list) = (0, 0, 1, []) :=
  ⟨_, _, _, rfl, by decide, rfl, by decide, rfl, by decide⟩

/-! ## C15: `flush_blks_master` -/

/-! ### The counter `transferred` in reachable states -/

end BlockMigration
